import Mathlib

/-!
# Feedback Collection Platform: response aggregation and export

A shallow embedding of `server/routes/responses.js` (submission, listing, summary,
export), `server/routes/forms.js` (create, read, update, delete) and the client's
`utils/validation.js`, together with the parts of JavaScript they rely on: plain objects
used as maps, binary64 arithmetic with `Number.prototype.toFixed`, and array helpers.
Definitions come first, theorems afterwards.
-/

namespace Feedback

/-! ## Data model (`server/models/Form.js`) -/

/-- A question sub-document of a form (`questionSchema`). Identifiers are kept as the
strings produced by `_id.toString()`. -/
structure Question where
  _id : String
  type : String
  question : String
  options : List String
  required : Bool
deriving DecidableEq, Repr

/-- A form document (`formSchema`). -/
structure Form where
  _id : String
  title : String
  description : Option String
  questions : List Question
  createdBy : String
  isActive : Bool
  publicId : String
deriving DecidableEq, Repr

/-- Modelled from the spec: the answer sub-document of `models/Response.js`, a file that
is not among the sources; a question reference and an answer value. -/
structure Answer where
  questionId : String
  answer : String
deriving DecidableEq, Repr

/-- Modelled from the spec: the response document of `models/Response.js`, a file that is
not among the sources; the fields are those the route handlers read and write.
`submittedAt` is the number of milliseconds since the epoch. -/
structure Response where
  _id : String
  formId : String
  answers : List Answer
  submittedAt : Int
  ipAddress : String
  userAgent : String
deriving DecidableEq, Repr

/-! ## JavaScript objects used as string-keyed maps -/

/-- The own enumerable properties of a plain object whose values are numbers, in
insertion order. (JavaScript lists integer-like keys first; only lookups and the
multiset of values are used below, which do not depend on the order.) -/
abbrev JsObject := List (String × Nat)

/-- The assignment `obj[key] = v` on a plain object `obj` created by `{}`.
The key `__proto__` reaches the accessor inherited from `Object.prototype`, whose
setter ignores a number and creates no own property; any other key is updated in
place when present and appended otherwise. -/
def objSet (obj : JsObject) (key : String) (v : Nat) : JsObject :=
  if key = "__proto__" then obj
  else if obj.any (fun p => p.1 == key) then
    obj.map (fun p => if p.1 == key then (key, v) else p)
  else obj ++ [(key, v)]

/-- The own property `obj[key]`, if there is one. -/
def objGet (obj : JsObject) (key : String) : Option Nat :=
  (obj.find? (fun p => p.1 == key)).map (fun p => p.2)

/-- The values of the own properties, `Object.values(obj)`. -/
def objValues (obj : JsObject) : List Nat :=
  obj.map (fun p => p.2)

/-! ## JavaScript numbers: binary64 division, multiplication and `toFixed(1)` -/

/-- A finite non-negative binary64 value, held exactly as the fraction `num / den`. -/
structure F64 where
  num : Nat
  den : Nat
deriving DecidableEq, Repr

/-- The position of the leading binary digit of `n`, with `fuel` bounding the recursion
(`fuel = n` always suffices). -/
def floorLog2 : Nat → Nat → Nat
  | 0, _ => 0
  | fuel + 1, n => if n < 2 then 0 else floorLog2 fuel (n / 2) + 1

/-- The integer nearest to `a / b`, the even one of the two when `a / b` lies midway. -/
def roundHalfEven (a b : Nat) : Nat :=
  let q := a / b
  let r := a % b
  if 2 * r < b then q else if b < 2 * r then q + 1 else if q % 2 = 0 then q else q + 1

/-- The binary exponent `e` of the positive fraction `a / b`: `2^e ≤ a / b < 2^(e+1)`. -/
def binaryExponent (a b : Nat) : Int :=
  let e0 : Int := (floorLog2 a a : Int) - (floorLog2 b b : Int)
  if a * 2 ^ (-e0).toNat < b * 2 ^ e0.toNat then e0 - 1 else e0

/-- Round-to-nearest, ties-to-even, of the exact fraction `a / b` to a 53-bit significand:
the result of every binary64 operation whose exact result is `a / b`. The exponent is
unbounded, which agrees with binary64 for results in the normal range
(`2^-1022 ≤ a / b < 2^1024`). -/
def roundBinary64 (a b : Nat) : F64 :=
  if a = 0 then ⟨0, 1⟩
  else
    let e := binaryExponent a b
    let up := (52 - e).toNat
    let down := (e - 52).toNat
    let m := roundHalfEven (a * 2 ^ up) (b * 2 ^ down)
    ⟨m * 2 ^ down, 2 ^ up⟩

/-- The number value of a non-negative integer such as an array length (exact below `2^53`). -/
def F64.ofNat (n : Nat) : F64 := ⟨n, 1⟩

/-- The JavaScript quotient `x / y` of two finite non-negative numbers, `y` non-zero. -/
def F64.div (x y : F64) : F64 := roundBinary64 (x.num * y.den) (x.den * y.num)

/-- The JavaScript product `x * y` of two finite non-negative numbers. -/
def F64.mul (x y : F64) : F64 := roundBinary64 (x.num * y.num) (x.den * y.den)

/-- The integer `n` chosen by `x.toFixed(1)`: the one for which `n / 10 - x` is as close
to zero as possible, the larger one if there are two. -/
def F64.tenths (x : F64) : Nat := (20 * x.num + x.den) / (2 * x.den)

/-- The string `toFixed(1)` builds from the chosen integer `n`: its decimal digits, padded
with a leading zero to two digits, with a point before the last one. -/
def fixed1String (n : Nat) : String :=
  let m := (Nat.repr n).data
  let m := if m.length ≤ 1 then List.replicate (2 - m.length) '0' ++ m else m
  String.mk (m.take (m.length - 1) ++ '.' :: m.drop (m.length - 1))

/-- The method `x.toFixed(1)` for a finite `0 ≤ x < 10^21`. -/
def F64.toFixed1 (x : F64) : String := fixed1String x.tenths

/-! ## Summary (`GET /form/:formId/summary`) -/

/-- The entry of `questionSummaries` for one question. `options` and `optionCounts` are
present for a multiple-choice question, `responses` otherwise. -/
structure QuestionSummary where
  questionId : String
  question : String
  type : String
  totalResponses : Nat
  options : Option (List String)
  optionCounts : Option JsObject
  responses : Option (List String)
  responseRate : String
deriving DecidableEq, Repr

/-- The `responseTimeframe` object; `none` stands for `null`. -/
structure ResponseTimeframe where
  earliest : Option Int
  latest : Option Int
deriving DecidableEq, Repr

/-- The `form` object of the summary. -/
structure FormInfo where
  id : String
  title : String
  description : Option String
deriving DecidableEq, Repr

/-- The body of a successful summary reply. -/
structure Summary where
  form : FormInfo
  totalResponses : Nat
  questionSummaries : List QuestionSummary
  responseTimeframe : ResponseTimeframe
deriving DecidableEq, Repr

/-- The list `questionResponses` (lines 182-184): from every response the first answer
whose `questionId` is the question's, the responses without one dropped by
`filter(Boolean)`. -/
def questionResponses (responses : List Response) (question : Question) : List Answer :=
  (responses.map fun r => r.answers.find? fun a => a.questionId == question._id).filterMap id

/-- The object `optionCounts` (lines 188-191). -/
def optionCounts (question : Question) (qr : List Answer) : JsObject :=
  question.options.foldl
    (fun acc option => objSet acc option (qr.filter fun r => r.answer == option).length) []

/-- The expression
`totalResponses > 0 ? ((questionResponses.length / totalResponses) * 100).toFixed(1) : '0'`
with `k = questionResponses.length` and `n = totalResponses`. -/
def responseRate (k n : Nat) : String :=
  if n > 0 then (((F64.ofNat k).div (F64.ofNat n)).mul (F64.ofNat 100)).toFixed1 else "0"

/-- The callback of `form.questions.map` (lines 181-213). -/
def summarizeQuestion (responses : List Response) (question : Question) : QuestionSummary :=
  let qr := questionResponses responses question
  if question.type = "multiple-choice" then
    { questionId := question._id
      question := question.question
      type := question.type
      totalResponses := qr.length
      options := some question.options
      optionCounts := some (optionCounts question qr)
      responses := none
      responseRate := responseRate qr.length responses.length }
  else
    { questionId := question._id
      question := question.question
      type := question.type
      totalResponses := qr.length
      options := none
      optionCounts := none
      responses := some ((qr.take 20).map fun r => r.answer)
      responseRate := responseRate qr.length responses.length }

/-- The reply built from the form and the fetched `responses` array (lines 178-227). -/
def computeSummary (form : Form) (responses : List Response) : Summary :=
  { form := { id := form._id, title := form.title, description := form.description }
    totalResponses := responses.length
    questionSummaries := form.questions.map (summarizeQuestion responses)
    responseTimeframe :=
      { earliest := if responses.length > 0 then
          (responses.get? (responses.length - 1)).map fun r => r.submittedAt else none
        latest := if responses.length > 0 then
          (responses.get? 0).map fun r => r.submittedAt else none } }


/-! ## The stores and the summary request -/

/-- The two collections, each in the store's natural order (the order of insertion). -/
structure Db where
  forms : List Form
  responses : List Response
deriving DecidableEq, Repr

/-- A reply of an owner-only read: a body with status 200, or a status with an `error`
message. -/
inductive Reply (α : Type) where
  | ok (body : α)
  | error (status : Nat) (error : String)
deriving DecidableEq, Repr

/-- The query `Response.find({ formId })` of line 177: the form's responses as the store
holds them, no sort being asked for. -/
def findResponses (db : Db) (formId : String) : List Response :=
  db.responses.filter fun r => r.formId == formId

/-- The cursor method `.sort({ submittedAt: -1 })`: newest first, responses with equal
timestamps kept in their stored order, which is how the specification words the store's
ordering contract (ties broken by insertion order). -/
def sortNewestFirst (responses : List Response) : List Response :=
  responses.insertionSort fun a b => b.submittedAt ≤ a.submittedAt

/-- The strings that are the hexadecimal form of an `ObjectId`: 24 hexadecimal digits.
These are the strings that the constructor `ObjectId` of the current driver takes. -/
def isObjectId (s : String) : Bool :=
  s.data.length == 24 && s.data.all fun c =>
    ('0' ≤ c && c ≤ '9') || ('a' ≤ c && c ≤ 'f') || ('A' ≤ c && c ≤ 'F')

/-- The cast of a query value for the path `_id` to an `ObjectId`, which Mongoose makes
before it sends the query. The identifiers of stored documents are `ObjectId`s, so a
string that names a stored form casts; any other string casts when it is the hexadecimal
form of an `ObjectId`. On a string that does not cast the query rejects with a
`CastError`, and the handler goes to its `catch` branch, which answers 500. -/
def castsToObjectId (db : Db) (id : String) : Bool :=
  isObjectId id || db.forms.any fun f => f._id == id

/-- The document that `Form.findOne({ _id: formId, createdBy: req.user._id })` resolves
to, for a `formId` that casts to an `ObjectId`. -/
def findOwnedForm (db : Db) (formId userId : String) : Option Form :=
  db.forms.find? fun f => f._id == formId && f.createdBy == userId

/-- The handler of `GET /form/:formId/summary` (lines 167-232) for the user the `auth`
middleware has identified. -/
def getSummary (db : Db) (userId formId : String) : Reply Summary :=
  if !castsToObjectId db formId then .error 500 "Server error"
  else
    match findOwnedForm db formId userId with
    | none => .error 404 "Form not found"
    | some form => .ok (computeSummary form (findResponses db formId))

/-! ## Submission (`POST /` and `POST /public/:publicId`) -/

/-- What the handler takes from the request and its environment besides the answers: the
identifier and the timestamp the new document receives, `req.ip` and the `User-Agent`
header. -/
structure RequestMeta where
  newId : String
  now : Int
  ip : String
  userAgent : String
deriving DecidableEq, Repr

/-- The reply of a submission. -/
inductive SubmitReply where
  | fieldErrors
  | error (status : Nat) (error : String)
  | created (responseId : String)
deriving DecidableEq, Repr

/-- The validation chain on the body: `answers` is an array of at least one entry and
every entry has a non-empty `questionId` and a non-empty `answer`. -/
def bodyValid (answers : List Answer) : Bool :=
  decide (1 ≤ answers.length) && answers.all fun a => a.questionId != "" && a.answer != ""

/-- The checks of lines 31-49 (and 89-107): the error message of the first failing check,
if any. -/
def checkAnswers (form : Form) (answers : List Answer) : Option String :=
  let questionIds := form.questions.map fun q => q._id
  let requiredQuestions := (form.questions.filter fun q => q.required).map fun q => q._id
  let answeredQuestions := answers.map fun a => a.questionId
  if requiredQuestions.any fun requiredId => !answeredQuestions.contains requiredId then
    some "All required questions must be answered"
  else if answers.any fun answer => !questionIds.contains answer.questionId then
    some "Invalid question ID in answers"
  else none

/-- The part both handlers share once the form is found: the checks, then
`new Response(...).save()` with the given `formId`. -/
def submitTo (db : Db) (form : Form) (formId : String) (answers : List Answer)
    (env : RequestMeta) : Db × SubmitReply :=
  match checkAnswers form answers with
  | some msg => (db, .error 400 msg)
  | none =>
    let response : Response :=
      { _id := env.newId, formId := formId, answers := answers, submittedAt := env.now
        ipAddress := env.ip, userAgent := env.userAgent }
    ({ db with responses := db.responses ++ [response] }, .created response._id)

/-- The handler of `POST /public/:publicId` (lines 68-123). -/
def postPublic (db : Db) (publicId : String) (answers : List Answer) (env : RequestMeta) :
    Db × SubmitReply :=
  if !bodyValid answers then (db, .fieldErrors)
  else
    match db.forms.find? fun f => f.publicId == publicId && f.isActive with
    | none => (db, .error 404 "Form not found or inactive")
    | some form => submitTo db form form._id answers env

/-- The handler of `POST /` (lines 10-65). -/
def postResponse (db : Db) (formId : String) (answers : List Answer) (env : RequestMeta) :
    Db × SubmitReply :=
  if !(formId != "" && bodyValid answers) then (db, .fieldErrors)
  else if !castsToObjectId db formId then (db, .error 500 "Server error")
  else
    match db.forms.find? fun f => f._id == formId && f.isActive with
    | none => (db, .error 404 "Form not found or inactive")
    | some form => submitTo db form formId answers env

/-! ## Export (`GET /form/:formId/export`) -/

/-- The decimal digits of `n`, padded on the left with zeros to at least `width` digits. -/
def padDigits (width n : Nat) : String :=
  let ds := (Nat.repr n).data
  String.mk (List.replicate (width - ds.length) '0' ++ ds)

/-- The method `Date.prototype.toISOString` for a time value of `ms` milliseconds since
the epoch (a valid date, `|ms| ≤ 8.64e15`): `YYYY-MM-DDTHH:mm:ss.sssZ` in the proleptic
Gregorian calendar, the year written with a sign and six digits outside 0..9999. -/
def toISOString (ms : Int) : String :=
  let days := ms / 86400000
  let rest := (ms % 86400000).toNat
  let z := days + 719468
  let era := z / 146097
  let doe := (z % 146097).toNat
  let yoe := (doe - doe / 1460 + doe / 36524 - doe / 146096) / 365
  let doy := doe - (365 * yoe + yoe / 4 - yoe / 100)
  let mp := (5 * doy + 2) / 153
  let d := doy - (153 * mp + 2) / 5 + 1
  let m := if mp < 10 then mp + 3 else mp - 9
  let y : Int := (yoe : Int) + era * 400 + (if m ≤ 2 then 1 else 0)
  let year :=
    if 0 ≤ y ∧ y ≤ 9999 then padDigits 4 y.toNat
    else (if y < 0 then "-" else "+") ++ padDigits 6 y.natAbs
  year ++ "-" ++ padDigits 2 m ++ "-" ++ padDigits 2 d ++ "T" ++
    padDigits 2 (rest / 3600000) ++ ":" ++ padDigits 2 (rest / 60000 % 60) ++ ":" ++
    padDigits 2 (rest / 1000 % 60) ++ "." ++ padDigits 3 (rest % 1000) ++ "Z"

/-- The array `headers` (line 248). -/
def headers (form : Form) : List String :=
  "Response ID" :: "Submitted At" :: form.questions.map fun q => q.question

/-- The array `rows` (lines 251-260). -/
def rows (form : Form) (responses : List Response) : List (List String) :=
  responses.map fun response =>
    [response._id, toISOString response.submittedAt] ++
      form.questions.map fun question =>
        match response.answers.find? fun a => a.questionId == question._id with
        | some answer => answer.answer
        | none => ""

/-- The replacement `.replace(/"/g, '""')`: every double quote written twice. -/
def doubleQuotes : List Char → List Char
  | [] => []
  | c :: cs => if c = '"' then '"' :: '"' :: doubleQuotes cs else c :: doubleQuotes cs

/-- The template string of line 264: the escaped field between two double quotes. -/
def quoteField (field : List Char) : List Char :=
  '"' :: (doubleQuotes field ++ ['"'])

/-- The method `Array.prototype.join` with a one-character separator. -/
def joinWith (sep : Char) : List (List Char) → List Char
  | [] => []
  | [x] => x
  | x :: y :: rest => x ++ sep :: joinWith sep (y :: rest)

/-- The string `csvContent` (lines 263-265) for the table `[headers, ...rows]`. -/
def csvContent (table : List (List String)) : String :=
  String.mk (joinWith '\n' (table.map fun row => joinWith ',' (row.map fun field =>
    quoteField field.data)))

/-- The body sent by the export for the fetched and sorted `responses`. -/
def exportCsv (form : Form) (responses : List Response) : String :=
  csvContent (headers form :: rows form responses)

/-- The handler of `GET /form/:formId/export` (lines 235-274). -/
def getExport (db : Db) (userId formId : String) : Reply String :=
  if !castsToObjectId db formId then .error 500 "Server error"
  else
    match findOwnedForm db formId userId with
    | none => .error 404 "Form not found"
    | some form => .ok (exportCsv form (sortNewestFirst (findResponses db formId)))

/-! ## A reader for RFC 4180 text -/

/-- Where the reader stands within a record: at its start, at the start of a later field,
inside a field without quotes, inside a quoted field, after a double quote met inside a
quoted field, or after a carriage return that ends a record. -/
inductive CsvState where
  | recordStart
  | fieldStart
  | unquoted
  | quoted
  | quoteSeen
  | crSeen
deriving DecidableEq, Repr

/-- Modelled from the spec: the standard CSV reader of the round-trip property, after the
grammar of RFC 4180. A field is either enclosed in double quotes, where two double quotes
stand for one and commas and line breaks are data, or holds no double quote, comma or
line break; fields are separated by commas, records by a line break (CRLF, or a bare LF
as readers accept), and a final line break is optional. `field` and `row` hold what has
been read of the current field and record, `done` the finished records; text outside the
grammar gives `none`. -/
def readCsv : CsvState → List Char → List String → List (List String) → List Char →
    Option (List (List String))
  | st, field, row, done, [] =>
    match st with
    | .recordStart => some done
    | .quoted => none
    | .crSeen => none
    | _ => some (done ++ [row ++ [String.mk field]])
  | st, field, row, done, c :: cs =>
    match st with
    | .quoted =>
      if c = '"' then readCsv .quoteSeen field row done cs
      else readCsv .quoted (field ++ [c]) row done cs
    | .crSeen =>
      if c = '\n' then readCsv .recordStart [] [] (done ++ [row]) cs else none
    | .quoteSeen =>
      if c = '"' then readCsv .quoted (field ++ ['"']) row done cs
      else if c = ',' then readCsv .fieldStart [] (row ++ [String.mk field]) done cs
      else if c = '\n' then readCsv .recordStart [] [] (done ++ [row ++ [String.mk field]]) cs
      else if c = '\r' then readCsv .crSeen [] (row ++ [String.mk field]) done cs
      else none
    | .unquoted =>
      if c = '"' then none
      else if c = ',' then readCsv .fieldStart [] (row ++ [String.mk field]) done cs
      else if c = '\n' then readCsv .recordStart [] [] (done ++ [row ++ [String.mk field]]) cs
      else if c = '\r' then readCsv .crSeen [] (row ++ [String.mk field]) done cs
      else readCsv .unquoted (field ++ [c]) row done cs
    | _ =>
      if c = '"' then readCsv .quoted [] row done cs
      else if c = ',' then readCsv .fieldStart [] (row ++ [""]) done cs
      else if c = '\n' then readCsv .recordStart [] [] (done ++ [row ++ [""]]) cs
      else if c = '\r' then readCsv .crSeen [] (row ++ [""]) done cs
      else readCsv .unquoted [c] row done cs

/-- The records a standard reader finds in `text`. -/
def parseCsv (text : String) : Option (List (List String)) :=
  readCsv .recordStart [] [] [] text.data

/-! ## Listing (`GET /form/:formId`) -/

/-- The function `Math.ceil` on a finite non-negative number. -/
def F64.ceil (x : F64) : Nat := (x.num + x.den - 1) / x.den

/-- The `pagination` object of the listing. `totalPages` is `none` when the quotient is
not finite (a limit of 0), which `res.json` writes as `null`. -/
structure Pagination where
  currentPage : Nat
  totalPages : Option Nat
  totalResponses : Nat
  hasMore : Bool
deriving DecidableEq, Repr

/-- The `form` object of the listing. -/
structure ListingForm where
  id : String
  title : String
  questions : List Question
deriving DecidableEq, Repr

/-- The body of a successful listing reply. -/
structure Listing where
  responses : List Response
  pagination : Pagination
  form : ListingForm
deriving DecidableEq, Repr

/-- The handler of `GET /form/:formId` (lines 126-164). `page` and `limit` are the query
parameters, decimal numerals read as numbers, `none` when absent (defaults 1 and 50);
their products and sums are exact below `2^53`. A page of 0 makes `skip` negative, which
the store refuses, so the handler answers 500; a limit of 0 asks the store for no limit. -/
def getResponses (db : Db) (userId formId : String) (page limit : Option Nat) :
    Reply Listing :=
  let page := page.getD 1
  let limit := limit.getD 50
  if !castsToObjectId db formId then .error 500 "Server error"
  else
    match findOwnedForm db formId userId with
    | none => .error 404 "Form not found"
    | some form =>
      if page = 0 ∧ limit ≠ 0 then .error 500 "Server error"
      else
        let skip := (page - 1) * limit
        let sorted := (sortNewestFirst (findResponses db formId)).drop skip
        let responses := if limit = 0 then sorted else sorted.take limit
        let totalResponses := (findResponses db formId).length
        .ok
          { responses := responses
            pagination :=
              { currentPage := page
                totalPages :=
                  if limit = 0 then none
                  else some ((F64.ofNat totalResponses).div (F64.ofNat limit)).ceil
                totalResponses := totalResponses
                hasMore := decide (skip + responses.length < totalResponses) }
            form := { id := form._id, title := form.title, questions := form.questions } }

/-- The `responses` array of a listing reply, empty for an error reply. -/
def listedResponses (reply : Reply Listing) : List Response :=
  match reply with
  | .ok l => l.responses
  | .error _ _ => []


instance : IsTotal Response (fun a b => b.submittedAt ≤ a.submittedAt) :=
  ⟨fun a b => le_total b.submittedAt a.submittedAt⟩

instance : IsTrans Response (fun a b => b.submittedAt ≤ a.submittedAt) :=
  ⟨fun _ _ _ hab hbc => le_trans hbc hab⟩

/-! ## Forms (`server/routes/forms.js`) -/

/-- The characters that `String.prototype.trim` and the pattern `\s` take for white
space: the white space and line terminator code points of ECMAScript. -/
def isJsSpace (c : Char) : Bool :=
  let n := c.toNat
  (9 ≤ n && n ≤ 13) || n == 0x20 || n == 0xA0 || n == 0x1680 || (0x2000 ≤ n && n ≤ 0x200A) ||
    n == 0x2028 || n == 0x2029 || n == 0x202F || n == 0x205F || n == 0x3000 || n == 0xFEFF

/-- The method `String.prototype.trim`, which is also what the `trim()` sanitizer and the
schema option `trim: true` apply. -/
def jsTrim (s : String) : String :=
  String.mk ((s.data.dropWhile isJsSpace).reverse.dropWhile isJsSpace).reverse

/-- The property `length` of a string: its number of UTF-16 code units. -/
def jsLength (s : String) : Nat :=
  (s.data.map fun c => c.utf16Size.toNat).sum

/-- The value of `options` in a question of a request body: absent, a JSON array of
strings, or a JSON string standing where the array is expected. No validator of the two
routes looks at the kind of value that `options` has. -/
inductive OptionsBody where
  | absent
  | array (items : List String)
  | text (value : String)
deriving DecidableEq, Repr

/-- A question as a request body carries it; `_id`, `options` and `required` may be
absent. -/
structure QuestionBody where
  _id : Option String
  type : String
  question : String
  options : OptionsBody
  required : Option Bool
deriving DecidableEq, Repr

/-- The body of a create or update request; every field may be absent. -/
structure FormBody where
  title : Option String
  description : Option String
  questions : Option (List QuestionBody)
  isActive : Option Bool
deriving DecidableEq, Repr

/-- What a forms handler takes from its environment: the identifier of a new form
document, the value of `uuidv4()`, and the identifiers given to question sub-documents
that come without one. -/
structure FormMeta where
  newId : String
  publicId : String
  questionId : Nat → String

/-- The reply of a create or update request; the body of a success is the stored form. -/
inductive FormReply where
  | fieldErrors
  | error (status : Nat) (error : String)
  | created (form : Form)
  | ok (form : Form)
deriving DecidableEq, Repr

/-- The array that the schema path `options: [{ type: String, trim: true }]` casts a value
to: an absent value gives the empty array, an array is cast entry by entry, and a value
that is not an array is wrapped into an array of one entry (`castNonArrays`, which is on
unless a schema turns it off); every entry is trimmed. -/
def castOptions : OptionsBody → List String
  | .absent => []
  | .array items => items.map jsTrim
  | .text value => [jsTrim value]

/-- The question sub-documents the schema casts a request's question list to: an absent
`_id` is generated, the text is trimmed, the options are cast by `castOptions` and an
absent `required` is `true`. -/
def castQuestions (fresh : Nat → String) : Nat → List QuestionBody → List Question
  | _, [] => []
  | i, q :: qs =>
    { _id := q._id.getD (fresh i), type := q.type, question := jsTrim q.question
      options := castOptions q.options, required := q.required.getD true } ::
      castQuestions fresh (i + 1) qs

/-- The validators on `questions`: an array of 3 to 5 entries, every `type` one of the two
kinds and every `question` non-empty. -/
def questionsFieldValid (questions : List QuestionBody) : Bool :=
  decide (3 ≤ questions.length) && decide (questions.length ≤ 5) &&
    questions.all fun q =>
      (q.type == "text" || q.type == "multiple-choice") && q.question != ""

/-- The loop of lines 26-30 (and 146-150): for some multiple-choice question the test
`!question.options || question.options.length < 2` holds. The test reads `length` off
whatever value `options` is: the number of entries of an array, the number of UTF-16 code
units of a string; an absent value and the empty string are falsy. -/
def lacksOptions (questions : List QuestionBody) : Bool :=
  questions.any fun question =>
    question.type == "multiple-choice" &&
      match question.options with
      | .absent => true
      | .array options => decide (options.length < 2)
      | .text options => options == "" || decide (jsLength options < 2)

/-- The handler of `POST /` of the forms router (lines 11-48) for the user the `auth`
middleware has identified. The schema's validation on `save` refuses a title or a
question text that is empty once trimmed, and the unique index a `publicId` in use; the
`catch` branch then answers 500. -/
def createForm (db : Db) (userId : String) (body : FormBody) (env : FormMeta) :
    Db × FormReply :=
  match body.title, body.questions with
  | some title, some questions =>
    if !(title != "" && questionsFieldValid questions) then (db, .fieldErrors)
    else if lacksOptions questions then
      (db, .error 400 "Multiple-choice questions must have at least 2 options")
    else
      let form : Form :=
        { _id := env.newId, title := jsTrim title, description := body.description.map jsTrim
          questions := castQuestions env.questionId 0 questions, createdBy := userId
          isActive := true, publicId := env.publicId }
      if form.title == "" || form.questions.any (fun q => q.question == "") ||
          db.forms.any (fun f => f.publicId == form.publicId) then
        (db, .error 500 "Server error")
      else ({ db with forms := db.forms ++ [form] }, .created form)
  | _, _ => (db, .fieldErrors)

/-- The handler of `PUT /:id` (lines 119-163) for the user the `auth` middleware has
identified. -/
def updateForm (db : Db) (userId id : String) (body : FormBody) (env : FormMeta) :
    Db × FormReply :=
  if !((match body.title with | some title => title != "" | none => true) &&
      (match body.questions with
        | some questions => questionsFieldValid questions
        | none => true)) then (db, .fieldErrors)
  else if !castsToObjectId db id then (db, .error 500 "Server error")
  else
    match findOwnedForm db id userId with
    | none => (db, .error 404 "Form not found")
    | some form =>
      let form1 :=
        match body.title with
        | some title => if jsTrim title != "" then { form with title := jsTrim title } else form
        | none => form
      let form2 :=
        match body.description with
        | some description => { form1 with description := some (jsTrim description) }
        | none => form1
      match body.questions with
      | some questions =>
        if lacksOptions questions then
          (db, .error 400 "Multiple-choice questions must have at least 2 options")
        else
          let form3 := { form2 with questions := castQuestions env.questionId 0 questions }
          let form4 :=
            match body.isActive with
            | some isActive => { form3 with isActive := isActive }
            | none => form3
          if form4.questions.any (fun q => q.question == "") then
            (db, .error 500 "Server error")
          else
            ({ db with forms := db.forms.map fun f => if f._id == form._id then form4 else f },
              .ok form4)
      | none =>
        let form4 :=
          match body.isActive with
          | some isActive => { form2 with isActive := isActive }
          | none => form2
        ({ db with forms := db.forms.map fun f => if f._id == form._id then form4 else f },
          .ok form4)

/-- The form invariant of the data model: 3 to 5 questions, and at least 2 options on
every multiple-choice question. -/
def questionsValid (questions : List Question) : Prop :=
  3 ≤ questions.length ∧ questions.length ≤ 5 ∧
    ∀ q ∈ questions, q.type = "multiple-choice" → 2 ≤ q.options.length

/-- A question list of a request that breaks one of the two bounds: the number of
questions, or the number of options a multiple-choice question would be stored with. -/
def violatesBounds (questions : List QuestionBody) : Prop :=
  questions.length < 3 ∨ 5 < questions.length ∨
    ∃ q ∈ questions, q.type = "multiple-choice" ∧ (castOptions q.options).length < 2

/-- The question lists in which `options`, where present, is an array. -/
def optionsAreArrays (questions : List QuestionBody) : Prop :=
  ∀ q ∈ questions, ∀ value, q.options ≠ .text value

/-- A create or an update request. -/
inductive FormRequest where
  | create (userId : String) (body : FormBody) (env : FormMeta)
  | update (userId id : String) (body : FormBody) (env : FormMeta)

/-- The store after a request. -/
def applyRequest (db : Db) : FormRequest → Db
  | .create userId body env => (createForm db userId body env).1
  | .update userId id body env => (updateForm db userId id body env).1

/-- The stores that create and update requests build from the empty store. -/
inductive Reachable : Db → Prop where
  | empty : Reachable { forms := [], responses := [] }
  | step (db : Db) (request : FormRequest) : Reachable db → Reachable (applyRequest db request)

/-- The forms of a store all meet the form invariant. -/
def FormsValid (db : Db) : Prop :=
  ∀ f ∈ db.forms, questionsValid f.questions

/-! ## Owner-only reads, delete and the public read (`server/routes/forms.js`) -/

/-- The body of `GET /:id`: the form document with the number of its responses. -/
structure FormWithCount where
  form : Form
  responseCount : Nat
deriving DecidableEq, Repr

/-- The handler of `GET /:id` (lines 76-97) for the user the `auth` middleware has
identified. -/
def getForm (db : Db) (userId id : String) : Reply FormWithCount :=
  if !castsToObjectId db id then .error 500 "Server error"
  else
    match findOwnedForm db id userId with
    | none => .error 404 "Form not found"
    | some form =>
      .ok { form := form
            responseCount := (db.responses.filter fun r => r.formId == form._id).length }

/-- The handler of `DELETE /:id` (lines 166-188): `Response.deleteMany({ formId })`, then
`Form.findByIdAndDelete`, which removes the one document of that `_id`. -/
def deleteForm (db : Db) (userId id : String) : Db × Reply String :=
  if !castsToObjectId db id then (db, .error 500 "Server error")
  else
    match findOwnedForm db id userId with
    | none => (db, .error 404 "Form not found")
    | some form =>
      ({ forms := db.forms.eraseP fun f => f._id == form._id
         responses := db.responses.filter fun r => !(r.formId == form._id) },
        .ok "Form and associated responses deleted successfully")

/-- A form document without `createdBy`, as `.select('-createdBy')` returns it. -/
structure PublicForm where
  _id : String
  title : String
  description : Option String
  questions : List Question
  isActive : Bool
  publicId : String
deriving DecidableEq, Repr

/-- The projection `.select('-createdBy')`. -/
def publicView (form : Form) : PublicForm :=
  { _id := form._id, title := form.title, description := form.description
    questions := form.questions, isActive := form.isActive, publicId := form.publicId }

/-- The handler of `GET /public/:publicId` (lines 100-116). -/
def getPublicForm (db : Db) (publicId : String) : Reply PublicForm :=
  match db.forms.find? fun f => f.publicId == publicId && f.isActive with
  | none => .error 404 "Form not found or inactive"
  | some form => .ok (publicView form)

/-! ## The export's file name -/

/-- The characters of the class `[a-zA-Z0-9]`. -/
def isAsciiAlnum (c : Char) : Bool :=
  ('a' ≤ c && c ≤ 'z') || ('A' ≤ c && c ≤ 'Z') || ('0' ≤ c && c ≤ '9')

/-- The replacement `.replace(/[^a-zA-Z0-9]/g, '-')`. The pattern has no `u` flag and so
matches single UTF-16 code units: a character outside the basic plane is two units, each
of which is replaced. -/
def sanitizeTitle (title : String) : String :=
  String.mk (title.data.flatMap fun c =>
    if isAsciiAlnum c then [c] else List.replicate c.utf16Size.toNat '-')

/-- The file name within the header value of line 268. -/
def exportFileName (title : String) : String :=
  "form-responses-" ++ sanitizeTitle title ++ ".csv"

/-- The value of the `Content-Disposition` header (line 268). -/
def contentDisposition (title : String) : String :=
  "attachment; filename=\"" ++ exportFileName title ++ "\""

/-! ## Client-side validation (`client/src/utils/validation.js`, `pages/PublicForm.js`) -/

/-- The assignment `errors[key] = message` on a plain object created by `{}`, with the
same treatment of the key `__proto__` as `objSet`: a string is not an object, so the
inherited setter ignores it. -/
def errorsSet (errors : List (String × String)) (key message : String) :
    List (String × String) :=
  if key = "__proto__" then errors
  else if errors.any (fun p => p.1 == key) then
    errors.map (fun p => if p.1 == key then (key, message) else p)
  else errors ++ [(key, message)]

/-- The result object of the two validators. -/
structure Validation where
  isValid : Bool
  errors : List (String × String)
deriving DecidableEq, Repr

/-- A question of the form data that the client validates: the form builder keeps
`options` as an array of strings, or leaves it out. -/
structure QuestionInput where
  _id : Option String
  type : String
  question : String
  options : Option (List String)
  required : Option Bool
deriving DecidableEq, Repr

/-- The form data that the client validates; every field may be absent. -/
structure FormInput where
  title : Option String
  description : Option String
  questions : Option (List QuestionInput)
  isActive : Option Bool
deriving DecidableEq, Repr

/-- The callback of `formData.questions.forEach` (lines 22-30), run from `index` on. -/
def questionErrors : Nat → List QuestionInput → List (String × String) →
    List (String × String)
  | _, [], errors => errors
  | index, question :: rest, errors =>
    let errors :=
      if jsTrim question.question == "" then
        errorsSet errors ("question_" ++ toString index) "Question text is required"
      else errors
    let errors :=
      if question.type == "multiple-choice" &&
          (match question.options with
            | none => true
            | some options => decide (options.length < 2)) then
        errorsSet errors ("question_" ++ toString index ++ "_options")
          "Multiple choice questions must have at least 2 options"
      else errors
    questionErrors (index + 1) rest errors

/-- The function `validateForm` (lines 10-37). -/
def validateForm (formData : FormInput) : Validation :=
  let errors : List (String × String) := []
  let errors :=
    if (match formData.title with
        | none => true
        | some title => jsTrim title == "") then
      errorsSet errors "title" "Form title is required"
    else errors
  let errors :=
    if (match formData.questions with
        | none => true
        | some questions => decide (questions.length < 3) || decide (questions.length > 5)) then
      errorsSet errors "questions" "Form must have between 3 and 5 questions"
    else errors
  let errors :=
    match formData.questions with
    | none => errors
    | some questions => questionErrors 0 questions errors
  { isValid := errors.length == 0, errors := errors }

/-- The function `validateFormResponse` (lines 39-59); `none` stands for a form that has
not been loaded. -/
def validateFormResponse (form : Option PublicForm) (answers : List Answer) : Validation :=
  match form with
  | none => { isValid := false, errors := [("form", "Invalid form")] }
  | some form =>
    let requiredQuestions := form.questions.filter fun q => q.required
    let errors := requiredQuestions.foldl
      (fun errors question =>
        match answers.find? fun a => a.questionId == question._id with
        | none => errorsSet errors question._id "This field is required"
        | some answer =>
          if answer.answer == "" || jsTrim answer.answer == "" then
            errorsSet errors question._id "This field is required"
          else errors)
      []
    { isValid := errors.length == 0, errors := errors }

/-- The array `filteredAnswers` of `handleSubmit` (lines 100-105 of `PublicForm.js`): the
blank entries dropped, the others trimmed. -/
def filteredAnswers (answers : List Answer) : List Answer :=
  (answers.filter fun answer => answer.answer != "" && jsTrim answer.answer != "").map
    fun answer => { questionId := answer.questionId, answer := jsTrim answer.answer }

/-- The validators of `PUT /:id` on the body: a title, when supplied, is non-empty, and a
question list, when supplied, passes `questionsFieldValid`. -/
def updateBodyValid (body : FormBody) : Bool :=
  (match body.title with
    | some title => title != ""
    | none => true) &&
  (match body.questions with
    | some questions => questionsFieldValid questions
    | none => true)

/-! ## The two computations on documents with missing parts -/

/-- The errors that the two computations can throw. -/
inductive JsError where
  | typeError
  | rangeError
deriving DecidableEq, Repr

/-- A `Date` field as a document may hold it: no value, an invalid date, or a time value
in milliseconds. -/
inductive DateField where
  | missing
  | invalid
  | time (ms : Int)
deriving DecidableEq, Repr

/-- Modelled from the spec: an answer sub-document of `models/Response.js` as the two
computations may meet it, the reference `questionId` present or missing. Reading a
missing `answer` throws nothing, so the value is kept as a string. -/
structure AnswerDoc where
  questionId : Option String
  answer : String
deriving DecidableEq, Repr

/-- Modelled from the spec: a response document of `models/Response.js` as the two
computations may meet it, with the fields that they read. The path `answers` is an array
in every document that Mongoose hydrates. -/
structure ResponseDoc where
  _id : String
  answers : List AnswerDoc
  submittedAt : DateField
deriving DecidableEq, Repr

/-- A form document as the two computations read it; the question list may be missing.
The `options` of a question are an array in every document that Mongoose hydrates. -/
structure FormDoc where
  _id : String
  title : String
  description : Option String
  questions : Option (List Question)
deriving DecidableEq, Repr

/-- The call `answers.find(a => a.questionId.toString() === question._id.toString())`:
the callback runs on the answers in order until one matches, and reading `toString` off a
missing `questionId` throws a `TypeError`. -/
def findAnswer (questionId : String) : List AnswerDoc → Except JsError (Option Answer)
  | [] => .ok none
  | a :: rest =>
    match a.questionId with
    | none => .error .typeError
    | some id =>
      if id == questionId then .ok (some { questionId := id, answer := a.answer })
      else findAnswer questionId rest

/-- The list `questionResponses` (lines 182-184) over documents: `map` runs `find` on
every response in order, and `filter(Boolean)` drops the responses without an answer. -/
def collectAnswers (questionId : String) : List ResponseDoc → Except JsError (List Answer)
  | [] => .ok []
  | r :: rest =>
    match findAnswer questionId r.answers with
    | .error e => .error e
    | .ok found =>
      match collectAnswers questionId rest with
      | .error e => .error e
      | .ok others =>
        .ok (match found with
          | some answer => answer :: others
          | none => others)

/-- The callback of `form.questions.map` (lines 181-213) over documents. -/
def summarizeQuestionDoc (responses : List ResponseDoc) (question : Question) :
    Except JsError QuestionSummary :=
  match collectAnswers question._id responses with
  | .error e => .error e
  | .ok qr =>
    if question.type = "multiple-choice" then
      .ok { questionId := question._id
            question := question.question
            type := question.type
            totalResponses := qr.length
            options := some question.options
            optionCounts := some (optionCounts question qr)
            responses := none
            responseRate := responseRate qr.length responses.length }
    else
      .ok { questionId := question._id
            question := question.question
            type := question.type
            totalResponses := qr.length
            options := none
            optionCounts := none
            responses := some ((qr.take 20).map fun r => r.answer)
            responseRate := responseRate qr.length responses.length }

/-- The call `form.questions.map(...)` of line 181 on a question list. -/
def summarizeQuestionsDoc (responses : List ResponseDoc) :
    List Question → Except JsError (List QuestionSummary)
  | [] => .ok []
  | question :: rest =>
    match summarizeQuestionDoc responses question with
    | .error e => .error e
    | .ok entry =>
      match summarizeQuestionsDoc responses rest with
      | .error e => .error e
      | .ok entries => .ok (entry :: entries)

/-- The value that `res.json` writes for a `submittedAt`: the time value; a missing value
leaves the key out and an invalid date is written as `null`, both `none` here. -/
def DateField.json : DateField → Option Int
  | .missing => none
  | .invalid => none
  | .time ms => some ms

/-- The summary computation (lines 177-227) over documents: reading `map` off a missing
question list throws a `TypeError`. -/
def summaryDoc (form : FormDoc) (responses : List ResponseDoc) : Except JsError Summary :=
  match form.questions with
  | none => .error .typeError
  | some questions =>
    match summarizeQuestionsDoc responses questions with
    | .error e => .error e
    | .ok entries =>
      .ok { form := { id := form._id, title := form.title, description := form.description }
            totalResponses := responses.length
            questionSummaries := entries
            responseTimeframe :=
              { earliest := if responses.length > 0 then
                  (responses.get? (responses.length - 1)).bind fun r => r.submittedAt.json
                  else none
                latest := if responses.length > 0 then
                  (responses.get? 0).bind fun r => r.submittedAt.json else none } }

/-- The call `response.submittedAt.toISOString()` of line 252: a `TypeError` on a missing
value, a `RangeError` on an invalid date. -/
def DateField.toISOString : DateField → Except JsError String
  | .missing => .error .typeError
  | .invalid => .error .rangeError
  | .time ms => .ok (Feedback.toISOString ms)

/-- The loop `form.questions.forEach` of lines 254-257 for one response: the cells that
follow the identifier and the timestamp. -/
def answerCells (answers : List AnswerDoc) : List Question → Except JsError (List String)
  | [] => .ok []
  | question :: rest =>
    match findAnswer question._id answers with
    | .error e => .error e
    | .ok found =>
      match answerCells answers rest with
      | .error e => .error e
      | .ok cells =>
        .ok ((match found with
          | some answer => answer.answer
          | none => "") :: cells)

/-- The callback of `responses.map` (lines 251-260) over documents. -/
def rowDoc (questions : List Question) (response : ResponseDoc) :
    Except JsError (List String) :=
  match response.submittedAt.toISOString with
  | .error e => .error e
  | .ok stamp =>
    match answerCells response.answers questions with
    | .error e => .error e
    | .ok cells => .ok (response._id :: stamp :: cells)

/-- The array `rows` (lines 251-260) over documents. -/
def rowsDoc (questions : List Question) : List ResponseDoc → Except JsError (List (List String))
  | [] => .ok []
  | response :: rest =>
    match rowDoc questions response with
    | .error e => .error e
    | .ok row =>
      match rowsDoc questions rest with
      | .error e => .error e
      | .ok others => .ok (row :: others)

/-- The export computation (lines 245-265) over documents, for the fetched and sorted
`responses`. -/
def exportDoc (form : FormDoc) (responses : List ResponseDoc) : Except JsError String :=
  match form.questions with
  | none => .error .typeError
  | some questions =>
    match rowsDoc questions responses with
    | .error e => .error e
    | .ok rows =>
      .ok (csvContent
        (("Response ID" :: "Submitted At" :: questions.map fun q => q.question) :: rows))

/-- The document of an answer that has its reference. -/
def Answer.toDoc (answer : Answer) : AnswerDoc :=
  { questionId := some answer.questionId, answer := answer.answer }

/-- The document of a response that has its timestamp and whose answers have their
references. -/
def Response.toDoc (response : Response) : ResponseDoc :=
  { _id := response._id, answers := response.answers.map Answer.toDoc
    submittedAt := .time response.submittedAt }

/-- The document of a form that has its question list. -/
def Form.toDoc (form : Form) : FormDoc :=
  { _id := form._id, title := form.title, description := form.description
    questions := some form.questions }

/-- A response document with a submission timestamp, whose answers each have a question
reference. -/
def ResponseDoc.wellFormed (response : ResponseDoc) : Bool :=
  (match response.submittedAt with
    | .time _ => true
    | _ => false) &&
  response.answers.all fun a => a.questionId.isSome

/-- A well-formed input of the two computations: a form with a question list, and
responses each having a submission timestamp and answers each having a question
reference. -/
def wellFormedInput (form : FormDoc) (responses : List ResponseDoc) : Bool :=
  form.questions.isSome && responses.all ResponseDoc.wellFormed

/-! ## The rate as the specification words it -/

/-- The decimal numeral of `t / 10` with exactly one fractional digit. -/
def decimalString (t : Nat) : String :=
  toString (t / 10) ++ "." ++ toString (t % 10)

/-- The exact quotient `k / n * 100` rounded to one decimal place, counted in tenths; a
value midway between two tenths goes up. -/
def roundedTenths (k n : Nat) : Nat :=
  (2000 * k + n) / (2 * n)

/-! ## Sample data -/

/-- A multiple-choice question one of whose two options is the string `__proto__`. -/
def protoQuestion : Question :=
  { _id := "q2", type := "multiple-choice", question := "Which field?"
    options := ["__proto__", "Other"], required := true }

/-- A form of three questions around `protoQuestion`. -/
def protoForm : Form :=
  { _id := "f1", title := "Survey", description := none
    questions :=
      [{ _id := "q1", type := "text", question := "Name", options := [], required := false },
       protoQuestion,
       { _id := "q3", type := "text", question := "Notes", options := [], required := false }]
    createdBy := "u1", isActive := true, publicId := "p1" }

/-- A store with `protoForm` and one response choosing the option `__proto__`. -/
def protoDb : Db :=
  { forms := [protoForm]
    responses :=
      [{ _id := "r1", formId := "f1", answers := [{ questionId := "q2", answer := "__proto__" }]
         submittedAt := 1000, ipAddress := "10.0.0.1", userAgent := "agent" }] }

/-- A form with a text question and a required multiple-choice question. -/
def ratingForm : Form :=
  { _id := "f1", title := "Feedback", description := none
    questions :=
      [{ _id := "q1", type := "text", question := "Comments", options := [], required := false },
       { _id := "q2", type := "multiple-choice", question := "Rating"
         options := ["Good", "Bad"], required := true },
       { _id := "q3", type := "text", question := "Email", options := [], required := false }]
    createdBy := "u1", isActive := true, publicId := "p1" }

/-- The response submitted at time `t` holding the comment `text`. -/
def commentAt (t : Nat) (text : String) : Response :=
  { _id := "r" ++ toString t, formId := "f1"
    answers := [{ questionId := "q1", answer := text }, { questionId := "q2", answer := "Good" }]
    submittedAt := t, ipAddress := "10.0.0.1", userAgent := "agent" }

/-- A store holding `ratingForm` and two responses, inserted at times 1000 and 2000. -/
def twoResponsesDb : Db :=
  { forms := [ratingForm], responses := [commentAt 1000 "first", commentAt 2000 "second"] }

/-- A store holding `ratingForm` and 21 responses inserted at times 1, 2, ..., 21, the one
of time `t` with the comment `c<t>`. -/
def manyResponsesDb : Db :=
  { forms := [ratingForm]
    responses := (List.range 21).map fun i => commentAt (i + 1) ("c" ++ toString (i + 1)) }

/-- A submission to `ratingForm` whose rating is none of the declared options. -/
def undeclaredRating : List Answer :=
  [{ questionId := "q2", answer := "Excellent" }]

/-- The environment of a sample request. -/
def sampleMeta : RequestMeta :=
  { newId := "r9", now := 5000, ip := "10.0.0.2", userAgent := "agent" }

/-- The response submitted at time `t` that answers the rating question only. -/
def ratingAt (t : Nat) (rating : String) : Response :=
  { _id := "r" ++ toString t, formId := "f1"
    answers := [{ questionId := "q2", answer := rating }]
    submittedAt := t, ipAddress := "10.0.0.1", userAgent := "agent" }

/-- A store holding `ratingForm` and 80 responses, the first 23 of which hold a comment. -/
def eightyResponsesDb : Db :=
  { forms := [ratingForm]
    responses := (List.range 80).map fun i =>
      if i < 23 then commentAt (i + 1) "fine" else ratingAt (i + 1) "Good" }

/-- Three responses to `ratingForm`: one with a comment and the rating `Good`, one with
the rating `Bad`, one with the rating `Good`. -/
def threeResponses : List Response :=
  [commentAt 3 "Nice", ratingAt 2 "Bad", ratingAt 1 "Good"]

/-- The form of the scenario: the text question `Comments`, not required, and the
required multiple-choice question `Rating` with the options `Good` and `Bad`. -/
def scenarioForm : Form :=
  { _id := "f1", title := "Feedback", description := none
    questions :=
      [{ _id := "q1", type := "text", question := "Comments", options := [], required := false },
       { _id := "q2", type := "multiple-choice", question := "Rating"
         options := ["Good", "Bad"], required := true }]
    createdBy := "u1", isActive := true, publicId := "p1" }

/-- Form data with three questions, the second a multiple-choice question with two
options. -/
def sampleFormInput : FormInput :=
  { title := some " Lunch ", description := none
    questions := some
      [{ _id := none, type := "text", question := "Name", options := none, required := none },
       { _id := none, type := "multiple-choice", question := "Dish "
         options := some ["Soup ", "Salad"], required := none },
       { _id := none, type := "text", question := "Notes", options := none
         required := some false }]
    isActive := none }

/-- The body of a sample create request: the form data `sampleFormInput` as JSON. -/
def sampleFormBody : FormBody :=
  { title := some " Lunch ", description := none
    questions := some
      [{ _id := none, type := "text", question := "Name", options := .absent, required := none },
       { _id := none, type := "multiple-choice", question := "Dish "
         options := .array ["Soup ", "Salad"], required := none },
       { _id := none, type := "text", question := "Notes", options := .absent
         required := some false }]
    isActive := none }

/-- A create request whose multiple-choice question carries the string `ab` as its
`options`. -/
def stringOptionsBody : FormBody :=
  { title := some "Lunch", description := none
    questions := some
      [{ _id := none, type := "text", question := "Name", options := .absent, required := none },
       { _id := none, type := "multiple-choice", question := "Dish"
         options := .text "ab", required := none },
       { _id := none, type := "text", question := "Notes", options := .absent
         required := some false }]
    isActive := none }

/-- The form that the request `stringOptionsBody` stores. -/
def stringOptionsForm : Form :=
  { _id := "f9", title := "Lunch", description := none
    questions :=
      [{ _id := "q0", type := "text", question := "Name", options := [], required := true },
       { _id := "q1", type := "multiple-choice", question := "Dish"
         options := ["ab"], required := true },
       { _id := "q2", type := "text", question := "Notes", options := [], required := false }]
    createdBy := "u1", isActive := true, publicId := "p9" }

/-- The environment of a sample forms request. -/
def sampleFormMeta : FormMeta :=
  { newId := "f9", publicId := "p9", questionId := fun i => "q" ++ toString i }

/-- The form the sample create request stores. -/
def sampleStoredForm : Form :=
  { _id := "f9", title := "Lunch", description := none
    questions :=
      [{ _id := "q0", type := "text", question := "Name", options := [], required := true },
       { _id := "q1", type := "multiple-choice", question := "Dish"
         options := ["Soup", "Salad"], required := true },
       { _id := "q2", type := "text", question := "Notes", options := [], required := false }]
    createdBy := "u1", isActive := true, publicId := "p9" }

/-- The form `ratingForm` with its active flag cleared. -/
def closedForm : Form :=
  { ratingForm with isActive := false }

/-- An update request that supplies an empty title and nothing else. -/
def emptyTitleUpdate : FormBody :=
  { title := some "", description := none, questions := none, isActive := none }

/-- A form whose identifiers have the shape of `ObjectId` strings. -/
def pollForm : Form :=
  { _id := "64b7f0a1c2d3e4f5a6b7c8d0", title := "Poll", description := none
    questions :=
      [{ _id := "64b7f0a1c2d3e4f5a6b7c8d1", type := "text", question := "Name", options := []
         required := true },
       { _id := "64b7f0a1c2d3e4f5a6b7c8d2", type := "text", question := "Notes", options := []
         required := false },
       { _id := "64b7f0a1c2d3e4f5a6b7c8d3", type := "multiple-choice", question := "Pick"
         options := ["A", "B"], required := true }]
    createdBy := "64b7f0a1c2d3e4f5a6b7c8e0", isActive := true, publicId := "p7" }

/-- A store that holds the form `pollForm` and no response. -/
def pollDb : Db :=
  { forms := [pollForm], responses := [] }

/-- The answer state of the public page for `pollForm`: a padded name, blank notes and a
choice. -/
def pollAnswers : List Answer :=
  [{ questionId := "64b7f0a1c2d3e4f5a6b7c8d1", answer := " Ada " },
   { questionId := "64b7f0a1c2d3e4f5a6b7c8d2", answer := "  " },
   { questionId := "64b7f0a1c2d3e4f5a6b7c8d3", answer := "A" }]

/-- Two response documents of `ratingForm`, the second without a timestamp and with an
answer that has no reference. -/
def brokenResponseDocs : List ResponseDoc :=
  [{ _id := "r1", answers := [{ questionId := some "q1", answer := "Good" }]
     submittedAt := .time 1000 },
   { _id := "r2", answers := [{ questionId := none, answer := "Bad" }]
     submittedAt := .missing }]

/-! ## Theorems -/

/-! ### The cast of an identifier -/

theorem castsToObjectId_of_mem (db : Db) (id : String) (form : Form) (hmem : form ∈ db.forms)
    (hid : form._id = id) : castsToObjectId db id = true := by
  unfold castsToObjectId
  rw [Bool.or_eq_true, List.any_eq_true]
  exact Or.inr ⟨form, hmem, by simpa using hid⟩

theorem castsToObjectId_of_owned (db : Db) (formId userId : String) (form : Form)
    (h : findOwnedForm db formId userId = some form) : castsToObjectId db formId = true := by
  have hp := List.find?_some (p := fun (f : Form) => f._id == formId && f.createdBy == userId) h
  simp only [Bool.and_eq_true, beq_iff_eq] at hp
  exact castsToObjectId_of_mem db formId form (List.mem_of_find?_eq_some h) hp.1

theorem castsToObjectId_of_isObjectId (db : Db) (id : String) (h : isObjectId id = true) :
    castsToObjectId db id = true := by
  unfold castsToObjectId
  rw [h, Bool.true_or]

theorem getSummary_found (db : Db) (userId formId : String) (form : Form)
    (h : findOwnedForm db formId userId = some form) :
    getSummary db userId formId = .ok (computeSummary form (findResponses db formId)) := by
  simp only [getSummary, castsToObjectId_of_owned db formId userId form h, h, Bool.not_true,
    Bool.false_eq_true, if_false]

theorem getExport_found (db : Db) (userId formId : String) (form : Form)
    (h : findOwnedForm db formId userId = some form) :
    getExport db userId formId =
      .ok (exportCsv form (sortNewestFirst (findResponses db formId))) := by
  simp only [getExport, castsToObjectId_of_owned db formId userId form h, h, Bool.not_true,
    Bool.false_eq_true, if_false]

theorem deleteForm_found (db : Db) (userId id : String) (form : Form)
    (h : findOwnedForm db id userId = some form) :
    deleteForm db userId id =
      ({ forms := db.forms.eraseP fun f => f._id == form._id
         responses := db.responses.filter fun r => !(r.formId == form._id) },
        .ok "Form and associated responses deleted successfully") := by
  simp only [deleteForm, castsToObjectId_of_owned db id userId form h, h, Bool.not_true,
    Bool.false_eq_true, if_false]

theorem questionResponses_nil (q : Question) : questionResponses [] q = [] := rfl

theorem questionResponses_cons (r : Response) (rs : List Response) (q : Question) :
    questionResponses (r :: rs) q =
      match r.answers.find? (fun a => a.questionId == q._id) with
      | some a => a :: questionResponses rs q
      | none => questionResponses rs q := by
  unfold questionResponses
  cases h : r.answers.find? (fun a => a.questionId == q._id) <;> simp [h]

theorem questionResponses_eq_filterMap (responses : List Response) (q : Question) :
    questionResponses responses q =
      responses.filterMap (fun r => r.answers.find? fun a => a.questionId == q._id) := by
  unfold questionResponses
  rw [List.filterMap_map]
  rfl

theorem questionResponses_length (responses : List Response) (q : Question) :
    (questionResponses responses q).length =
      responses.countP (fun r => r.answers.any fun a => a.questionId == q._id) := by
  induction responses with
  | nil => rfl
  | cons r rs ih =>
    rw [questionResponses_cons, List.countP_cons]
    cases h : r.answers.find? (fun a => a.questionId == q._id) with
    | none =>
      have : (r.answers.any fun a => a.questionId == q._id) = false := by
        rw [List.find?_eq_none] at h
        simpa [List.any_eq_false] using h
      simp [this, ih]
    | some a =>
      have : (r.answers.any fun a => a.questionId == q._id) = true := by
        rw [List.any_eq_true]
        exact ⟨a, List.mem_of_find?_eq_some h, List.find?_some (p := fun (a : Answer) => a.questionId == q._id) h⟩
      simp [this, ih]

theorem summarizeQuestion_totalResponses (responses : List Response) (q : Question) :
    (summarizeQuestion responses q).totalResponses = (questionResponses responses q).length := by
  unfold summarizeQuestion
  split <;> rfl

theorem summarizeQuestion_responseRate (responses : List Response) (q : Question) :
    (summarizeQuestion responses q).responseRate =
      responseRate (questionResponses responses q).length responses.length := by
  unfold summarizeQuestion
  split <;> rfl

/-- The answer strings a list of responses holds for a question: the value of the first
answer referring to it, for each response that has one, in the order of the list. -/
theorem questionResponses_answers (responses : List Response) (q : Question) :
    (questionResponses responses q).map (fun a => a.answer) =
      responses.filterMap fun r =>
        (r.answers.find? fun a => a.questionId == q._id).map fun a => a.answer := by
  induction responses with
  | nil => rfl
  | cons r rs ih =>
    rw [questionResponses_cons, List.filterMap_cons]
    cases h : r.answers.find? (fun a => a.questionId == q._id) <;> simp [ih]

/-! ### C3: the summary of a form without responses -/

/-- C3: with an empty response set the summary has `totalResponses = 0`, every question
summary has `totalResponses = 0` and `responseRate = "0"` (not `"0.0"`), and
`responseTimeframe` is `{earliest: null, latest: null}`. -/
theorem summary_of_no_responses (form : Form) :
    (computeSummary form []).totalResponses = 0 ∧
    (computeSummary form []).questionSummaries.length = form.questions.length ∧
    (∀ s ∈ (computeSummary form []).questionSummaries,
      s.totalResponses = 0 ∧ s.responseRate = "0") ∧
    (computeSummary form []).responseTimeframe = { earliest := none, latest := none } := by
  refine ⟨rfl, by simp [computeSummary], ?_, rfl⟩
  intro s hs
  simp only [computeSummary, List.mem_map] at hs
  obtain ⟨q, -, rfl⟩ := hs
  rw [summarizeQuestion_totalResponses, summarizeQuestion_responseRate]
  exact ⟨rfl, rfl⟩

/-! ### C7: the number of responses answering a question -/

/-- C7: the question summary's `totalResponses` is the number of responses that hold at
least one answer whose question reference is the question's identifier; the summary is
defined for every response list, responses without such an answer being passed over. -/
theorem totalResponses_counts_answering (form : Form) (responses : List Response) :
    (computeSummary form responses).questionSummaries.map (fun s => s.totalResponses) =
      form.questions.map fun q =>
        responses.countP fun r => r.answers.any fun a => a.questionId == q._id := by
  simp only [computeSummary, List.map_map]
  apply List.map_congr_left
  intro q _
  simp only [Function.comp_apply]
  rw [summarizeQuestion_totalResponses, questionResponses_length]

/-! ### C9: the text branch -/

/-- C9: for a text question the `responses` field is the list of matching answer strings,
in the order of the response list, cut to its first 20 entries, so its length is
`min 20 k`, while `totalResponses` is the full number `k` of matching answers. -/
theorem text_summary_first_twenty (responses : List Response) (q : Question)
    (hq : q.type = "text") :
    let matching := responses.filterMap fun r =>
      (r.answers.find? fun a => a.questionId == q._id).map fun a => a.answer
    (summarizeQuestion responses q).responses = some (matching.take 20) ∧
    (∀ l, (summarizeQuestion responses q).responses = some l →
      l.length = min 20 matching.length) ∧
    (summarizeQuestion responses q).totalResponses = matching.length := by
  intro matching
  have hm : matching = (questionResponses responses q).map (fun a => a.answer) :=
    (questionResponses_answers responses q).symm
  have h1 : (summarizeQuestion responses q).responses = some (matching.take 20) := by
    unfold summarizeQuestion
    rw [if_neg (by rw [hq]; decide)]
    simp only [hm, List.map_take]
  refine ⟨h1, ?_, ?_⟩
  · intro l hl
    rw [h1] at hl
    cases hl
    simp [List.length_take]
  · rw [summarizeQuestion_totalResponses, hm, List.length_map]

/-! ### The object built by repeated assignment -/

theorem objSet_proto (obj : JsObject) (v : Nat) : objSet obj "__proto__" v = obj := by
  simp [objSet]

theorem objSet_keys (obj : JsObject) (key : String) (v : Nat) (hk : key ≠ "__proto__") :
    (objSet obj key v).map Prod.fst =
      if key ∈ obj.map Prod.fst then obj.map Prod.fst else obj.map Prod.fst ++ [key] := by
  unfold objSet
  rw [if_neg hk]
  by_cases h : key ∈ obj.map Prod.fst
  · have hany : obj.any (fun p => p.1 == key) = true := by
      rw [List.any_eq_true]
      obtain ⟨p, hp, rfl⟩ := List.mem_map.1 h
      exact ⟨p, hp, by simp⟩
    rw [if_pos hany, if_pos h, List.map_map]
    apply List.map_congr_left
    intro p _
    by_cases hp : p.1 = key <;> simp [hp]
  · have hany : ¬ obj.any (fun p => p.1 == key) = true := by
      rw [List.any_eq_true]
      rintro ⟨p, hp, hpk⟩
      exact h (List.mem_map.2 ⟨p, hp, by simpa using hpk⟩)
    rw [if_neg hany, if_neg h]
    simp

theorem objSet_mem (obj : JsObject) (key : String) (v : Nat) (p : String × Nat)
    (hp : p ∈ objSet obj key v) : p ∈ obj ∨ p = (key, v) := by
  unfold objSet at hp
  split at hp
  · exact Or.inl hp
  · split at hp
    · obtain ⟨p', hp', rfl⟩ := List.mem_map.1 hp
      by_cases h : p'.1 = key
      · right; simp [h]
      · left; simpa [h] using hp'
    · rcases List.mem_append.1 hp with h | h
      · exact Or.inl h
      · right; simpa using h

/-- The object obtained from `acc` by assigning `f o` to every `o` of `opts` in turn keeps
distinct keys, holds `f key` under every key, and its keys are those of `acc` and the
members of `opts` other than `__proto__`. -/
theorem foldl_objSet_spec (f : String → Nat) (opts : List String) (acc : JsObject)
    (hnd : (acc.map Prod.fst).Nodup) (hval : ∀ p ∈ acc, p.2 = f p.1) :
    ((opts.foldl (fun acc o => objSet acc o (f o)) acc).map Prod.fst).Nodup ∧
    (∀ p ∈ opts.foldl (fun acc o => objSet acc o (f o)) acc, p.2 = f p.1) ∧
    (∀ key, key ∈ (opts.foldl (fun acc o => objSet acc o (f o)) acc).map Prod.fst ↔
      key ∈ acc.map Prod.fst ∨ (key ∈ opts ∧ key ≠ "__proto__")) := by
  induction opts generalizing acc with
  | nil => exact ⟨hnd, hval, by simp⟩
  | cons o os ih =>
    rw [List.foldl_cons]
    have hval' : ∀ p ∈ objSet acc o (f o), p.2 = f p.1 := by
      intro p hp
      rcases objSet_mem acc o (f o) p hp with h | h
      · exact hval p h
      · rw [h]
    by_cases ho : o = "__proto__"
    · obtain ⟨h1, h2, h3⟩ := ih (objSet acc o (f o)) (by rw [ho, objSet_proto]; exact hnd) hval'
      refine ⟨h1, h2, ?_⟩
      intro key
      rw [h3 key, ho, objSet_proto]
      constructor
      · rintro (h | ⟨h, hk⟩)
        · exact Or.inl h
        · exact Or.inr ⟨List.mem_cons_of_mem _ h, hk⟩
      · rintro (h | ⟨h, hk⟩)
        · exact Or.inl h
        · rcases List.mem_cons.1 h with h | h
          · exact absurd h hk
          · exact Or.inr ⟨h, hk⟩
    · have hkeys := objSet_keys acc o (f o) ho
      have hnd' : ((objSet acc o (f o)).map Prod.fst).Nodup := by
        rw [hkeys]
        split
        · exact hnd
        · rename_i hmem
          exact List.Nodup.append hnd (List.nodup_singleton o) (by simpa using hmem)
      obtain ⟨h1, h2, h3⟩ := ih (objSet acc o (f o)) hnd' hval'
      refine ⟨h1, h2, ?_⟩
      intro key
      rw [h3 key, hkeys]
      by_cases hmem : o ∈ acc.map Prod.fst
      · rw [if_pos hmem]
        constructor
        · rintro (h | ⟨h, hk⟩)
          · exact Or.inl h
          · exact Or.inr ⟨List.mem_cons_of_mem _ h, hk⟩
        · rintro (h | ⟨h, hk⟩)
          · exact Or.inl h
          · rcases List.mem_cons.1 h with h | h
            · exact Or.inl (h ▸ hmem)
            · exact Or.inr ⟨h, hk⟩
      · rw [if_neg hmem, List.mem_append, List.mem_singleton]
        constructor
        · rintro ((h | h) | ⟨h, hk⟩)
          · exact Or.inl h
          · exact Or.inr ⟨h ▸ List.mem_cons_self _ _, h ▸ ho⟩
          · exact Or.inr ⟨List.mem_cons_of_mem _ h, hk⟩
        · rintro (h | ⟨h, hk⟩)
          · exact Or.inl (Or.inl h)
          · rcases List.mem_cons.1 h with h | h
            · exact Or.inl (Or.inr h)
            · exact Or.inr ⟨h, hk⟩

theorem countP_cons_key (qr : List Answer) (o : String) (ks : List String) (ho : o ∉ ks) :
    (qr.countP fun r => r.answer == o) + (qr.countP fun r => decide (r.answer ∈ ks)) =
      qr.countP fun r => decide (r.answer ∈ o :: ks) := by
  induction qr with
  | nil => rfl
  | cons r rs ih =>
    rw [List.countP_cons, List.countP_cons, List.countP_cons, ← ih]
    by_cases h1 : r.answer = o
    · have h2 : r.answer ∉ ks := h1 ▸ ho
      have e1 : (r.answer == o) = true := by simpa using h1
      have e2 : decide (r.answer ∈ ks) = false := by simpa using h2
      have e3 : decide (r.answer ∈ o :: ks) = true := by simp [h1]
      rw [e1, e2, e3]
      simp only [if_true, Bool.false_eq_true, if_false]
      omega
    · have e1 : (r.answer == o) = false := by simpa using h1
      by_cases h2 : r.answer ∈ ks
      · have e2 : decide (r.answer ∈ ks) = true := by simpa using h2
        have e3 : decide (r.answer ∈ o :: ks) = true := by simp [h2]
        rw [e1, e2, e3]
        simp only [if_true, Bool.false_eq_true, if_false]
        omega
      · have e2 : decide (r.answer ∈ ks) = false := by simpa using h2
        have e3 : decide (r.answer ∈ o :: ks) = false := by simp [h1, h2]
        rw [e1, e2, e3]
        simp only [Bool.false_eq_true, if_false]
        omega

theorem sum_counts_of_nodup (qr : List Answer) (keys : List String) (hnd : keys.Nodup) :
    (keys.map fun o => (qr.filter fun r => r.answer == o).length).sum =
      qr.countP fun r => decide (r.answer ∈ keys) := by
  induction keys with
  | nil => simp
  | cons o ks ih =>
    rw [List.nodup_cons] at hnd
    rw [List.map_cons, List.sum_cons, ih hnd.2, ← List.countP_eq_length_filter]
    exact countP_cons_key qr o ks hnd.1

/-- The entries of `optionCounts`: distinct keys, each key a declared option other than
`__proto__` and each such option a key, with the number of answers equal to it. -/
theorem optionCounts_spec (q : Question) (qr : List Answer) :
    ((optionCounts q qr).map Prod.fst).Nodup ∧
    (∀ p ∈ optionCounts q qr, p.2 = (qr.filter fun r => r.answer == p.1).length) ∧
    (∀ key, key ∈ (optionCounts q qr).map Prod.fst ↔ key ∈ q.options ∧ key ≠ "__proto__") := by
  have h := foldl_objSet_spec (fun o => (qr.filter fun r => r.answer == o).length)
    q.options [] (by simp) (by simp)
  refine ⟨h.1, h.2.1, ?_⟩
  intro key
  have := h.2.2 key
  simpa using this

theorem optionCounts_values (q : Question) (qr : List Answer) :
    objValues (optionCounts q qr) =
      ((optionCounts q qr).map Prod.fst).map fun o => (qr.filter fun r => r.answer == o).length := by
  unfold objValues
  rw [List.map_map]
  apply List.map_congr_left
  intro p hp
  exact (optionCounts_spec q qr).2.1 p hp

theorem optionCounts_sum (q : Question) (qr : List Answer) :
    (objValues (optionCounts q qr)).sum =
      qr.countP fun r => decide (r.answer ∈ q.options ∧ r.answer ≠ "__proto__") := by
  rw [optionCounts_values, sum_counts_of_nodup qr _ (optionCounts_spec q qr).1]
  apply List.countP_congr
  intro r _
  simp only [decide_eq_true_eq]
  exact (optionCounts_spec q qr).2.2 r.answer

theorem optionCounts_get (q : Question) (qr : List Answer) (o : String)
    (ho : o ∈ q.options) (hp : o ≠ "__proto__") :
    objGet (optionCounts q qr) o = some (qr.filter fun r => r.answer == o).length := by
  have hmem : o ∈ (optionCounts q qr).map Prod.fst := ((optionCounts_spec q qr).2.2 o).2 ⟨ho, hp⟩
  obtain ⟨p, hpm, hpo⟩ := List.mem_map.1 hmem
  unfold objGet
  cases hf : (optionCounts q qr).find? (fun p => p.1 == o) with
  | none =>
    rw [List.find?_eq_none] at hf
    exact absurd (by simpa using hpo) (hf p hpm)
  | some p' =>
    have h1 : p'.1 = o := by simpa using List.find?_some (p := fun (p : String × Nat) => p.1 == o) hf
    have h2 := (optionCounts_spec q qr).2.1 p' (List.mem_of_find?_eq_some hf)
    simp [h2, h1]

theorem optionCounts_get_proto (q : Question) (qr : List Answer) :
    objGet (optionCounts q qr) "__proto__" = none := by
  unfold objGet
  rw [Option.map_eq_none', List.find?_eq_none]
  intro p hp hpk
  have := ((optionCounts_spec q qr).2.2 p.1).1 (List.mem_map.2 ⟨p, hp, rfl⟩)
  exact this.2 (by simpa using hpk)

/-! ### C2: the sum of the option counts -/

/-- The sum of the values of `optionCounts` never exceeds the question's
`totalResponses`. -/
theorem optionCounts_sum_le (responses : List Response) (q : Question) :
    (objValues (optionCounts q (questionResponses responses q))).sum ≤
      (summarizeQuestion responses q).totalResponses := by
  rw [optionCounts_sum, summarizeQuestion_totalResponses]
  exact List.countP_le_length _

/-- The sum of the values of `optionCounts` is `totalResponses` when every answer is a
declared option and no declared option is `__proto__`. -/
theorem optionCounts_sum_eq (responses : List Response) (q : Question)
    (hproto : "__proto__" ∉ q.options)
    (hall : ∀ a ∈ questionResponses responses q, a.answer ∈ q.options) :
    (objValues (optionCounts q (questionResponses responses q))).sum =
      (summarizeQuestion responses q).totalResponses := by
  rw [optionCounts_sum, summarizeQuestion_totalResponses, List.countP_eq_length]
  intro a ha
  have h1 := hall a ha
  have h2 : a.answer ≠ "__proto__" := fun h => hproto (h ▸ h1)
  simp [h1, h2]

/-- C2, at the form `protoForm` with one response whose answer is the declared option
`__proto__`: the only entry of `optionCounts` is `Other: 0`, so the values sum to 0,
while `totalResponses` is 1 and the answer is a declared option. -/
theorem proto_option_sum_below_total :
    getSummary protoDb "u1" "f1" = .ok (computeSummary protoForm protoDb.responses) ∧
    (summarizeQuestion protoDb.responses protoQuestion).optionCounts =
      some [("Other", 0)] ∧
    (summarizeQuestion protoDb.responses protoQuestion).totalResponses = 1 ∧
    (questionResponses protoDb.responses protoQuestion).map (fun a => a.answer) =
      ["__proto__"] ∧
    "__proto__" ∈ protoQuestion.options := by
  decide

/-! ### C8: the entries of the option counts -/

/-- The number of answers equal to an option, counted over the responses: those whose
first answer to the question has exactly that value. -/
theorem filter_answers_length (responses : List Response) (q : Question) (o : String) :
    ((questionResponses responses q).filter fun r => r.answer == o).length =
      responses.countP fun r =>
        (r.answers.find? fun a => a.questionId == q._id).map (fun a => a.answer) == some o := by
  rw [← List.countP_eq_length_filter]
  induction responses with
  | nil => rfl
  | cons r rs ih =>
    rw [questionResponses_cons, List.countP_cons]
    cases h : r.answers.find? (fun a => a.questionId == q._id) with
    | none => simpa using ih
    | some a =>
      rw [List.countP_cons, ih]
      by_cases ha : a.answer = o <;> simp [ha]

/-- Every declared option other than `__proto__` has an entry in `optionCounts`, equal to
the number of responses whose answer to the question is exactly that option, and every
entry belongs to a declared option. -/
theorem optionCounts_entries (responses : List Response) (q : Question)
    (hq : q.type = "multiple-choice") :
    ∃ oc, (summarizeQuestion responses q).optionCounts = some oc ∧
      (∀ o ∈ q.options, o ≠ "__proto__" →
        objGet oc o = some (responses.countP fun r =>
          (r.answers.find? fun a => a.questionId == q._id).map (fun a => a.answer) == some o)) ∧
      (∀ p ∈ oc, p.1 ∈ q.options) := by
  refine ⟨optionCounts q (questionResponses responses q), ?_, ?_, ?_⟩
  · unfold summarizeQuestion
    rw [if_pos hq]
  · intro o ho hp
    rw [optionCounts_get q _ o ho hp, filter_answers_length]
  · intro p hp
    exact (((optionCounts_spec q (questionResponses responses q)).2.2 p.1).1
      (List.mem_map.2 ⟨p, hp, rfl⟩)).1

/-- C8, at the form `protoForm`: the declared option `__proto__`, chosen by the one
response, has no entry in `optionCounts`. -/
theorem proto_option_has_no_entry :
    "__proto__" ∈ protoQuestion.options ∧
    (protoDb.responses.countP fun r =>
      (r.answers.find? fun a => a.questionId == protoQuestion._id).map (fun a => a.answer)
        == some "__proto__") = 1 ∧
    ((summarizeQuestion protoDb.responses protoQuestion).optionCounts.map
      fun oc => objGet oc "__proto__") = some none ∧
    ((summarizeQuestion protoDb.responses protoQuestion).optionCounts.map
      fun oc => objGet oc "Other") = some (some 0) := by
  decide

/-! ### C5: what a submission is checked for -/

theorem checkAnswers_none (form : Form) (answers : List Answer)
    (hreq : ∀ q ∈ form.questions, q.required = true →
      q._id ∈ answers.map fun a => a.questionId)
    (hids : ∀ a ∈ answers, a.questionId ∈ form.questions.map fun q => q._id) :
    checkAnswers form answers = none := by
  unfold checkAnswers
  have h1 : ¬ (((form.questions.filter fun q => q.required).map fun q => q._id).any
      fun requiredId => !(answers.map fun a => a.questionId).contains requiredId) = true := by
    rw [List.any_eq_true]
    rintro ⟨i, hi, hc⟩
    obtain ⟨q, hq, rfl⟩ := List.mem_map.1 hi
    rw [List.mem_filter] at hq
    have := hreq q hq.1 hq.2
    simp only [Bool.not_eq_true', List.contains_eq_any_beq, List.any_eq_false, beq_iff_eq] at hc
    obtain ⟨a, ha, hqa⟩ := List.mem_map.1 this
    exact hc _ (List.mem_map.2 ⟨a, ha, rfl⟩) hqa.symm
  have h2 : ¬ (answers.any fun answer =>
      !(form.questions.map fun q => q._id).contains answer.questionId) = true := by
    rw [List.any_eq_true]
    rintro ⟨a, ha, hc⟩
    have := hids a ha
    simp only [Bool.not_eq_true', List.contains_eq_any_beq, List.any_eq_false, beq_iff_eq] at hc
    obtain ⟨q, hq, hqa⟩ := List.mem_map.1 this
    exact hc _ (List.mem_map.2 ⟨q, hq, rfl⟩) hqa.symm
  simp only [h1, h2, Bool.false_eq_true, if_false]

/-- C5, as the code has it: a submission to an active form whose body passes the field
validators, which answers every required question and refers only to questions of the
form, is accepted and persisted as sent by either handler, whether or not its answers to
multiple-choice questions are among the declared options. -/
theorem submission_accepted_without_option_check (db : Db) (form : Form)
    (answers : List Answer) (env : RequestMeta)
    (hbody : bodyValid answers = true)
    (hreq : ∀ q ∈ form.questions, q.required = true →
      q._id ∈ answers.map fun a => a.questionId)
    (hids : ∀ a ∈ answers, a.questionId ∈ form.questions.map fun q => q._id) :
    (∀ publicId,
      (db.forms.find? fun f => f.publicId == publicId && f.isActive) = some form →
      postPublic db publicId answers env =
        ({ db with responses := db.responses ++
            [{ _id := env.newId, formId := form._id, answers := answers
               submittedAt := env.now, ipAddress := env.ip, userAgent := env.userAgent }] },
          .created env.newId)) ∧
    (∀ formId, formId ≠ "" →
      (db.forms.find? fun f => f._id == formId && f.isActive) = some form →
      postResponse db formId answers env =
        ({ db with responses := db.responses ++
            [{ _id := env.newId, formId := formId, answers := answers
               submittedAt := env.now, ipAddress := env.ip, userAgent := env.userAgent }] },
          .created env.newId)) := by
  have hc := checkAnswers_none form answers hreq hids
  constructor
  · intro publicId hf
    simp only [postPublic, hbody, hf, submitTo, hc, Bool.not_true, Bool.false_eq_true, if_false]
  · intro formId hne hf
    have hne' : (formId != "") = true := by simpa using hne
    have hid := List.find?_some (p := fun (f : Form) => f._id == formId && f.isActive) hf
    simp only [Bool.and_eq_true, beq_iff_eq] at hid
    have hcast := castsToObjectId_of_mem db formId form (List.mem_of_find?_eq_some hf) hid.1
    simp only [postResponse, hbody, hne', hcast, hf, submitTo, hc, Bool.and_self, Bool.not_true,
      Bool.false_eq_true, if_false]

/-- C5, at `ratingForm`: the answer `Excellent` to the question whose options are `Good`
and `Bad` is accepted by both handlers and stored. -/
theorem undeclared_option_is_stored :
    (∃ q ∈ ratingForm.questions, q.type = "multiple-choice" ∧
      ∃ a ∈ undeclaredRating, a.questionId = q._id ∧ a.answer ∉ q.options) ∧
    postPublic ⟨[ratingForm], []⟩ "p1" undeclaredRating sampleMeta =
      (⟨[ratingForm],
        [{ _id := "r9", formId := "f1", answers := undeclaredRating, submittedAt := 5000
           ipAddress := "10.0.0.2", userAgent := "agent" }]⟩, .created "r9") ∧
    postResponse ⟨[ratingForm], []⟩ "f1" undeclaredRating sampleMeta =
      (⟨[ratingForm],
        [{ _id := "r9", formId := "f1", answers := undeclaredRating, submittedAt := 5000
           ipAddress := "10.0.0.2", userAgent := "agent" }]⟩, .created "r9") := by
  decide

/-- A use of `submission_accepted_without_option_check` at `ratingForm`. -/
theorem submission_accepted_witness :
    postPublic ⟨[ratingForm], []⟩ "p1" undeclaredRating sampleMeta =
      (⟨[ratingForm],
        [{ _id := "r9", formId := "f1", answers := undeclaredRating, submittedAt := 5000
           ipAddress := "10.0.0.2", userAgent := "agent" }]⟩, .created "r9") :=
  (submission_accepted_without_option_check ⟨[ratingForm], []⟩ ratingForm undeclaredRating
    sampleMeta (by decide) (by decide) (by decide)).1 "p1" (by decide)

/-! ### C6 and C10: the order in which the summary reads the responses -/

/-- C6, at a store whose two responses were inserted at times 1000 and 2000: the summary
reports `earliest = 2000` and `latest = 1000`, the list it reads being in stored order,
whereas the listing order of the same responses is newest first. -/
theorem timeframe_in_stored_order :
    findResponses twoResponsesDb "f1" = [commentAt 1000 "first", commentAt 2000 "second"] ∧
    sortNewestFirst (findResponses twoResponsesDb "f1") =
      [commentAt 2000 "second", commentAt 1000 "first"] ∧
    (∃ s, getSummary twoResponsesDb "u1" "f1" = .ok s ∧
      s.responseTimeframe = { earliest := some 2000, latest := some 1000 }) := by
  refine ⟨by decide, by decide, _, rfl, by decide⟩

/-- C10, at a store whose 21 responses were inserted at times 1 to 21: the answers the
summary returns for the text question are those of times 1 to 20 in that order, the
answer of the most recent response (time 21) not being among them. -/
theorem text_answers_in_stored_order :
    (findResponses manyResponsesDb "f1").map (fun r => r.submittedAt) =
      (List.range 21).map (fun i => ((i + 1 : Nat) : Int)) ∧
    (∃ s, getSummary manyResponsesDb "u1" "f1" = .ok s ∧
      (s.questionSummaries.head?.bind fun x => x.responses) =
        some ((List.range 20).map fun i => "c" ++ toString (i + 1))) ∧
    (((sortNewestFirst (findResponses manyResponsesDb "f1")).take 20).map
        fun r => r.answers.head?.map fun a => a.answer) =
      (List.range 20).map fun i => some ("c" ++ toString (21 - i)) := by
  refine ⟨by decide, ⟨_, rfl, by decide⟩, by decide⟩

/-! ### C4: reading the exported text back -/

theorem readCsv_quoted_quote (acc : List Char) (row : List String)
    (done : List (List String)) (cs : List Char) :
    readCsv .quoted acc row done ('"' :: cs) = readCsv .quoteSeen acc row done cs := by
  rfl

theorem readCsv_quoted_other (c : Char) (hc : c ≠ '"') (acc : List Char) (row : List String)
    (done : List (List String)) (cs : List Char) :
    readCsv .quoted acc row done (c :: cs) = readCsv .quoted (acc ++ [c]) row done cs := by
  rw [readCsv]
  exact if_neg hc

theorem readCsv_quoteSeen_quote (acc : List Char) (row : List String)
    (done : List (List String)) (cs : List Char) :
    readCsv .quoteSeen acc row done ('"' :: cs) = readCsv .quoted (acc ++ ['"']) row done cs := by
  rfl

theorem readCsv_quoteSeen_comma (acc : List Char) (row : List String)
    (done : List (List String)) (cs : List Char) :
    readCsv .quoteSeen acc row done (',' :: cs) =
      readCsv .fieldStart [] (row ++ [String.mk acc]) done cs := by
  rfl

theorem readCsv_quoteSeen_newline (acc : List Char) (row : List String)
    (done : List (List String)) (cs : List Char) :
    readCsv .quoteSeen acc row done ('\n' :: cs) =
      readCsv .recordStart [] [] (done ++ [row ++ [String.mk acc]]) cs := by
  rfl

theorem readCsv_quoteSeen_nil (acc : List Char) (row : List String)
    (done : List (List String)) :
    readCsv .quoteSeen acc row done [] = some (done ++ [row ++ [String.mk acc]]) := by
  rfl

theorem readCsv_recordStart_quote (row : List String) (done : List (List String))
    (cs : List Char) :
    readCsv .recordStart [] row done ('"' :: cs) = readCsv .quoted [] row done cs := by
  rfl

theorem readCsv_fieldStart_quote (row : List String) (done : List (List String))
    (cs : List Char) :
    readCsv .fieldStart [] row done ('"' :: cs) = readCsv .quoted [] row done cs := by
  rfl

theorem joinWith_singleton (sep : Char) (x : List Char) : joinWith sep [x] = x := rfl

theorem joinWith_cons_cons (sep : Char) (x y : List Char) (rest : List (List Char)) :
    joinWith sep (x :: y :: rest) = x ++ sep :: joinWith sep (y :: rest) := rfl

theorem readCsv_quoted (field acc : List Char) (row : List String) (done : List (List String))
    (rest : List Char) :
    readCsv .quoted acc row done (doubleQuotes field ++ '"' :: rest) =
      readCsv .quoteSeen (acc ++ field) row done rest := by
  induction field generalizing acc with
  | nil => rw [doubleQuotes, List.nil_append, readCsv_quoted_quote, List.append_nil]
  | cons c cs ih =>
    by_cases hc : c = '"'
    · subst hc
      rw [doubleQuotes, if_pos rfl, List.cons_append, List.cons_append, readCsv_quoted_quote,
        readCsv_quoteSeen_quote, ih, List.append_assoc, List.singleton_append]
    · rw [doubleQuotes, if_neg hc, List.cons_append, readCsv_quoted_other c hc, ih,
        List.append_assoc, List.singleton_append]

/-- The reader, at the start of a field, consumes a quoted field up to its closing quote. -/
theorem readCsv_quoteField (st : CsvState) (hst : st = .recordStart ∨ st = .fieldStart)
    (field : List Char) (row : List String) (done : List (List String)) (rest : List Char) :
    readCsv st [] row done (quoteField field ++ rest) =
      readCsv .quoteSeen field row done rest := by
  have h := readCsv_quoted field [] row done rest
  rw [List.nil_append] at h
  rcases hst with rfl | rfl
  · rw [quoteField, List.cons_append, List.append_assoc, List.singleton_append,
      readCsv_recordStart_quote, h]
  · rw [quoteField, List.cons_append, List.append_assoc, List.singleton_append,
      readCsv_fieldStart_quote, h]

/-- Reading a joined record of quoted fields that ends the text. -/
theorem readCsv_record_end (st : CsvState) (hst : st = .recordStart ∨ st = .fieldStart)
    (f : String) (fs : List String) (row : List String) (done : List (List String)) :
    readCsv st [] row done (joinWith ',' ((f :: fs).map fun field => quoteField field.data)) =
      some (done ++ [row ++ f :: fs]) := by
  induction fs generalizing f row st with
  | nil =>
    have := readCsv_quoteField st hst f.data row done []
    rw [List.append_nil] at this
    rw [List.map_cons, List.map_nil, joinWith_singleton, this, readCsv_quoteSeen_nil]
  | cons g gs ih =>
    have h := ih .fieldStart (Or.inr rfl) g (row ++ [f])
    rw [List.map_cons] at h
    rw [List.map_cons, List.map_cons, joinWith_cons_cons, readCsv_quoteField st hst,
      readCsv_quoteSeen_comma]
    show readCsv .fieldStart [] (row ++ [f]) done _ = _
    rw [h, List.append_assoc, List.singleton_append]

/-- Reading a joined record of quoted fields that is followed by a line break. -/
theorem readCsv_record_newline (st : CsvState) (hst : st = .recordStart ∨ st = .fieldStart)
    (f : String) (fs : List String) (row : List String) (done : List (List String))
    (rest : List Char) :
    readCsv st [] row done
        (joinWith ',' ((f :: fs).map fun field => quoteField field.data) ++ '\n' :: rest) =
      readCsv .recordStart [] [] (done ++ [row ++ f :: fs]) rest := by
  induction fs generalizing f row st with
  | nil =>
    rw [List.map_cons, List.map_nil, joinWith_singleton, readCsv_quoteField st hst,
      readCsv_quoteSeen_newline]
  | cons g gs ih =>
    have h := ih .fieldStart (Or.inr rfl) g (row ++ [f])
    rw [List.map_cons] at h
    rw [List.map_cons, List.map_cons, joinWith_cons_cons, List.append_assoc, List.cons_append,
      readCsv_quoteField st hst, readCsv_quoteSeen_comma]
    show readCsv .fieldStart [] (row ++ [f]) done _ = _
    rw [h, List.append_assoc, List.singleton_append]

/-- Reading the text of a table none of whose rows is empty gives the table back. -/
theorem readCsv_table (table : List (List String)) (hrows : ∀ row ∈ table, row ≠ [])
    (done : List (List String)) :
    readCsv .recordStart [] [] done
        (joinWith '\n' (table.map fun row => joinWith ',' (row.map fun field =>
          quoteField field.data))) =
      some (done ++ table) := by
  induction table generalizing done with
  | nil => simp [joinWith, readCsv]
  | cons r rs ih =>
    obtain ⟨f, fs, rfl⟩ : ∃ f fs, r = f :: fs := by
      cases r with
      | nil => exact absurd rfl (hrows [] (List.mem_cons_self _ _))
      | cons f fs => exact ⟨f, fs, rfl⟩
    cases rs with
    | nil =>
      rw [List.map_cons, List.map_nil, joinWith_singleton,
        readCsv_record_end _ (Or.inl rfl), List.nil_append]
    | cons r2 rs2 =>
      have h := ih (fun row hrow => hrows row (List.mem_cons_of_mem _ hrow))
        (done ++ [f :: fs])
      rw [List.map_cons] at h
      show readCsv .recordStart [] [] done
        (joinWith '\n' (joinWith ',' ((f :: fs).map fun field => quoteField field.data) ::
          joinWith ',' (r2.map fun field => quoteField field.data) ::
          rs2.map fun row => joinWith ',' (row.map fun field => quoteField field.data))) = _
      rw [joinWith_cons_cons, readCsv_record_newline _ (Or.inl rfl), List.nil_append, h,
        List.append_assoc, List.singleton_append]

/-- C4: for every form and every response list, a standard reader applied to the exported
text finds exactly the header row and the data rows that were encoded, field for field;
the fields may hold commas, double quotes and line breaks. -/
theorem export_reads_back (form : Form) (responses : List Response) :
    parseCsv (exportCsv form responses) = some (headers form :: rows form responses) := by
  unfold parseCsv exportCsv csvContent
  have h := readCsv_table (headers form :: rows form responses) (by
    intro row hrow
    rcases List.mem_cons.1 hrow with h | h
    · rw [h]; simp [headers]
    · simp only [rows, List.mem_map] at h
      obtain ⟨r, -, rfl⟩ := h
      simp) []
  rw [List.nil_append] at h
  exact h

/-! ### Binary64 rounding -/

theorem floorLog2_spec (fuel n : Nat) (hn : 0 < n) (hf : n ≤ fuel) :
    2 ^ floorLog2 fuel n ≤ n ∧ n < 2 ^ (floorLog2 fuel n + 1) := by
  induction fuel generalizing n with
  | zero => omega
  | succ fuel ih =>
    rw [floorLog2]
    by_cases h : n < 2
    · rw [if_pos h]
      norm_num
      omega
    · rw [if_neg h]
      obtain ⟨h1, h2⟩ := ih (n / 2) (by omega) (by omega)
      rw [pow_succ] at h2 ⊢
      rw [pow_succ (n := floorLog2 fuel (n / 2) + 1), pow_succ]
      constructor <;> omega

theorem roundHalfEven_near (a b : Nat) (hb : 0 < b) :
    2 * b * roundHalfEven a b ≤ 2 * a + b ∧ 2 * a ≤ 2 * b * roundHalfEven a b + b := by
  have h1 := Nat.div_add_mod a b
  have h2 := Nat.mod_lt a hb
  unfold roundHalfEven
  simp only
  generalize a / b = q at *
  generalize a % b = r at *
  have e1 : 2 * b * q = 2 * (b * q) := by ring
  have e2 : 2 * b * (q + 1) = 2 * (b * q) + 2 * b := by ring
  split_ifs <;> first | (rw [e1]; omega) | (rw [e2]; omega)

theorem two_pow_toNat_div (z : ℤ) : (2 : ℚ) ^ z.toNat / 2 ^ (-z).toNat = 2 ^ z := by
  have h := Int.toNat_sub_toNat_neg z
  rw [← zpow_natCast, ← zpow_natCast, ← zpow_sub₀ (by norm_num), h]

theorem binaryExponent_spec (a b : Nat) (ha : 0 < a) (hb : 0 < b) :
    (2 : ℚ) ^ binaryExponent a b ≤ (a : ℚ) / b ∧ (a : ℚ) / b < 2 ^ (binaryExponent a b + 1) := by
  obtain ⟨ha1, ha2⟩ := floorLog2_spec a a ha le_rfl
  obtain ⟨hb1, hb2⟩ := floorLog2_spec b b hb le_rfl
  have hbq : (0 : ℚ) < b := by exact_mod_cast hb
  have ha1q : (2 : ℚ) ^ (floorLog2 a a : ℤ) ≤ a := by rw [zpow_natCast]; exact_mod_cast ha1
  have ha2q : (a : ℚ) < 2 ^ ((floorLog2 a a : ℤ) + 1) := by
    rw [← Nat.cast_succ, zpow_natCast]; exact_mod_cast ha2
  have hb1q : (2 : ℚ) ^ (floorLog2 b b : ℤ) ≤ b := by rw [zpow_natCast]; exact_mod_cast hb1
  have hb2q : (b : ℚ) < 2 ^ ((floorLog2 b b : ℤ) + 1) := by
    rw [← Nat.cast_succ, zpow_natCast]; exact_mod_cast hb2
  unfold binaryExponent
  simp only
  generalize (floorLog2 a a : ℤ) = la at *
  generalize (floorLog2 b b : ℤ) = lb at *
  have hcond : (a * 2 ^ (-(la - lb)).toNat < b * 2 ^ (la - lb).toNat) ↔
      (a : ℚ) / b < 2 ^ (la - lb) := by
    rw [← two_pow_toNat_div (la - lb), div_lt_div_iff₀ hbq (by positivity),
      mul_comm _ (b : ℚ)]
    norm_cast
  have hpos : ∀ z : ℤ, (0 : ℚ) < 2 ^ z := fun z => zpow_pos (by norm_num) z
  by_cases hc : a * 2 ^ (-(la - lb)).toNat < b * 2 ^ (la - lb).toNat
  · rw [if_pos hc]
    refine ⟨?_, ?_⟩
    · rw [le_div_iff₀ hbq]
      calc (2 : ℚ) ^ (la - lb - 1) * b ≤ 2 ^ (la - lb - 1) * 2 ^ (lb + 1) :=
            mul_le_mul_of_nonneg_left hb2q.le (hpos _).le
        _ = 2 ^ la := by rw [← zpow_add₀ (by norm_num)]; congr 1; ring
        _ ≤ a := ha1q
    · have := hcond.1 hc
      rwa [sub_add_cancel]
  · rw [if_neg hc]
    refine ⟨?_, ?_⟩
    · have := mt hcond.2 hc
      exact not_lt.1 this
    · rw [div_lt_iff₀ hbq]
      calc (a : ℚ) < 2 ^ (la + 1) := ha2q
        _ = 2 ^ (la - lb + 1) * 2 ^ lb := by rw [← zpow_add₀ (by norm_num)]; congr 1; ring
        _ ≤ 2 ^ (la - lb + 1) * b := mul_le_mul_of_nonneg_left hb1q (hpos _).le

/-- The value of a binary64 number as a rational. -/
theorem roundBinary64_spec (a b : Nat) (ha : 0 < a) (hb : 0 < b) :
    0 < (roundBinary64 a b).den ∧
    |((roundBinary64 a b).num : ℚ) / (roundBinary64 a b).den - (a : ℚ) / b| ≤
      (a : ℚ) / b / 2 ^ 53 := by
  obtain ⟨he1, -⟩ := binaryExponent_spec a b ha hb
  unfold roundBinary64
  rw [if_neg (by omega)]
  simp only
  generalize binaryExponent a b = e at *
  have hS := two_pow_toNat_div (52 - e)
  rw [show -(52 - e) = e - 52 by ring] at hS
  generalize (52 - e).toNat = up at *
  generalize (e - 52).toNat = down at *
  have hbq : (0 : ℚ) < b := by exact_mod_cast hb
  have hup : (0 : ℚ) < 2 ^ up := by positivity
  have hdown : (0 : ℚ) < 2 ^ down := by positivity
  have hB : 0 < b * 2 ^ down := Nat.mul_pos hb (by positivity)
  obtain ⟨h1, h2⟩ := roundHalfEven_near (a * 2 ^ up) (b * 2 ^ down) hB
  generalize roundHalfEven (a * 2 ^ up) (b * 2 ^ down) = m at *
  have h1q : (2 : ℚ) * (b * 2 ^ down) * m ≤ 2 * (a * 2 ^ up) + b * 2 ^ down := by
    exact_mod_cast h1
  have h2q : (2 : ℚ) * (a * 2 ^ up) ≤ 2 * (b * 2 ^ down) * m + b * 2 ^ down := by
    exact_mod_cast h2
  refine ⟨by positivity, ?_⟩
  push_cast
  have hS52 : (2 : ℚ) ^ 52 * 2 ^ down ≤ (a : ℚ) / b * 2 ^ up := by
    have h52 : (2 : ℚ) ^ (52 - e) * 2 ^ e = 2 ^ 52 := by
      rw [← zpow_add₀ (by norm_num)]
      norm_num
    have hSd : (2 : ℚ) ^ (52 - e) * 2 ^ down = 2 ^ up := by
      rw [← hS]; field_simp
    calc (2 : ℚ) ^ 52 * 2 ^ down = 2 ^ e * (2 ^ (52 - e) * 2 ^ down) := by
          rw [← h52]; ring
      _ = 2 ^ e * 2 ^ up := by rw [hSd]
      _ ≤ (a : ℚ) / b * 2 ^ up := mul_le_mul_of_nonneg_right he1 hup.le
  have key : (m : ℚ) * 2 ^ down / 2 ^ up - (a : ℚ) / b =
      ((m : ℚ) * (b * 2 ^ down) - a * 2 ^ up) / (b * 2 ^ up) := by
    field_simp
    ring
  rw [key, abs_div, abs_of_pos (by positivity : (0 : ℚ) < b * 2 ^ up), div_le_iff₀ (by positivity)]
  have habs : |(m : ℚ) * (b * 2 ^ down) - a * 2 ^ up| ≤ b * 2 ^ down / 2 := by
    rw [abs_le]; constructor <;> linarith
  have hfin : (b : ℚ) * 2 ^ down / 2 ≤ (a : ℚ) / b / 2 ^ 53 * (b * 2 ^ up) := by
    have e1 : (a : ℚ) / b / 2 ^ 53 * (b * 2 ^ up) = b * ((a : ℚ) / b * 2 ^ up) / 2 ^ 53 := by
      ring
    rw [e1, div_le_div_iff₀ (by norm_num) (by positivity)]
    have := mul_le_mul_of_nonneg_left hS52 hbq.le
    nlinarith
  linarith

/-- The integer chosen by `toFixed(1)` for `(k / n) * 100` computed in binary64: within
one half of `1000 k / n`. -/
theorem tenths_near (k n : Nat) (hn : 0 < n) (hn32 : n < 2 ^ 32) (hk : k ≤ n) :
    2 * n * (((F64.ofNat k).div (F64.ofNat n)).mul (F64.ofNat 100)).tenths ≤ 2000 * k + n ∧
    2000 * k ≤ 2 * n * (((F64.ofNat k).div (F64.ofNat n)).mul (F64.ofNat 100)).tenths + n := by
  rcases Nat.eq_zero_or_pos k with rfl | hk0
  · have : (((F64.ofNat 0).div (F64.ofNat n)).mul (F64.ofNat 100)).tenths = 0 := by
      simp [F64.ofNat, F64.div, F64.mul, F64.tenths, roundBinary64]
    rw [this]
    omega
  · have hnq : (0 : ℚ) < n := by exact_mod_cast hn
    have hkq : (0 : ℚ) < k := by exact_mod_cast hk0
    have hX0 : (0 : ℚ) < (k : ℚ) / n := by positivity
    have hX1 : (k : ℚ) / n ≤ 1 := by
      rw [div_le_one hnq]; exact_mod_cast hk
    obtain ⟨hd1, he1⟩ := roundBinary64_spec (k * 1) (1 * n) (by omega) (by omega)
    simp only [Nat.mul_one, Nat.one_mul] at hd1 he1
    have hdiv : (F64.ofNat k).div (F64.ofNat n) = roundBinary64 k n := by
      simp [F64.ofNat, F64.div]
    rw [hdiv]
    generalize roundBinary64 k n = d1 at *
    have hd1q : (0 : ℚ) < d1.den := by exact_mod_cast hd1
    rw [abs_le] at he1
    have hx1pos : (0 : ℚ) < (d1.num : ℚ) / d1.den := by
      have : (k : ℚ) / n / 2 ^ 53 < (k : ℚ) / n := by
        rw [div_lt_iff₀ (by positivity)]
        nlinarith
      linarith [he1.1]
    have hnum1 : 0 < d1.num := by
      rcases Nat.eq_zero_or_pos d1.num with h | h
      · rw [h] at hx1pos; simp at hx1pos
      · exact h
    obtain ⟨hd2, he2⟩ := roundBinary64_spec (d1.num * 100) (d1.den * 1) (by omega) (by omega)
    have hmul : (roundBinary64 k n |> fun _ => d1.mul (F64.ofNat 100)) =
        roundBinary64 (d1.num * 100) (d1.den * 1) := by
      simp [F64.ofNat, F64.mul]
    simp only at hmul
    rw [hmul]
    generalize roundBinary64 (d1.num * 100) (d1.den * 1) = d2 at *
    have hd2q : (0 : ℚ) < d2.den := by exact_mod_cast hd2
    push_cast at he2
    rw [mul_one, abs_le] at he2
    have e100 : (d1.num : ℚ) * 100 / d1.den = 100 * ((d1.num : ℚ) / d1.den) := by ring
    rw [e100] at he2
    generalize (d1.num : ℚ) / d1.den = x1 at *
    -- the chosen integer
    unfold F64.tenths
    have hdm := Nat.div_add_mod (20 * d2.num + d2.den) (2 * d2.den)
    have hml := Nat.mod_lt (20 * d2.num + d2.den) (show 0 < 2 * d2.den by omega)
    generalize (20 * d2.num + d2.den) / (2 * d2.den) = t at *
    generalize (20 * d2.num + d2.den) % (2 * d2.den) = rr at *
    have ht1 : (2 : ℚ) * d2.den * t ≤ 20 * d2.num + d2.den := by
      have : 2 * d2.den * t ≤ 20 * d2.num + d2.den := by omega
      exact_mod_cast this
    have ht2 : (20 : ℚ) * d2.num + d2.den < 2 * d2.den * t + 2 * d2.den := by
      have : 20 * d2.num + d2.den < 2 * d2.den * t + 2 * d2.den := by omega
      exact_mod_cast this
    have hx2 : (d2.num : ℚ) = (d2.num : ℚ) / d2.den * d2.den := by field_simp
    generalize (d2.num : ℚ) / d2.den = x2 at *
    have hw1 : (t : ℚ) ≤ 10 * x2 + 1 / 2 := by
      rw [hx2] at ht1
      have : (2 : ℚ) * d2.den * t ≤ d2.den * (20 * x2 + 1) := by linarith
      have h3 : (2 : ℚ) * t ≤ 20 * x2 + 1 := by
        have := (mul_le_mul_left hd2q).1 (by linarith : (d2.den : ℚ) * (2 * t) ≤ d2.den * (20 * x2 + 1))
        exact this
      linarith
    have hw2 : (10 : ℚ) * x2 + 1 / 2 < t + 1 := by
      rw [hx2] at ht2
      have h3 : (20 : ℚ) * x2 + 1 < 2 * t + 2 := by
        have := (mul_lt_mul_left hd2q).1
          (by linarith : (d2.den : ℚ) * (20 * x2 + 1) < d2.den * (2 * t + 2))
        exact this
      linarith
    -- the rounding errors
    have hu : (0 : ℚ) < 1 / 2 ^ 53 := by positivity
    have hx1le : x1 ≤ 2 := by
      have : (k : ℚ) / n / 2 ^ 53 ≤ 1 := by
        rw [div_le_one (by positivity)]
        linarith [show (1 : ℚ) ≤ 2 ^ 53 by norm_num]
      linarith [he1.2]
    have hB1 : (k : ℚ) / n / 2 ^ 53 ≤ 1 / 2 ^ 53 :=
      div_le_div_of_nonneg_right hX1 (by positivity)
    have hB2 : 100 * x1 / 2 ^ 53 ≤ 200 / 2 ^ 53 :=
      div_le_div_of_nonneg_right (by linarith) (by positivity)
    have herr1 : 10 * x2 - 1000 * ((k : ℚ) / n) ≤ 3000 / 2 ^ 53 := by
      have := he2.2
      have := he1.2
      linarith
    have herr2 : -(3000 / 2 ^ 53) ≤ 10 * x2 - 1000 * ((k : ℚ) / n) := by
      have := he2.1
      have := he1.1
      linarith
    have hsmall : (2 : ℚ) * n * (3000 / 2 ^ 53) < 1 := by
      have h32 : n < 4294967296 := by
        have : (2 : ℕ) ^ 32 = 4294967296 := by norm_num
        omega
      have hq : (n : ℚ) < 4294967296 := by exact_mod_cast h32
      norm_num
      linarith
    have hv : (2 : ℚ) * n * (1000 * ((k : ℚ) / n) + 1 / 2) = 2000 * k + n := by
      field_simp
      ring
    constructor
    · have : (2 : ℚ) * n * t < 2000 * k + n + 1 := by
        have h1 : (t : ℚ) ≤ 1000 * ((k : ℚ) / n) + 1 / 2 + 3000 / 2 ^ 53 := by linarith
        have h2 := mul_le_mul_of_nonneg_left h1 (by positivity : (0 : ℚ) ≤ 2 * n)
        rw [mul_add, hv] at h2
        linarith
      have : 2 * n * t < 2000 * k + n + 1 := by exact_mod_cast this
      omega
    · have : (2000 : ℚ) * k + n - 1 < 2 * n * (t + 1) := by
        have h1 : 1000 * ((k : ℚ) / n) + 1 / 2 - 3000 / 2 ^ 53 < (t : ℚ) + 1 := by linarith
        have h2 := mul_lt_mul_of_pos_left h1 (by positivity : (0 : ℚ) < 2 * n)
        rw [mul_sub, hv] at h2
        linarith
      have : (2000 : ℚ) * k + n < 2 * n * t + 2 * n + 1 := by linarith
      have : 2000 * k + n < 2 * n * t + 2 * n + 1 := by exact_mod_cast this
      omega

/-! ### Decimal digits -/

theorem toDigitsCore_acc (fuel n : Nat) (ds : List Char) :
    Nat.toDigitsCore 10 fuel n ds = Nat.toDigitsCore 10 fuel n [] ++ ds := by
  induction fuel generalizing n ds with
  | zero => simp [Nat.toDigitsCore]
  | succ fuel ih =>
    simp only [Nat.toDigitsCore]
    split
    · simp
    · rw [ih, ih (n / 10) [Nat.digitChar (n % 10)]]
      simp

theorem toDigitsCore_fuel (fuel1 fuel2 n : Nat) (h1 : n < fuel1) (h2 : n < fuel2) :
    Nat.toDigitsCore 10 fuel1 n [] = Nat.toDigitsCore 10 fuel2 n [] := by
  induction fuel1 generalizing fuel2 n with
  | zero => omega
  | succ f1 ih =>
    cases fuel2 with
    | zero => omega
    | succ f2 =>
      simp only [Nat.toDigitsCore]
      split
      · rfl
      · rename_i hne
        rw [toDigitsCore_acc f1, toDigitsCore_acc f2, ih f2 (n / 10) (by omega) (by omega)]

theorem toDigits_small (n : Nat) (h : n < 10) : Nat.toDigits 10 n = [Nat.digitChar n] := by
  unfold Nat.toDigits
  simp only [Nat.toDigitsCore]
  rw [if_pos (by omega), Nat.mod_eq_of_lt h]

theorem toDigits_large (n : Nat) (h : 10 ≤ n) :
    Nat.toDigits 10 n = Nat.toDigits 10 (n / 10) ++ [Nat.digitChar (n % 10)] := by
  have e : Nat.toDigitsCore 10 (n + 1) n [] =
      Nat.toDigitsCore 10 n (n / 10) [Nat.digitChar (n % 10)] := by
    simp only [Nat.toDigitsCore]
    rw [if_neg (by omega)]
  unfold Nat.toDigits
  rw [e, toDigitsCore_acc, toDigitsCore_fuel n (n / 10 + 1) (n / 10) (by omega) (by omega)]

theorem toDigits_ne_nil (n : Nat) : Nat.toDigits 10 n ≠ [] := by
  by_cases h : n < 10
  · rw [toDigits_small n h]; simp
  · rw [toDigits_large n (by omega)]; simp

theorem fixed1String_eq (t : Nat) : fixed1String t = decimalString t := by
  apply String.ext
  unfold fixed1String decimalString
  simp only [String.data_append, Nat.repr, List.asString, instToStringNat]
  by_cases h : t < 10
  · rw [toDigits_small t h, Nat.div_eq_of_lt h, Nat.mod_eq_of_lt h, toDigits_small 0 (by omega),
      toDigits_small t h]
    simp
    rfl
  · have hl := toDigits_large t (by omega)
    have hne := toDigits_ne_nil (t / 10)
    have hlen : 1 ≤ (Nat.toDigits 10 (t / 10)).length := by
      cases hd : Nat.toDigits 10 (t / 10) with
      | nil => exact absurd hd hne
      | cons a l => simp
    rw [hl, toDigits_small (t % 10) (Nat.mod_lt _ (by omega))]
    simp only [List.length_append, List.length_singleton]
    rw [if_neg (by omega)]
    simp

/-! ### C1: the response rate -/

theorem mem_zip_map_self {α β : Type} (f : α → β) (l : List α) (a : α) (b : β)
    (h : (a, b) ∈ List.zip l (l.map f)) : b = f a := by
  induction l with
  | nil => simp at h
  | cons x xs ih =>
    rw [List.map_cons, List.zip_cons_cons, List.mem_cons] at h
    rcases h with h | h
    · cases h; rfl
    · exact ih h

/-- The rate computed for `k` of `n` responses is the one-decimal numeral of a tenth
nearest to `k / n * 100`, the rounded exact quotient unless that lies midway. -/
theorem responseRate_spec (k n : Nat) (hn : 0 < n) (hn32 : n < 2 ^ 32) (hk : k ≤ n) :
    ∃ t, responseRate k n = decimalString t ∧
      2 * n * t ≤ 2000 * k + n ∧ 2000 * k ≤ 2 * n * t + n ∧
      ((2000 * k + n) % (2 * n) ≠ 0 → t = roundedTenths k n) := by
  obtain ⟨h1, h2⟩ := tenths_near k n hn hn32 hk
  refine ⟨(((F64.ofNat k).div (F64.ofNat n)).mul (F64.ofNat 100)).tenths, ?_, h1, h2, ?_⟩
  · unfold responseRate
    rw [if_pos hn, F64.toFixed1, fixed1String_eq]
  · intro hr
    generalize (((F64.ofNat k).div (F64.ofNat n)).mul (F64.ofNat 100)).tenths = t at *
    unfold roundedTenths
    have hdm := Nat.div_add_mod (2000 * k + n) (2 * n)
    have hml := Nat.mod_lt (2000 * k + n) (show 0 < 2 * n by omega)
    generalize (2000 * k + n) / (2 * n) = h at *
    generalize (2000 * k + n) % (2 * n) = r at *
    rcases Nat.lt_trichotomy t h with hlt | heq | hgt
    · have := Nat.mul_le_mul_left (2 * n) (Nat.succ_le_of_lt hlt)
      rw [Nat.mul_succ] at this
      omega
    · exact heq
    · have := Nat.mul_le_mul_left (2 * n) (Nat.succ_le_of_lt hgt)
      rw [Nat.mul_succ] at this
      omega

/-- C1, as the code has it: for a response list of `n > 0` responses (an array, so
`n < 2^32`) of which `k` hold an answer to a question of the form, the question summary's
`responseRate` is the decimal numeral, with exactly one fractional digit, of a tenth
nearest to `k / n * 100`; it is the exact quotient rounded to one decimal place whenever
that quotient does not lie midway between two tenths. -/
theorem responseRate_nearest_tenth (form : Form) (responses : List Response)
    (q : Question) (s : QuestionSummary)
    (hqs : (q, s) ∈ List.zip form.questions (computeSummary form responses).questionSummaries)
    (hn : 0 < responses.length) (hn32 : responses.length < 2 ^ 32) :
    ∃ t, s.responseRate = decimalString t ∧
      2 * responses.length * t ≤
        2000 * (responses.countP fun r => r.answers.any fun a => a.questionId == q._id) +
          responses.length ∧
      2000 * (responses.countP fun r => r.answers.any fun a => a.questionId == q._id) ≤
        2 * responses.length * t + responses.length ∧
      ((2000 * (responses.countP fun r => r.answers.any fun a => a.questionId == q._id) +
          responses.length) % (2 * responses.length) ≠ 0 →
        t = roundedTenths
          (responses.countP fun r => r.answers.any fun a => a.questionId == q._id)
          responses.length) := by
  have hs : s = summarizeQuestion responses q := mem_zip_map_self _ _ _ _ hqs
  rw [hs, summarizeQuestion_responseRate, questionResponses_length]
  exact responseRate_spec _ _ hn hn32 (List.countP_le_length _)

/-- A use of `responseRate_nearest_tenth` at `ratingForm` with three responses, one of
which holds a comment. -/
theorem responseRate_nearest_tenth_witness :
    0 < threeResponses.length ∧
    ∃ t, (summarizeQuestion threeResponses
        { _id := "q1", type := "text", question := "Comments", options := []
          required := false }).responseRate = decimalString t ∧
      2 * threeResponses.length * t ≤
        2000 * (threeResponses.countP fun r => r.answers.any fun a => a.questionId == "q1") +
          threeResponses.length ∧
      2000 * (threeResponses.countP fun r => r.answers.any fun a => a.questionId == "q1") ≤
        2 * threeResponses.length * t + threeResponses.length ∧
      ((2000 * (threeResponses.countP fun r => r.answers.any fun a => a.questionId == "q1") +
          threeResponses.length) % (2 * threeResponses.length) ≠ 0 →
        t = roundedTenths
          (threeResponses.countP fun r => r.answers.any fun a => a.questionId == "q1")
          threeResponses.length) :=
  ⟨by decide,
    responseRate_nearest_tenth ratingForm threeResponses
      { _id := "q1", type := "text", question := "Comments", options := [], required := false }
      (summarizeQuestion threeResponses
        { _id := "q1", type := "text", question := "Comments", options := []
          required := false })
      (by decide) (by decide) (by decide)⟩

/-- C1, at 80 responses of which 23 hold a comment: `23 / 80 * 100` is 28.75 exactly and
rounds to `28.8`, but the summary reports `28.7`, the binary64 product being just below
28.75. -/
theorem rate_of_23_in_80 :
    (findResponses eightyResponsesDb "f1").length = 80 ∧
    ((findResponses eightyResponsesDb "f1").countP fun r =>
      r.answers.any fun a => a.questionId == "q1") = 23 ∧
    (∃ s, getSummary eightyResponsesDb "u1" "f1" = .ok s ∧
      s.questionSummaries.map (fun x => x.responseRate) = ["28.7", "100.0", "0.0"]) ∧
    2000 * 23 + 80 = 2 * 80 * 288 ∧
    decimalString (roundedTenths 23 80) = "28.8" := by
  refine ⟨by decide, by decide, ⟨_, rfl, by decide⟩, by decide, by decide⟩

/-- A use of `text_summary_first_twenty` at the comments question of `ratingForm`. -/
theorem text_summary_first_twenty_witness :
    (summarizeQuestion threeResponses
      { _id := "q1", type := "text", question := "Comments", options := []
        required := false }).responses = some ["Nice"] ∧
    (summarizeQuestion threeResponses
      { _id := "q1", type := "text", question := "Comments", options := []
        required := false }).totalResponses = 1 :=
  have h := text_summary_first_twenty threeResponses
    { _id := "q1", type := "text", question := "Comments", options := [], required := false }
    rfl
  ⟨h.1, h.2.2⟩

/-- A use of `summary_of_no_responses` at `ratingForm`. -/
theorem summary_of_no_responses_witness :
    (computeSummary ratingForm []).totalResponses = 0 ∧
    (computeSummary ratingForm []).questionSummaries.map
      (fun s => (s.totalResponses, s.responseRate)) = [(0, "0"), (0, "0"), (0, "0")] ∧
    (computeSummary ratingForm []).responseTimeframe = { earliest := none, latest := none } :=
  ⟨(summary_of_no_responses ratingForm).1, by decide, (summary_of_no_responses ratingForm).2.2.2⟩

/-! ### C11: the scenario of three responses -/

/-- C11: for the form with the text question `Comments` and the required multiple-choice
question `Rating` (options `Good`, `Bad`) and the responses {Comments: Nice, Rating: Good},
{Rating: Bad}, {Rating: Good}, the summary gives for `Rating` the option counts
{Good: 2, Bad: 1}, `totalResponses = 3` and `responseRate = "100.0"`, and for `Comments`
`totalResponses = 1` and `responseRate = "33.3"`. -/
theorem scenario_summary :
    threeResponses.map (fun r => r.answers) =
      [[{ questionId := "q1", answer := "Nice" }, { questionId := "q2", answer := "Good" }],
       [{ questionId := "q2", answer := "Bad" }],
       [{ questionId := "q2", answer := "Good" }]] ∧
    (computeSummary scenarioForm threeResponses).questionSummaries =
      [{ questionId := "q1", question := "Comments", type := "text", totalResponses := 1
         options := none, optionCounts := none, responses := some ["Nice"]
         responseRate := "33.3" },
       { questionId := "q2", question := "Rating", type := "multiple-choice"
         totalResponses := 3, options := some ["Good", "Bad"]
         optionCounts := some [("Good", 2), ("Bad", 1)], responses := none
         responseRate := "100.0" }] := by
  decide

/-! ### The page count -/

/-- A quotient of integers that is itself an integer below `2^53` is computed exactly. -/
theorem roundBinary64_exact (a b : Nat) (ha : 0 < a) (hb : 0 < b) (hdvd : b ∣ a)
    (hlt : a < 2 ^ 53 * b) :
    (roundBinary64 a b).num = a / b * (roundBinary64 a b).den ∧ 0 < (roundBinary64 a b).den := by
  obtain ⟨he1, -⟩ := binaryExponent_spec a b ha hb
  have hbq : (0 : ℚ) < b := by exact_mod_cast hb
  have hle : binaryExponent a b ≤ 52 := by
    have h1 : (a : ℚ) / b < 2 ^ (53 : ℤ) := by
      rw [div_lt_iff₀ hbq]
      have : ((a : ℕ) : ℚ) < ((2 ^ 53 * b : ℕ) : ℚ) := by exact_mod_cast hlt
      push_cast at this
      exact_mod_cast this
    have h2 : (2 : ℚ) ^ binaryExponent a b < 2 ^ (53 : ℤ) := lt_of_le_of_lt he1 h1
    have := (zpow_lt_zpow_iff_right₀ (by norm_num : (1 : ℚ) < 2)).1 h2
    omega
  unfold roundBinary64
  rw [if_neg (by omega)]
  simp only
  generalize binaryExponent a b = e at *
  have hdown : (e - 52).toNat = 0 := by omega
  rw [hdown, pow_zero, Nat.mul_one, Nat.mul_one]
  generalize (52 - e).toNat = up
  obtain ⟨c, rfl⟩ := hdvd
  have hmod : b * c * 2 ^ up % b = 0 := by
    rw [Nat.mul_assoc]
    exact Nat.mul_mod_right _ _
  have hdiv : b * c * 2 ^ up / b = c * 2 ^ up := by
    rw [Nat.mul_assoc]
    exact Nat.mul_div_cancel_left _ hb
  refine ⟨?_, by positivity⟩
  unfold roundHalfEven
  simp only [hmod, hdiv, Nat.mul_zero]
  rw [if_pos hb, Nat.mul_div_cancel_left _ hb]

/-- The expression `Math.ceil(total / limit)` is the ceiling of the exact quotient. -/
theorem ceil_div_exact (a b : Nat) (hb : 0 < b) (ha : a < 2 ^ 53) :
    ((F64.ofNat a).div (F64.ofNat b)).ceil = (a + b - 1) / b := by
  have hdiv : (F64.ofNat a).div (F64.ofNat b) = roundBinary64 a b := by
    simp [F64.ofNat, F64.div]
  rw [hdiv]
  rcases Nat.eq_zero_or_pos a with rfl | ha0
  · have : (0 + b - 1) / b = 0 := Nat.div_eq_of_lt (by omega)
    rw [this]
    simp [roundBinary64, F64.ceil]
  · have hdm := Nat.div_add_mod a b
    have hml := Nat.mod_lt a hb
    by_cases hr : a % b = 0
    · have hdvd : b ∣ a := Nat.dvd_of_mod_eq_zero hr
      have hlt : a < 2 ^ 53 * b := by
        calc a < 2 ^ 53 := ha
          _ = 2 ^ 53 * 1 := (Nat.mul_one _).symm
          _ ≤ 2 ^ 53 * b := Nat.mul_le_mul_left _ hb
      obtain ⟨h1, h2⟩ := roundBinary64_exact a b ha0 hb hdvd hlt
      unfold F64.ceil
      rw [h1]
      generalize (roundBinary64 a b).den = d at *
      generalize a / b = q at *
      have e1 : (a + b - 1) / b = q := by
        apply Nat.div_eq_of_lt_le
        · rw [Nat.mul_comm]; omega
        · rw [Nat.succ_mul, Nat.mul_comm]; omega
      rw [e1]
      apply Nat.div_eq_of_lt_le
      · omega
      · rw [Nat.succ_mul]; omega
    · obtain ⟨hd, he⟩ := roundBinary64_spec a b ha0 hb
      unfold F64.ceil
      generalize roundBinary64 a b = x at *
      have hbq : (0 : ℚ) < b := by exact_mod_cast hb
      have hdq : (0 : ℚ) < x.den := by exact_mod_cast hd
      have haq : (a : ℚ) < 2 ^ 53 := by exact_mod_cast ha
      have hsmall : (a : ℚ) / b / 2 ^ 53 < 1 / b := by
        rw [div_div, div_lt_div_iff₀ (by positivity) hbq]
        nlinarith
      rw [abs_le] at he
      have hq : (a : ℚ) = b * (a / b : ℕ) + (a % b : ℕ) := by exact_mod_cast hdm.symm
      generalize a / b = q at *
      generalize a % b = r at *
      have hr1 : (1 : ℚ) ≤ r := by
        have : 1 ≤ r := by omega
        exact_mod_cast this
      have hr2 : (r : ℚ) + 1 ≤ b := by
        have : r + 1 ≤ b := by omega
        exact_mod_cast this
      have hab : (a : ℚ) / b = q + r / b := by
        rw [hq]; field_simp; ring
      have hrb1 : (1 : ℚ) / b ≤ r / b := div_le_div_of_nonneg_right hr1 hbq.le
      have hrb2 : (r : ℚ) / b + 1 / b ≤ 1 := by
        rw [← add_div, div_le_one hbq]; exact hr2
      have hlo : (q : ℚ) < (x.num : ℚ) / x.den := by linarith [he.1]
      have hhi : (x.num : ℚ) / x.den < q + 1 := by linarith [he.2]
      rw [lt_div_iff₀ hdq] at hlo
      rw [div_lt_iff₀ hdq] at hhi
      have hlo' : q * x.den < x.num := by exact_mod_cast hlo
      have hhi' : x.num < (q + 1) * x.den := by exact_mod_cast hhi
      have e1 : (a + b - 1) / b = q + 1 := by
        apply Nat.div_eq_of_lt_le
        · rw [Nat.succ_mul, Nat.mul_comm]; omega
        · rw [Nat.succ_mul, Nat.succ_mul, Nat.mul_comm]; omega
      rw [e1]
      rw [Nat.succ_mul] at hhi'
      apply Nat.div_eq_of_lt_le
      · rw [Nat.succ_mul]; omega
      · rw [Nat.succ_mul, Nat.succ_mul]; omega

/-! ### The listing -/

theorem sortNewestFirst_length (l : List Response) : (sortNewestFirst l).length = l.length :=
  List.length_insertionSort _ l

theorem pred_mul_add (page limit : Nat) (hp : 1 ≤ page) :
    (page - 1) * limit + limit = page * limit := by
  obtain ⟨p, rfl⟩ : ∃ p, page = p + 1 := ⟨page - 1, by omega⟩
  rw [Nat.add_sub_cancel, Nat.succ_mul]

/-- The reply of the listing for an owned form, a page of at least 1 and a limit of at
least 1. -/
theorem getResponses_ok (db : Db) (userId formId : String) (form : Form) (page limit : Nat)
    (hform : findOwnedForm db formId userId = some form) (hp : 1 ≤ page) (hl : 1 ≤ limit) :
    getResponses db userId formId (some page) (some limit) = .ok
      { responses := ((sortNewestFirst (findResponses db formId)).drop ((page - 1) * limit)).take
          limit
        pagination :=
          { currentPage := page
            totalPages := some
              ((F64.ofNat (findResponses db formId).length).div (F64.ofNat limit)).ceil
            totalResponses := (findResponses db formId).length
            hasMore := decide (page * limit < (findResponses db formId).length) }
        form := { id := form._id, title := form.title, questions := form.questions } } := by
  have hl0 : limit ≠ 0 := by omega
  have hp0 : ¬ (page = 0 ∧ limit ≠ 0) := by omega
  simp only [getResponses, Option.getD_some, castsToObjectId_of_owned db formId userId form hform,
    hform, hp0, hl0, Bool.not_true, Bool.false_eq_true, if_false]
  congr 3
  rw [List.length_take, List.length_drop, sortNewestFirst_length]
  have := pred_mul_add page limit hp
  generalize (page - 1) * limit = skip at *
  generalize page * limit = pl at *
  generalize (findResponses db formId).length = total
  simp only [decide_eq_decide]
  omega

theorem ceil_mul_ge (total limit : Nat) (hl : 1 ≤ limit) :
    total ≤ (total + limit - 1) / limit * limit := by
  have h1 := Nat.div_add_mod (total + limit - 1) limit
  have h2 := Nat.mod_lt (total + limit - 1) (show 0 < limit by omega)
  rw [Nat.mul_comm] at h1
  omega

theorem lt_ceil_iff (page total limit : Nat) (hl : 1 ≤ limit) :
    page < (total + limit - 1) / limit ↔ page * limit < total := by
  rw [Nat.lt_iff_add_one_le, Nat.le_div_iff_mul_le (by omega), Nat.succ_mul]
  omega

theorem ceil_eq_natCeil (total limit : Nat) (hl : 1 ≤ limit) :
    (total + limit - 1) / limit = ⌈(total : ℚ) / limit⌉₊ := by
  have hlq : (0 : ℚ) < limit := by exact_mod_cast hl
  apply le_antisymm
  · rcases Nat.eq_zero_or_pos ((total + limit - 1) / limit) with h | h
    · rw [h]; exact Nat.zero_le _
    · have h1 : (total + limit - 1) / limit - 1 < (total + limit - 1) / limit := by omega
      have h2 := (lt_ceil_iff _ total limit hl).1 h1
      have h3 : (total + limit - 1) / limit - 1 < ⌈(total : ℚ) / limit⌉₊ := by
        rw [Nat.lt_ceil, lt_div_iff₀ hlq]
        exact_mod_cast h2
      omega
  · rw [Nat.ceil_le, div_le_iff₀ hlq]
    exact_mod_cast ceil_mul_ge total limit hl

theorem totalPages_eq (total limit : Nat) (hl : 1 ≤ limit) (ht : total < 2 ^ 53) :
    ((F64.ofNat total).div (F64.ofNat limit)).ceil = ⌈(total : ℚ) / limit⌉₊ := by
  rw [ceil_div_exact total limit (by omega) ht, ceil_eq_natCeil total limit hl]

theorem lt_natCeil_iff (page total limit : Nat) (hl : 1 ≤ limit) :
    page < ⌈(total : ℚ) / limit⌉₊ ↔ page * limit < total := by
  rw [← ceil_eq_natCeil total limit hl, lt_ceil_iff page total limit hl]

/-! ### C12: the flag `hasMore` -/

theorem listedResponses_ne_nil_iff (db : Db) (userId formId : String) (form : Form)
    (p limit : Nat) (hform : findOwnedForm db formId userId = some form)
    (hp : 1 ≤ p) (hl : 1 ≤ limit) :
    listedResponses (getResponses db userId formId (some p) (some limit)) ≠ [] ↔
      (p - 1) * limit < (findResponses db formId).length := by
  rw [getResponses_ok db userId formId form p limit hform hp hl]
  simp only [listedResponses]
  rw [← List.length_pos, List.length_take, List.length_drop, sortNewestFirst_length]
  omega

/-- C12: for an owned form, every page of at least 1 and every limit of at least 1, the
listing reports the requested page, the number of the form's responses in the store and
the ceiling of that number over the limit, and its `hasMore` is true exactly when
`page * limit` is below the number of the form's responses, exactly when the page is below
that ceiling, exactly when the next page holds a response, and exactly when some later
page holds a response; said with the reply's own fields, exactly when
`page * limit < totalResponses` and exactly when `currentPage < totalPages`. -/
theorem hasMore_iff_further_pages (db : Db) (userId formId : String) (form : Form)
    (page limit : Nat) (hform : findOwnedForm db formId userId = some form)
    (hp : 1 ≤ page) (hl : 1 ≤ limit) (ht : (findResponses db formId).length < 2 ^ 53) :
    ∃ l, getResponses db userId formId (some page) (some limit) = .ok l ∧
      l.pagination.currentPage = page ∧
      l.pagination.totalResponses = (findResponses db formId).length ∧
      l.pagination.totalPages = some ⌈((findResponses db formId).length : ℚ) / limit⌉₊ ∧
      (l.pagination.hasMore = true ↔ page * limit < (findResponses db formId).length) ∧
      (l.pagination.hasMore = true ↔
        page < ⌈((findResponses db formId).length : ℚ) / limit⌉₊) ∧
      (l.pagination.hasMore = true ↔
        listedResponses (getResponses db userId formId (some (page + 1)) (some limit)) ≠ []) ∧
      (l.pagination.hasMore = true ↔
        ∃ p, page < p ∧
          listedResponses (getResponses db userId formId (some p) (some limit)) ≠ []) ∧
      (l.pagination.hasMore = true ↔ page * limit < l.pagination.totalResponses) ∧
      (l.pagination.hasMore = true ↔
        ∃ tp, l.pagination.totalPages = some tp ∧ l.pagination.currentPage < tp) := by
  refine ⟨_, getResponses_ok db userId formId form page limit hform hp hl, rfl, rfl, ?_, ?_, ?_,
    ?_, ?_, ?_, ?_⟩
  · simp only [totalPages_eq _ limit hl ht]
  · simp only [decide_eq_true_eq]
  · simp only [decide_eq_true_eq]
    exact (lt_natCeil_iff page _ limit hl).symm
  · simp only [decide_eq_true_eq]
    rw [listedResponses_ne_nil_iff db userId formId form (page + 1) limit hform (by omega) hl,
      Nat.add_sub_cancel]
  · simp only [decide_eq_true_eq]
    constructor
    · intro h
      refine ⟨page + 1, by omega, ?_⟩
      rw [listedResponses_ne_nil_iff db userId formId form (page + 1) limit hform (by omega) hl,
        Nat.add_sub_cancel]
      exact h
    · rintro ⟨p, hlt, hne⟩
      rw [listedResponses_ne_nil_iff db userId formId form p limit hform (by omega) hl] at hne
      have : page * limit ≤ (p - 1) * limit := Nat.mul_le_mul_right _ (by omega)
      omega
  · simp only [decide_eq_true_eq]
  · simp only [decide_eq_true_eq, Option.some.injEq, exists_eq_left', totalPages_eq _ limit hl ht]
    exact (lt_natCeil_iff page _ limit hl).symm

/-- A use of `hasMore_iff_further_pages`: the first page of one response out of the two of
`twoResponsesDb` has `hasMore` set, and the second page holds a response. -/
theorem hasMore_iff_further_pages_witness :
    ∃ l, getResponses twoResponsesDb "u1" "f1" (some 1) (some 1) = .ok l ∧
      l.pagination.totalResponses = 2 ∧ l.pagination.hasMore = true ∧
      listedResponses (getResponses twoResponsesDb "u1" "f1" (some 2) (some 1)) ≠ [] := by
  obtain ⟨l, h1, -, h3, -, h5, -, h7, -⟩ := hasMore_iff_further_pages twoResponsesDb "u1" "f1"
    ratingForm 1 1 (by decide) (by decide) (by decide) (by decide)
  have hm : l.pagination.hasMore = true := h5.2 (by decide)
  exact ⟨l, h1, h3.trans (by decide), hm, h7.1 hm⟩

/-! ### C14: the fields of `pagination` -/

/-- C14: for an owned form, every page of at least 1 and every limit of at least 1, the
listing reports `currentPage` as the requested page, `totalResponses` as the number of
responses of the form, and `totalPages` as the ceiling of `totalResponses / limit`, which
is 0 when there are no responses. -/
theorem pagination_fields (db : Db) (userId formId : String) (form : Form)
    (page limit : Nat) (hform : findOwnedForm db formId userId = some form)
    (hp : 1 ≤ page) (hl : 1 ≤ limit) (ht : (findResponses db formId).length < 2 ^ 53) :
    ∃ l, getResponses db userId formId (some page) (some limit) = .ok l ∧
      l.pagination.currentPage = page ∧
      l.pagination.totalResponses = (db.responses.filter fun r => r.formId == formId).length ∧
      l.pagination.totalPages =
        some ⌈((db.responses.filter fun r => r.formId == formId).length : ℚ) / limit⌉₊ ∧
      ((db.responses.filter fun r => r.formId == formId).length = 0 →
        l.pagination.totalPages = some 0) := by
  refine ⟨_, getResponses_ok db userId formId form page limit hform hp hl, rfl, rfl, ?_, ?_⟩
  · simp only [Option.some.injEq]
    exact totalPages_eq _ _ hl ht
  · intro h0
    simp only [Option.some.injEq]
    rw [totalPages_eq _ _ hl ht]
    have : (findResponses db formId).length = 0 := h0
    rw [this]
    simp

/-- A use of `pagination_fields`: the second page of one response out of two. -/
theorem pagination_fields_witness :
    ∃ l, getResponses twoResponsesDb "u1" "f1" (some 2) (some 1) = .ok l ∧
      l.pagination.currentPage = 2 ∧
      l.pagination.totalResponses =
        (twoResponsesDb.responses.filter fun r => r.formId == "f1").length ∧
      l.pagination.totalPages =
        some ⌈((twoResponsesDb.responses.filter fun r => r.formId == "f1").length : ℚ) /
          (1 : ℕ)⌉₊ ∧
      ((twoResponsesDb.responses.filter fun r => r.formId == "f1").length = 0 →
        l.pagination.totalPages = some 0) :=
  pagination_fields twoResponsesDb "u1" "f1" ratingForm 2 1 (by decide) (by decide)
    (by decide) (by decide)

/-! ### C13: a page beyond the last -/

/-- C13: for an owned form and every limit of at least 1, a request for a page beyond the
last one, such as page `ceil(total / limit) + 1`, is answered with an empty `responses`
list, `hasMore = false`, and the true `totalPages` and `totalResponses`. -/
theorem page_beyond_last (db : Db) (userId formId : String) (form : Form)
    (page limit : Nat) (hform : findOwnedForm db formId userId = some form)
    (hl : 1 ≤ limit) (ht : (findResponses db formId).length < 2 ^ 53)
    (hbeyond : ⌈((findResponses db formId).length : ℚ) / limit⌉₊ < page) :
    ∃ l, getResponses db userId formId (some page) (some limit) = .ok l ∧
      l.responses = [] ∧ l.pagination.hasMore = false ∧
      l.pagination.totalPages = some ⌈((findResponses db formId).length : ℚ) / limit⌉₊ ∧
      l.pagination.totalResponses = (findResponses db formId).length := by
  have hp : 1 ≤ page := by omega
  have hskip : (findResponses db formId).length ≤ (page - 1) * limit := by
    rw [← ceil_eq_natCeil _ _ hl] at hbeyond
    calc (findResponses db formId).length
        ≤ ((findResponses db formId).length + limit - 1) / limit * limit :=
          ceil_mul_ge _ _ hl
      _ ≤ (page - 1) * limit := Nat.mul_le_mul_right _ (by omega)
  refine ⟨_, getResponses_ok db userId formId form page limit hform hp hl, ?_, ?_, ?_, rfl⟩
  · show ((sortNewestFirst (findResponses db formId)).drop ((page - 1) * limit)).take limit = []
    rw [List.drop_eq_nil_of_le (by rw [sortNewestFirst_length]; exact hskip), List.take_nil]
  · simp only [decide_eq_false_iff_not, not_lt]
    have := pred_mul_add page limit hp
    omega
  · simp only [Option.some.injEq]
    exact totalPages_eq _ _ hl ht

/-- A use of `page_beyond_last`: page 3 of two responses listed one per page. -/
theorem page_beyond_last_witness :
    ∃ l, getResponses twoResponsesDb "u1" "f1" (some 3) (some 1) = .ok l ∧
      l.responses = [] ∧ l.pagination.hasMore = false ∧
      l.pagination.totalPages =
        some ⌈((findResponses twoResponsesDb "f1").length : ℚ) / (1 : ℕ)⌉₊ ∧
      l.pagination.totalResponses = (findResponses twoResponsesDb "f1").length :=
  page_beyond_last twoResponsesDb "u1" "f1" ratingForm 3 1 (by decide) (by decide)
    (by decide) (by
      have h : (findResponses twoResponsesDb "f1").length = 2 := by decide
      rw [h]
      norm_num)

/-! ### C15: the pages of the listing -/

theorem sortNewestFirst_sorted (l : List Response) :
    (sortNewestFirst l).Sorted (fun a b => b.submittedAt ≤ a.submittedAt) :=
  List.sorted_insertionSort _ l

theorem sortNewestFirst_perm (l : List Response) : (sortNewestFirst l).Perm l :=
  List.perm_insertionSort _ l

theorem filter_orderedInsert (t : Int) (a : Response) (l : List Response) :
    (l.orderedInsert (fun a b => b.submittedAt ≤ a.submittedAt) a).filter
        (fun r => r.submittedAt == t) =
      if a.submittedAt = t then a :: l.filter (fun r => r.submittedAt == t)
      else l.filter (fun r => r.submittedAt == t) := by
  induction l with
  | nil =>
    by_cases h : a.submittedAt = t <;> simp [h]
  | cons b l ih =>
    rw [List.orderedInsert]
    by_cases hab : b.submittedAt ≤ a.submittedAt
    · rw [if_pos hab]
      by_cases h : a.submittedAt = t <;> simp [List.filter_cons, h]
    · rw [if_neg hab, List.filter_cons, ih]
      by_cases h : a.submittedAt = t
      · have hb : ¬ b.submittedAt = t := by omega
        simp [h, hb, List.filter_cons]
      · by_cases hb : b.submittedAt = t <;> simp [h, hb, List.filter_cons]

/-- The sort keeps responses of equal timestamp in their stored order. -/
theorem sortNewestFirst_stable (t : Int) (l : List Response) :
    (sortNewestFirst l).filter (fun r => r.submittedAt == t) =
      l.filter (fun r => r.submittedAt == t) := by
  induction l with
  | nil => rfl
  | cons a l ih =>
    unfold sortNewestFirst at ih ⊢
    rw [List.insertionSort, filter_orderedInsert, ih, List.filter_cons]
    by_cases h : a.submittedAt = t <;> simp [h]

theorem flatMap_slices {α : Type} (l : List α) (s n : Nat) :
    (List.range n).flatMap (fun i => (l.drop (i * s)).take s) = l.take (n * s) := by
  induction n with
  | zero => simp
  | succ n ih =>
    rw [List.range_succ, List.flatMap_append, ih, Nat.succ_mul, List.take_add]
    simp

/-- C15: for an owned form, page `p ≥ 1` and limit `s ≥ 1` (absent parameters standing
for `p = 1`, `s = 50`), the listing returns the elements at positions `(p-1)*s` to
`p*s-1` of the form's responses sorted by submission timestamp descending, responses of
equal timestamp kept in their stored order; the pages `1..totalPages` concatenated are
that whole sorted list, a rearrangement of the form's responses. -/
theorem listing_pages (db : Db) (userId formId : String) (form : Form) (s : Nat)
    (hform : findOwnedForm db formId userId = some form) (hs : 1 ≤ s) :
    (sortNewestFirst (findResponses db formId)).Sorted
        (fun a b => b.submittedAt ≤ a.submittedAt) ∧
    (sortNewestFirst (findResponses db formId)).Perm (findResponses db formId) ∧
    (∀ t, (sortNewestFirst (findResponses db formId)).filter (fun r => r.submittedAt == t) =
      (findResponses db formId).filter (fun r => r.submittedAt == t)) ∧
    (∀ p, 1 ≤ p →
      (listedResponses (getResponses db userId formId (some p) (some s))).length ≤ s ∧
      ∀ i, i < s →
        (listedResponses (getResponses db userId formId (some p) (some s)))[i]? =
          (sortNewestFirst (findResponses db formId))[(p - 1) * s + i]?) ∧
    (List.range ⌈((findResponses db formId).length : ℚ) / s⌉₊).flatMap
        (fun i => listedResponses (getResponses db userId formId (some (i + 1)) (some s))) =
      sortNewestFirst (findResponses db formId) ∧
    getResponses db userId formId none none =
      getResponses db userId formId (some 1) (some 50) := by
  have hpage : ∀ p, 1 ≤ p →
      listedResponses (getResponses db userId formId (some p) (some s)) =
        ((sortNewestFirst (findResponses db formId)).drop ((p - 1) * s)).take s := by
    intro p hp
    rw [getResponses_ok db userId formId form p s hform hp hs]
    rfl
  refine ⟨sortNewestFirst_sorted _, sortNewestFirst_perm _, fun t => sortNewestFirst_stable t _,
    ?_, ?_, rfl⟩
  · intro p hp
    rw [hpage p hp]
    refine ⟨?_, ?_⟩
    · rw [List.length_take]; omega
    · intro i hi
      rw [List.getElem?_take, if_pos hi, List.getElem?_drop]
  · have hfun : (fun i => listedResponses
        (getResponses db userId formId (some (i + 1)) (some s))) =
        fun i => ((sortNewestFirst (findResponses db formId)).drop (i * s)).take s := by
      funext i
      rw [hpage (i + 1) (by omega), Nat.add_sub_cancel]
    rw [hfun, flatMap_slices, List.take_of_length_le]
    rw [sortNewestFirst_length, ← ceil_eq_natCeil _ _ hs]
    exact ceil_mul_ge _ _ hs

/-- A use of `listing_pages`: the two responses of `twoResponsesDb` listed one per page. -/
theorem listing_pages_witness :
    (List.range ⌈((findResponses twoResponsesDb "f1").length : ℚ) / (1 : ℕ)⌉₊).flatMap
        (fun i => listedResponses (getResponses twoResponsesDb "u1" "f1" (some (i + 1))
          (some 1))) =
      sortNewestFirst (findResponses twoResponsesDb "f1") ∧
    listedResponses (getResponses twoResponsesDb "u1" "f1" (some 1) (some 1)) =
      [commentAt 2000 "second"] ∧
    listedResponses (getResponses twoResponsesDb "u1" "f1" (some 2) (some 1)) =
      [commentAt 1000 "first"] :=
  ⟨(listing_pages twoResponsesDb "u1" "f1" ratingForm 1 (by decide) (by decide)).2.2.2.2.1,
    by decide, by decide⟩

/-! ### C16, C17, C18: the exported text -/

/-- Reading the text written for a table without empty rows gives the table back. -/
theorem parseCsv_csvContent (table : List (List String)) (hrows : ∀ row ∈ table, row ≠ []) :
    parseCsv (csvContent table) = some table := by
  unfold parseCsv csvContent
  have h := readCsv_table table hrows []
  rw [List.nil_append] at h
  exact h

theorem headers_ne_nil (form : Form) : headers form ≠ [] := by
  simp [headers]

theorem rows_ne_nil (form : Form) (responses : List Response) :
    ∀ row ∈ rows form responses, row ≠ [] := by
  intro row hrow
  simp only [rows, List.mem_map] at hrow
  obtain ⟨r, -, rfl⟩ := hrow
  simp

theorem parseCsv_exportCsv (form : Form) (responses : List Response) :
    parseCsv (exportCsv form responses) = some (headers form :: rows form responses) := by
  unfold exportCsv
  apply parseCsv_csvContent
  intro row hrow
  rcases List.mem_cons.1 hrow with h | h
  · rw [h]; exact headers_ne_nil form
  · exact rows_ne_nil form responses row h

theorem rows_eq_map (form : Form) (responses : List Response) :
    rows form responses = responses.map fun r =>
      r._id :: toISOString r.submittedAt :: form.questions.map fun q =>
        ((r.answers.find? fun a => a.questionId == q._id).map fun a => a.answer).getD "" := by
  unfold rows
  apply List.map_congr_left
  intro r _
  simp only [List.cons_append, List.nil_append, List.cons.injEq, true_and]
  apply List.map_congr_left
  intro q _
  cases r.answers.find? (fun a => a.questionId == q._id) <;> rfl

/-- C16: for an owned form with `N` responses, the exported text parses to `N + 1` rows,
and the data rows are, for the responses taken newest first, the response identifier, the
submission timestamp as written by `toISOString`, and then for each form question in order
the value of the response's answer to it, or the empty string when it has none. -/
theorem export_rows (db : Db) (userId formId : String) (form : Form)
    (hform : findOwnedForm db formId userId = some form) :
    (sortNewestFirst (findResponses db formId)).Sorted
        (fun a b => b.submittedAt ≤ a.submittedAt) ∧
    (sortNewestFirst (findResponses db formId)).Perm (findResponses db formId) ∧
    ∃ text header data, getExport db userId formId = .ok text ∧
      parseCsv text = some (header :: data) ∧
      (header :: data).length = (findResponses db formId).length + 1 ∧
      data = (sortNewestFirst (findResponses db formId)).map fun r =>
        r._id :: toISOString r.submittedAt :: form.questions.map fun q =>
          ((r.answers.find? fun a => a.questionId == q._id).map fun a => a.answer).getD "" := by
  refine ⟨sortNewestFirst_sorted _, sortNewestFirst_perm _,
    exportCsv form (sortNewestFirst (findResponses db formId)), headers form,
    rows form (sortNewestFirst (findResponses db formId)), ?_, parseCsv_exportCsv _ _, ?_,
    rows_eq_map _ _⟩
  · rw [getExport_found db userId formId form hform]
  · rw [List.length_cons, rows_eq_map, List.length_map, sortNewestFirst_length]

/-- A use of `export_rows` at the two responses of `twoResponsesDb`. -/
theorem export_rows_witness :
    (∃ text header data, getExport twoResponsesDb "u1" "f1" = .ok text ∧
      parseCsv text = some (header :: data) ∧
      (header :: data).length = (findResponses twoResponsesDb "f1").length + 1 ∧
      data = (sortNewestFirst (findResponses twoResponsesDb "f1")).map fun r =>
        r._id :: toISOString r.submittedAt :: ratingForm.questions.map fun q =>
          ((r.answers.find? fun a => a.questionId == q._id).map fun a => a.answer).getD "") ∧
    (sortNewestFirst (findResponses twoResponsesDb "f1")).map (fun r =>
        r._id :: toISOString r.submittedAt :: ratingForm.questions.map fun q =>
          ((r.answers.find? fun a => a.questionId == q._id).map fun a => a.answer).getD "") =
      [["r2000", "1970-01-01T00:00:02.000Z", "second", "Good", ""],
       ["r1000", "1970-01-01T00:00:01.000Z", "first", "Good", ""]] :=
  ⟨(export_rows twoResponsesDb "u1" "f1" ratingForm (by decide)).2.2, by decide⟩

theorem joinWith_cons_append (sep : Char) (x : List Char) (xs : List (List Char))
    (hxs : xs ≠ []) : joinWith sep (x :: xs) = x ++ sep :: joinWith sep xs := by
  cases xs with
  | nil => exact absurd rfl hxs
  | cons y ys => rfl

/-- C17: the first record of the exported text is the header, whose fields are
`Response ID`, `Submitted At` and the question texts in form order; it has
`2 + (number of questions)` fields, as has every data row; the text begins with the
header's fields, quoted and joined by commas, followed by a line break when there are
responses. -/
theorem export_header (form : Form) (responses : List Response) :
    headers form = "Response ID" :: "Submitted At" :: form.questions.map (fun q => q.question) ∧
    (headers form).length = 2 + form.questions.length ∧
    (∀ row ∈ rows form responses, row.length = 2 + form.questions.length) ∧
    (parseCsv (exportCsv form responses)).map List.head? = some (some (headers form)) ∧
    (parseCsv (exportCsv form responses)).map List.tail = some (rows form responses) ∧
    ∃ rest, (exportCsv form responses).data =
        joinWith ',' ((headers form).map fun field => quoteField field.data) ++ rest ∧
      (rest = [] ∨ ∃ rest', rest = '\n' :: rest') := by
  refine ⟨rfl, ?_, ?_, ?_, ?_, ?_⟩
  · simp only [headers, List.length_cons, List.length_map]; omega
  · intro row hrow
    simp only [rows, List.mem_map] at hrow
    obtain ⟨r, -, rfl⟩ := hrow
    simp only [List.cons_append, List.nil_append, List.length_cons, List.length_map]
    omega
  · rw [parseCsv_exportCsv]; rfl
  · rw [parseCsv_exportCsv]; rfl
  · unfold exportCsv csvContent
    simp only [List.map_cons]
    cases hr : rows form responses with
    | nil => exact ⟨[], by simp [joinWith_singleton], Or.inl rfl⟩
    | cons r rs =>
      refine ⟨'\n' :: joinWith '\n' ((r :: rs).map fun row =>
        joinWith ',' (row.map fun field => quoteField field.data)), ?_, Or.inr ⟨_, rfl⟩⟩
      rw [joinWith_cons_append _ _ _ (by simp)]

/-- A use of `export_header` at `ratingForm`. -/
theorem export_header_witness :
    (parseCsv (exportCsv ratingForm threeResponses)).map List.head? =
      some (some ["Response ID", "Submitted At", "Comments", "Rating", "Email"]) ∧
    (rows ratingForm threeResponses).map List.length = [5, 5, 5] :=
  ⟨(export_header ratingForm threeResponses).2.2.2.1, by decide⟩

theorem doubleQuotes_eq_flatMap (field : List Char) :
    doubleQuotes field = field.flatMap fun c => if c = '"' then ['"', '"'] else [c] := by
  induction field with
  | nil => rfl
  | cons c cs ih =>
    rw [doubleQuotes, List.flatMap_cons, ← ih]
    by_cases hc : c = '"' <;> simp [hc]

theorem joinWith_eq_intercalate (sep : Char) (l : List (List Char)) :
    joinWith sep l = List.intercalate [sep] l := by
  induction l with
  | nil => rfl
  | cons x xs ih =>
    cases xs with
    | nil => simp [joinWith_singleton, List.intercalate, List.intersperse]
    | cons y ys =>
      rw [joinWith_cons_cons, ih]
      simp [List.intercalate, List.intersperse]

theorem joinWith_getLast? (sep c : Char) (l : List (List Char)) (hne : l ≠ [])
    (hl : ∀ x ∈ l, x.getLast? = some c) : (joinWith sep l).getLast? = some c := by
  induction l with
  | nil => exact absurd rfl hne
  | cons x xs ih =>
    cases xs with
    | nil => rw [joinWith_singleton]; exact hl x (List.mem_cons_self _ _)
    | cons y ys =>
      have h := ih (by simp) (fun z hz => hl z (List.mem_cons_of_mem _ hz))
      have hne' : joinWith sep (y :: ys) ≠ [] := by
        intro h0
        rw [h0] at h
        simp at h
      rw [joinWith_cons_cons, List.getLast?_append_of_ne_nil _ (by simp)]
      obtain ⟨z, zs, hz⟩ := List.exists_cons_of_ne_nil hne'
      rw [hz, List.getLast?_cons_cons, ← hz]
      exact h

theorem quoteField_getLast? (field : List Char) : (quoteField field).getLast? = some '"' := by
  unfold quoteField
  rw [← List.cons_append, List.getLast?_concat]

/-- C18: the encoder writes a field as a double quote, the value with every double quote
replaced by two and every other character unchanged, and a closing double quote; the
fields of a row are joined by commas and the rows by one line break each, and the text of
an export ends with the closing quote of its last field, not with a line break. -/
theorem encoder_shape :
    (∀ field : List Char, quoteField field =
      '"' :: ((field.flatMap fun c => if c = '"' then ['"', '"'] else [c]) ++ ['"'])) ∧
    (∀ table : List (List String), (csvContent table).data =
      List.intercalate ['\n'] (table.map fun row =>
        List.intercalate [','] (row.map fun field => quoteField field.data))) ∧
    (∀ (form : Form) (responses : List Response),
      (exportCsv form responses).data.getLast? = some '"') := by
  refine ⟨?_, ?_, ?_⟩
  · intro field
    rw [quoteField, doubleQuotes_eq_flatMap]
  · intro table
    unfold csvContent
    simp only
    rw [joinWith_eq_intercalate]
    congr 1
    apply List.map_congr_left
    intro row _
    exact joinWith_eq_intercalate _ _
  · intro form responses
    unfold exportCsv csvContent
    simp only
    apply joinWith_getLast? _ _ _ (by simp)
    intro x hx
    rw [List.mem_map] at hx
    obtain ⟨row, hrow, rfl⟩ := hx
    have hne : row ≠ [] := by
      rcases List.mem_cons.1 hrow with h | h
      · rw [h]; exact headers_ne_nil form
      · exact rows_ne_nil form responses row h
    apply joinWith_getLast? _ _ _ (by simpa using hne)
    intro y hy
    rw [List.mem_map] at hy
    obtain ⟨f, -, rfl⟩ := hy
    exact quoteField_getLast? _

/-- A use of `encoder_shape`: the text of a table of two rows. -/
theorem encoder_shape_witness :
    (csvContent [["a", "b\"c"], ["d,e", "f\ng"]]).data =
      List.intercalate ['\n'] ([["a", "b\"c"], ["d,e", "f\ng"]].map fun row =>
        List.intercalate [','] (row.map fun field => quoteField field.data)) ∧
    csvContent [["a", "b\"c"], ["d,e", "f\ng"]] = "\"a\",\"b\"\"c\"\n\"d,e\",\"f\ng\"" :=
  ⟨encoder_shape.2.1 [["a", "b\"c"], ["d,e", "f\ng"]], by decide⟩

/-! ### C19: when a submission is rejected -/

theorem checkAnswers_some (form : Form) (answers : List Answer)
    (h : (∃ q ∈ form.questions, q.required = true ∧
        q._id ∉ answers.map fun a => a.questionId) ∨
      (∃ a ∈ answers, a.questionId ∉ form.questions.map fun q => q._id)) :
    ∃ msg, checkAnswers form answers = some msg := by
  unfold checkAnswers
  simp only
  split
  · exact ⟨_, rfl⟩
  · rename_i h1
    split
    · exact ⟨_, rfl⟩
    · rename_i h2
      exfalso
      rcases h with ⟨q, hq, hr, hn⟩ | ⟨a, ha, hn⟩
      · apply h1
        rw [List.any_eq_true]
        refine ⟨q._id, List.mem_map.2 ⟨q, List.mem_filter.2 ⟨hq, hr⟩, rfl⟩, ?_⟩
        simpa using hn
      · apply h2
        rw [List.any_eq_true]
        refine ⟨a, ha, ?_⟩
        simpa using hn

theorem submitTo_rejected (db : Db) (form : Form) (formId : String) (answers : List Answer)
    (env : RequestMeta)
    (h : (∃ q ∈ form.questions, q.required = true ∧
        q._id ∉ answers.map fun a => a.questionId) ∨
      (∃ a ∈ answers, a.questionId ∉ form.questions.map fun q => q._id)) :
    ∃ msg, submitTo db form formId answers env = (db, .error 400 msg) := by
  obtain ⟨msg, hmsg⟩ := checkAnswers_some form answers h
  exact ⟨msg, by simp only [submitTo, hmsg]⟩

theorem submitTo_accepted (db : Db) (form : Form) (formId : String) (answers : List Answer)
    (env : RequestMeta)
    (h : ¬ ((∃ q ∈ form.questions, q.required = true ∧
        q._id ∉ answers.map fun a => a.questionId) ∨
      (∃ a ∈ answers, a.questionId ∉ form.questions.map fun q => q._id))) :
    submitTo db form formId answers env =
      ({ db with responses := db.responses ++
          [{ _id := env.newId, formId := formId, answers := answers
             submittedAt := env.now, ipAddress := env.ip, userAgent := env.userAgent }] },
        .created env.newId) := by
  have hc : checkAnswers form answers = none := by
    apply checkAnswers_none
    · intro q hq hr
      by_contra hn
      exact h (Or.inl ⟨q, hq, hr, hn⟩)
    · intro a ha
      by_contra hn
      exact h (Or.inr ⟨a, ha, hn⟩)
  simp only [submitTo, hc]

/-- C19: for an active form and a submission whose answers list is non-empty with a
non-empty `questionId` and `answer` in every entry, either handler rejects the submission
with status 400, the stores unchanged, if and only if some required question has no entry
among the answers or some entry's `questionId` is not the identifier of a question of the
form; otherwise it appends exactly one response, holding the submitted answers and the
form's identifier, and answers 201. -/
theorem submission_rejected_iff (db : Db) (form : Form) (answers : List Answer)
    (env : RequestMeta) (hbody : bodyValid answers = true) :
    (∀ publicId,
      (db.forms.find? fun f => f.publicId == publicId && f.isActive) = some form →
      ((∃ msg, postPublic db publicId answers env = (db, .error 400 msg)) ↔
        ((∃ q ∈ form.questions, q.required = true ∧
            q._id ∉ answers.map fun a => a.questionId) ∨
          (∃ a ∈ answers, a.questionId ∉ form.questions.map fun q => q._id))) ∧
      (¬ ((∃ q ∈ form.questions, q.required = true ∧
            q._id ∉ answers.map fun a => a.questionId) ∨
          (∃ a ∈ answers, a.questionId ∉ form.questions.map fun q => q._id)) →
        postPublic db publicId answers env =
          ({ db with responses := db.responses ++
              [{ _id := env.newId, formId := form._id, answers := answers
                 submittedAt := env.now, ipAddress := env.ip, userAgent := env.userAgent }] },
            .created env.newId))) ∧
    (∀ formId, formId ≠ "" →
      (db.forms.find? fun f => f._id == formId && f.isActive) = some form →
      ((∃ msg, postResponse db formId answers env = (db, .error 400 msg)) ↔
        ((∃ q ∈ form.questions, q.required = true ∧
            q._id ∉ answers.map fun a => a.questionId) ∨
          (∃ a ∈ answers, a.questionId ∉ form.questions.map fun q => q._id))) ∧
      (¬ ((∃ q ∈ form.questions, q.required = true ∧
            q._id ∉ answers.map fun a => a.questionId) ∨
          (∃ a ∈ answers, a.questionId ∉ form.questions.map fun q => q._id)) →
        postResponse db formId answers env =
          ({ db with responses := db.responses ++
              [{ _id := env.newId, formId := form._id, answers := answers
                 submittedAt := env.now, ipAddress := env.ip, userAgent := env.userAgent }] },
            .created env.newId))) := by
  constructor
  · intro publicId hf
    have hpost : postPublic db publicId answers env = submitTo db form form._id answers env := by
      simp only [postPublic, hbody, hf, Bool.not_true, Bool.false_eq_true, if_false]
    rw [hpost]
    refine ⟨⟨?_, submitTo_rejected db form form._id answers env⟩,
      submitTo_accepted db form form._id answers env⟩
    rintro ⟨msg, hmsg⟩
    by_contra hn
    rw [submitTo_accepted db form form._id answers env hn] at hmsg
    simp at hmsg
  · intro formId hne hf
    have hid : form._id = formId := by
      have := List.find?_some (p := fun (f : Form) => f._id == formId && f.isActive) hf
      simp only [Bool.and_eq_true, beq_iff_eq] at this
      exact this.1
    have hne' : (formId != "") = true := by simpa using hne
    have hcast := castsToObjectId_of_mem db formId form (List.mem_of_find?_eq_some hf) hid
    have hpost : postResponse db formId answers env = submitTo db form form._id answers env := by
      simp only [postResponse, hbody, hne', hcast, hf, Bool.and_self, Bool.not_true,
        Bool.false_eq_true, if_false, hid]
    rw [hpost]
    refine ⟨⟨?_, submitTo_rejected db form form._id answers env⟩,
      submitTo_accepted db form form._id answers env⟩
    rintro ⟨msg, hmsg⟩
    by_contra hn
    rw [submitTo_accepted db form form._id answers env hn] at hmsg
    simp at hmsg

/-- A use of `submission_rejected_iff`: an answer to the comments question alone leaves
the required rating question unanswered. -/
theorem submission_rejected_iff_witness :
    ((∃ msg, postPublic ⟨[ratingForm], []⟩ "p1" [{ questionId := "q1", answer := "Nice" }]
        sampleMeta = (⟨[ratingForm], []⟩, .error 400 msg)) ↔
      ((∃ q ∈ ratingForm.questions, q.required = true ∧
          q._id ∉ [({ questionId := "q1", answer := "Nice" } : Answer)].map
            fun a => a.questionId) ∨
        (∃ a ∈ [({ questionId := "q1", answer := "Nice" } : Answer)],
          a.questionId ∉ ratingForm.questions.map fun q => q._id))) ∧
    postPublic ⟨[ratingForm], []⟩ "p1" [{ questionId := "q1", answer := "Nice" }] sampleMeta =
      (⟨[ratingForm], []⟩, .error 400 "All required questions must be answered") :=
  ⟨((submission_rejected_iff ⟨[ratingForm], []⟩ ratingForm
      [{ questionId := "q1", answer := "Nice" }] sampleMeta (by decide)).1 "p1"
      (by decide)).1, by decide⟩

/-! ### Create and update of forms -/

theorem castQuestions_length (fresh : Nat → String) (i : Nat) (qs : List QuestionBody) :
    (castQuestions fresh i qs).length = qs.length := by
  induction qs generalizing i with
  | nil => rfl
  | cons q qs ih => simp [castQuestions, ih]

theorem castQuestions_mem (fresh : Nat → String) (i : Nat) (qs : List QuestionBody)
    (q' : Question) (h : q' ∈ castQuestions fresh i qs) :
    ∃ q ∈ qs, q'.type = q.type ∧ q'.options = castOptions q.options ∧
      q'.question = jsTrim q.question := by
  induction qs generalizing i with
  | nil => simp [castQuestions] at h
  | cons q qs ih =>
    rw [castQuestions, List.mem_cons] at h
    rcases h with h | h
    · exact ⟨q, List.mem_cons_self _ _, by rw [h], by rw [h], by rw [h]⟩
    · obtain ⟨q0, hq0, h1⟩ := ih (i + 1) h
      exact ⟨q0, List.mem_cons_of_mem _ hq0, h1⟩

/-- A question list whose `options` are arrays and which passes the validators and the
options check is cast to a list within the bounds. -/
theorem questionsValid_cast (fresh : Nat → String) (qs : List QuestionBody)
    (harr : optionsAreArrays qs)
    (hv : questionsFieldValid qs = true) (hl : lacksOptions qs = false) :
    questionsValid (castQuestions fresh 0 qs) := by
  unfold questionsFieldValid at hv
  simp only [Bool.and_eq_true, decide_eq_true_eq] at hv
  refine ⟨by rw [castQuestions_length]; exact hv.1.1, by rw [castQuestions_length]; exact hv.1.2,
    ?_⟩
  intro q' hq' hmc
  obtain ⟨q, hq, ht, ho, -⟩ := castQuestions_mem fresh 0 qs q' hq'
  unfold lacksOptions at hl
  rw [List.any_eq_false] at hl
  have hq1 := hl q hq
  rw [ht] at hmc
  rw [ho]
  cases hopt : q.options with
  | absent => simp [hmc, hopt] at hq1
  | array o =>
    simp only [hmc, hopt, beq_self_eq_true, Bool.true_and, decide_eq_true_eq, not_lt] at hq1
    simpa [castOptions] using hq1
  | text value => exact absurd hopt (harr q hq value)

/-- A question list whose `options` are arrays and which breaks a bound fails the
validators or the options check. -/
theorem checks_of_violatesBounds (qs : List QuestionBody) (harr : optionsAreArrays qs)
    (h : violatesBounds qs) :
    questionsFieldValid qs = false ∨ lacksOptions qs = true := by
  rcases h with h | h | ⟨q, hq, hmc, ho⟩
  · left
    unfold questionsFieldValid
    have : decide (3 ≤ qs.length) = false := by simpa using h
    simp [this]
  · left
    unfold questionsFieldValid
    have : decide (qs.length ≤ 5) = false := by simpa using h
    simp [this]
  · right
    unfold lacksOptions
    rw [List.any_eq_true]
    refine ⟨q, hq, ?_⟩
    cases hopt : q.options with
    | absent => simp [hmc]
    | array o =>
      rw [hopt] at ho
      simpa [hmc, castOptions] using ho
    | text value => exact absurd hopt (harr q hq value)

/-- A create that answers 201 has appended the form, whose questions are the cast of a
request list that passed the validators and the options check. -/
theorem createForm_created (db : Db) (userId : String) (body : FormBody) (env : FormMeta)
    (form : Form) (h : (createForm db userId body env).2 = .created form) :
    (createForm db userId body env).1 = { db with forms := db.forms ++ [form] } ∧
      ∃ qs, body.questions = some qs ∧ questionsFieldValid qs = true ∧
        lacksOptions qs = false ∧ form.questions = castQuestions env.questionId 0 qs := by
  unfold createForm at h ⊢
  cases ht : body.title with
  | none => simp [ht] at h
  | some title =>
    cases hq : body.questions with
    | none => simp [ht, hq] at h
    | some qs =>
      simp only [ht, hq] at h ⊢
      split at h
      · simp at h
      · rename_i hval
        split at h
        · simp at h
        · rename_i hlack
          split at h
          · simp at h
          · rename_i hschema
            simp only [FormReply.created.injEq] at h
            rw [if_neg hval, if_neg hlack, if_neg hschema]
            subst h
            refine ⟨rfl, qs, rfl, ?_, ?_, rfl⟩
            · simp only [Bool.not_eq_true', Bool.and_eq_false_iff, not_or] at hval
              simpa using hval.2
            · simpa using hlack

theorem createForm_not_created (db : Db) (userId : String) (body : FormBody)
    (env : FormMeta) (h : ∀ form, (createForm db userId body env).2 ≠ .created form) :
    (createForm db userId body env).1 = db := by
  unfold createForm at h ⊢
  cases ht : body.title with
  | none => simp
  | some title =>
    cases hq : body.questions with
    | none => simp
    | some qs =>
      simp only [ht, hq] at h ⊢
      split
      · rfl
      · split
        · rfl
        · split
          · rfl
          · rename_i h1 h2 h3
            exfalso
            rw [if_neg h1, if_neg h2, if_neg h3] at h
            exact h _ rfl

/-- The outcomes of an update: the store unchanged with a refusal, or the found form
replaced by one whose questions are the cast request list, or the stored list. -/
theorem updateForm_cases (db : Db) (userId id : String) (body : FormBody) (env : FormMeta) :
    ((updateForm db userId id body env).1 = db ∧
      ((updateForm db userId id body env).2 = .fieldErrors ∨
        ∃ status msg, (updateForm db userId id body env).2 = .error status msg)) ∨
    ∃ form form4, findOwnedForm db id userId = some form ∧
      updateForm db userId id body env =
        ({ db with forms := db.forms.map fun f => if f._id == form._id then form4 else f },
          .ok form4) ∧
      ((∃ qs, body.questions = some qs ∧ questionsFieldValid qs = true ∧
          lacksOptions qs = false ∧ form4.questions = castQuestions env.questionId 0 qs) ∨
        (body.questions = none ∧ form4.questions = form.questions)) := by
  unfold updateForm
  split
  · exact Or.inl ⟨rfl, Or.inl rfl⟩
  · rename_i hval
    simp only [Bool.not_eq_true', Bool.and_eq_false_iff, not_or, Bool.not_eq_false] at hval
    split
    · exact Or.inl ⟨rfl, Or.inr ⟨_, _, rfl⟩⟩
    · cases hf : findOwnedForm db id userId with
      | none => exact Or.inl ⟨rfl, Or.inr ⟨_, _, rfl⟩⟩
      | some form =>
        cases hq : body.questions with
        | none =>
          simp only
          refine Or.inr ⟨form, _, rfl, rfl, Or.inr ⟨trivial, ?_⟩⟩
          cases body.isActive <;> cases body.description <;> cases body.title <;>
            simp only <;> split <;> rfl
        | some qs =>
          simp only
          have hv : questionsFieldValid qs = true := by
            have := hval.2
            rw [hq] at this
            exact this
          split
          · exact Or.inl ⟨rfl, Or.inr ⟨_, _, rfl⟩⟩
          · rename_i hlack
            split
            · exact Or.inl ⟨rfl, Or.inr ⟨_, _, rfl⟩⟩
            · refine Or.inr ⟨form, _, rfl, rfl, Or.inl ⟨qs, rfl, hv, by simpa using hlack, ?_⟩⟩
              cases body.isActive <;> rfl

/-- A create whose question list has arrays for `options` keeps the bounds of the forms
in the store. -/
theorem createForm_preserves (db : Db) (userId : String) (body : FormBody) (env : FormMeta)
    (harr : ∀ qs, body.questions = some qs → optionsAreArrays qs)
    (hdb : FormsValid db) : FormsValid (createForm db userId body env).1 := by
  by_cases h : ∃ form, (createForm db userId body env).2 = .created form
  · obtain ⟨form, hform⟩ := h
    obtain ⟨h1, qs, hqs, hv, hl, h2⟩ := createForm_created db userId body env form hform
    rw [h1]
    intro f hf
    rcases List.mem_append.1 hf with hf | hf
    · exact hdb f hf
    · rw [List.mem_singleton] at hf
      rw [hf, h2]; exact questionsValid_cast _ qs (harr qs hqs) hv hl
  · rw [createForm_not_created db userId body env (fun form hform => h ⟨form, hform⟩)]
    exact hdb

/-- An update whose question list, if it has one, has arrays for `options` keeps the
bounds of the forms in the store. -/
theorem updateForm_preserves (db : Db) (userId id : String) (body : FormBody)
    (env : FormMeta) (harr : ∀ qs, body.questions = some qs → optionsAreArrays qs)
    (hdb : FormsValid db) : FormsValid (updateForm db userId id body env).1 := by
  rcases updateForm_cases db userId id body env with ⟨h, -⟩ | ⟨form, form4, hf, hu, hq⟩
  · rw [h]; exact hdb
  · rw [hu]
    have hform : form ∈ db.forms := List.mem_of_find?_eq_some hf
    have h4 : questionsValid form4.questions := by
      rcases hq with ⟨qs, hqs, hv, hl, h4⟩ | ⟨-, h4⟩
      · rw [h4]; exact questionsValid_cast _ qs (harr qs hqs) hv hl
      · rw [h4]; exact hdb form hform
    intro f hf'
    simp only [List.mem_map] at hf'
    obtain ⟨f0, hf0, rfl⟩ := hf'
    split
    · exact h4
    · exact hdb f0 hf0

/-- What the checks achieve for request bodies whose `options` are arrays: the form a
successful create stores, and the form a successful update with a question list stores,
have 3 to 5 questions and at least 2 options on every multiple-choice question; a create
without a question list or with one that breaks a bound, and an update with one that
breaks a bound, are refused and leave the store as it was. -/
theorem array_options_keep_question_bounds :
    (∀ db userId body env form,
      (∀ qs, body.questions = some qs → optionsAreArrays qs) →
      (createForm db userId body env).2 = .created form →
      (createForm db userId body env).1 = { db with forms := db.forms ++ [form] } ∧
        questionsValid form.questions) ∧
    (∀ db userId id body env form qs, body.questions = some qs → optionsAreArrays qs →
      (updateForm db userId id body env).2 = .ok form →
        form ∈ (updateForm db userId id body env).1.forms ∧ questionsValid form.questions) ∧
    (∀ db userId body env,
      (body.questions = none ∨
        ∃ qs, body.questions = some qs ∧ optionsAreArrays qs ∧ violatesBounds qs) →
      createForm db userId body env = (db, .fieldErrors) ∨
        createForm db userId body env =
          (db, .error 400 "Multiple-choice questions must have at least 2 options")) ∧
    (∀ db userId id body env qs, body.questions = some qs → optionsAreArrays qs →
      violatesBounds qs →
      (updateForm db userId id body env).1 = db ∧
        ((updateForm db userId id body env).2 = .fieldErrors ∨
          ∃ status msg, (updateForm db userId id body env).2 = .error status msg)) := by
  refine ⟨?_, ?_, ?_, ?_⟩
  · intro db userId body env form harr hcreated
    obtain ⟨h1, qs, hqs, hv, hl, h2⟩ := createForm_created db userId body env form hcreated
    exact ⟨h1, by rw [h2]; exact questionsValid_cast _ qs (harr qs hqs) hv hl⟩
  · intro db userId id body env form qs hqs harr hok
    rcases updateForm_cases db userId id body env with ⟨-, h | ⟨st, msg, h⟩⟩ |
      ⟨form0, form4, hf, hu, hq⟩
    · rw [h] at hok; simp at hok
    · rw [h] at hok; simp at hok
    · rw [hu] at hok ⊢
      simp only [FormReply.ok.injEq] at hok
      subst hok
      refine ⟨?_, ?_⟩
      · simp only [List.mem_map]
        exact ⟨form0, List.mem_of_find?_eq_some hf, by simp⟩
      · rcases hq with ⟨qs', hqs', hv, hl, h4⟩ | ⟨hn, -⟩
        · rw [hqs] at hqs'
          simp only [Option.some.injEq] at hqs'
          subst hqs'
          rw [h4]; exact questionsValid_cast _ qs harr hv hl
        · rw [hn] at hqs; simp at hqs
  · intro db userId body env h
    unfold createForm
    cases ht : body.title with
    | none => exact Or.inl rfl
    | some title =>
      rcases h with h | ⟨qs, hqs, harr, hv⟩
      · rw [h]; exact Or.inl rfl
      · rw [hqs]
        simp only
        rcases checks_of_violatesBounds qs harr hv with h1 | h1
        · left
          rw [if_pos (by simp [h1])]
        · by_cases h0 : (!(title != "" && questionsFieldValid qs)) = true
          · left; rw [if_pos h0]
          · right; rw [if_neg h0, if_pos h1]
  · intro db userId id body env qs hqs harr hv
    rcases updateForm_cases db userId id body env with h | ⟨form0, form4, hf, hu, hq⟩
    · exact h
    · exfalso
      rcases hq with ⟨qs', hq', hv', hl', -⟩ | ⟨hn, -⟩
      · rw [hqs] at hq'
        simp only [Option.some.injEq] at hq'
        subst hq'
        rcases checks_of_violatesBounds qs harr hv with h1 | h1
        · rw [h1] at hv'; simp at hv'
        · rw [h1] at hl'; simp at hl'
      · rw [hn] at hqs; simp at hqs

/-- A use of `array_options_keep_question_bounds`: the sample create request, whose
options are an array, stores a form within the bounds. -/
theorem array_options_keep_question_bounds_at_sample :
    createForm { forms := [], responses := [] } "u1" sampleFormBody sampleFormMeta =
      ({ forms := [sampleStoredForm], responses := [] }, .created sampleStoredForm) ∧
    questionsValid sampleStoredForm.questions :=
  ⟨by decide,
    (array_options_keep_question_bounds.1 { forms := [], responses := [] } "u1" sampleFormBody
      sampleFormMeta sampleStoredForm
      (by
        intro qs hqs q hq value
        simp only [sampleFormBody, Option.some.injEq] at hqs
        subst hqs
        simp only [List.mem_cons, List.mem_singleton, List.not_mem_nil, or_false] at hq
        rcases hq with rfl | rfl | rfl <;> simp)
      (by decide)).2⟩

/-! ### C20: the bounds on a form's questions -/

/-- C20, at a create request whose multiple-choice question carries the string `ab` where
the array of options is expected: the string has length 2, so the options check lets the
request through; the schema wraps the string into an array, and the request is answered
201 with a stored form whose multiple-choice question has the single option `ab`. The
store is one that create requests build from the empty store, and the bound of at least
2 options does not hold in it. -/
theorem string_options_stored_as_one_option :
    lacksOptions (stringOptionsBody.questions.getD []) = false ∧
    createForm { forms := [], responses := [] } "u1" stringOptionsBody sampleFormMeta =
      ({ forms := [stringOptionsForm], responses := [] }, .created stringOptionsForm) ∧
    (stringOptionsForm.questions.map fun q => (q.type, q.options.length)) =
      [("text", 0), ("multiple-choice", 1), ("text", 0)] ∧
    ¬ questionsValid stringOptionsForm.questions ∧
    Reachable { forms := [stringOptionsForm], responses := [] } ∧
    ¬ FormsValid { forms := [stringOptionsForm], responses := [] } := by
  have hcreate : createForm { forms := [], responses := [] } "u1" stringOptionsBody
      sampleFormMeta =
      ({ forms := [stringOptionsForm], responses := [] }, .created stringOptionsForm) := by
    decide
  have hbound : ¬ questionsValid stringOptionsForm.questions := by
    intro h
    have h2 := h.2.2 { _id := "q1", type := "multiple-choice", question := "Dish"
                       options := ["ab"], required := true } (by simp [stringOptionsForm]) rfl
    simp at h2
  refine ⟨by decide, hcreate, by decide, hbound, ?_, ?_⟩
  · have h := Reachable.step { forms := [], responses := [] }
      (.create "u1" stringOptionsBody sampleFormMeta) Reachable.empty
    rw [applyRequest, hcreate] at h
    exact h
  · intro h
    exact hbound (h stringOptionsForm (by simp))

/-! ### C24: one summary per question -/

/-- C24: `questionSummaries` has exactly one entry per form question, in the form's
question order, and the i-th entry carries the identifier, the question text and the type
of the i-th question. -/
theorem summaries_follow_questions (form : Form) (responses : List Response) :
    (computeSummary form responses).questionSummaries.length = form.questions.length ∧
    (computeSummary form responses).questionSummaries.map
        (fun s => (s.questionId, s.question, s.type)) =
      form.questions.map fun q => (q._id, q.question, q.type) := by
  refine ⟨by simp [computeSummary], ?_⟩
  simp only [computeSummary, List.map_map]
  apply List.map_congr_left
  intro q _
  simp only [Function.comp_apply, summarizeQuestion]
  split <;> rfl

/-! ### The computations on documents -/

theorem findAnswer_toDoc (questionId : String) (answers : List Answer) :
    findAnswer questionId (answers.map Answer.toDoc) =
      .ok (answers.find? fun a => a.questionId == questionId) := by
  induction answers with
  | nil => rfl
  | cons a rest ih =>
    rw [List.map_cons, List.find?_cons]
    show (match (Answer.toDoc a).questionId with
      | none => Except.error JsError.typeError
      | some id =>
        if id == questionId then
          Except.ok (some ({ questionId := id, answer := (Answer.toDoc a).answer } : Answer))
        else findAnswer questionId (rest.map Answer.toDoc)) = _
    simp only [Answer.toDoc]
    cases h : a.questionId == questionId
    · simp only [Bool.false_eq_true, if_false, ih]
    · simp only [if_true]

theorem collectAnswers_toDoc (question : Question) (responses : List Response) :
    collectAnswers question._id (responses.map Response.toDoc) =
      .ok (questionResponses responses question) := by
  induction responses with
  | nil => rfl
  | cons r rest ih =>
    rw [List.map_cons, collectAnswers]
    simp only [Response.toDoc, findAnswer_toDoc, ih, questionResponses_cons]

theorem summarizeQuestionDoc_toDoc (question : Question) (responses : List Response) :
    summarizeQuestionDoc (responses.map Response.toDoc) question =
      .ok (summarizeQuestion responses question) := by
  unfold summarizeQuestionDoc summarizeQuestion
  rw [collectAnswers_toDoc]
  simp only [List.length_map]
  split <;> rfl

theorem summarizeQuestionsDoc_toDoc (questions : List Question) (responses : List Response) :
    summarizeQuestionsDoc (responses.map Response.toDoc) questions =
      .ok (questions.map (summarizeQuestion responses)) := by
  induction questions with
  | nil => rfl
  | cons q rest ih =>
    rw [summarizeQuestionsDoc, summarizeQuestionDoc_toDoc, ih]
    rfl

theorem summaryDoc_toDoc (form : Form) (responses : List Response) :
    summaryDoc form.toDoc (responses.map Response.toDoc) = .ok (computeSummary form responses) := by
  unfold summaryDoc computeSummary
  simp only [Form.toDoc, summarizeQuestionsDoc_toDoc, List.length_map]
  congr 3
  · split
    · rw [List.get?_eq_getElem?, List.get?_eq_getElem?, List.getElem?_map]
      cases responses[responses.length - 1]? <;> rfl
    · rfl
  · split
    · rw [List.get?_eq_getElem?, List.get?_eq_getElem?, List.getElem?_map]
      cases responses[0]? <;> rfl
    · rfl

theorem answerCells_toDoc (answers : List Answer) (questions : List Question) :
    answerCells (answers.map Answer.toDoc) questions =
      .ok (questions.map fun question =>
        match answers.find? fun a => a.questionId == question._id with
        | some answer => answer.answer
        | none => "") := by
  induction questions with
  | nil => rfl
  | cons q rest ih =>
    rw [answerCells, findAnswer_toDoc, ih]
    rfl

theorem rowsDoc_toDoc (form : Form) (responses : List Response) :
    rowsDoc form.questions (responses.map Response.toDoc) = .ok (rows form responses) := by
  induction responses with
  | nil => rfl
  | cons r rest ih =>
    rw [List.map_cons, rowsDoc, ih]
    simp only [rowDoc, Response.toDoc, DateField.toISOString, answerCells_toDoc]
    rfl

theorem exportDoc_toDoc (form : Form) (responses : List Response) :
    exportDoc form.toDoc (responses.map Response.toDoc) = .ok (exportCsv form responses) := by
  unfold exportDoc
  simp only [Form.toDoc, rowsDoc_toDoc]
  rfl

/-- A well-formed input is the document form of a typed form and typed responses. -/
theorem wellFormedInput_toDoc (form : FormDoc) (responses : List ResponseDoc)
    (h : wellFormedInput form responses = true) :
    ∃ (typed : Form) (typedResponses : List Response),
      form = typed.toDoc ∧ responses = typedResponses.map Response.toDoc := by
  unfold wellFormedInput at h
  rw [Bool.and_eq_true, List.all_eq_true] at h
  obtain ⟨hq, hr⟩ := h
  obtain ⟨qs, hqs⟩ := Option.isSome_iff_exists.1 hq
  refine ⟨{ _id := form._id, title := form.title, description := form.description
            questions := qs, createdBy := "", isActive := true, publicId := "" },
    responses.map (fun r =>
      { _id := r._id, formId := ""
        answers := r.answers.map fun a => { questionId := a.questionId.getD "", answer := a.answer }
        submittedAt := match r.submittedAt with
          | .time ms => ms
          | _ => 0
        ipAddress := "", userAgent := "" }), ?_, ?_⟩
  · cases form
    simp only [Form.toDoc] at hqs ⊢
    rw [hqs]
  · rw [List.map_map]
    symm
    conv_rhs => rw [← List.map_id responses]
    apply List.map_congr_left
    intro r hmem
    have hwf := hr r hmem
    unfold ResponseDoc.wellFormed at hwf
    rw [Bool.and_eq_true, List.all_eq_true] at hwf
    obtain ⟨hd, ha⟩ := hwf
    cases r with
    | mk id answers submittedAt =>
      simp only [Function.comp_apply, Response.toDoc, id_eq, ResponseDoc.mk.injEq, true_and,
        List.map_map]
      constructor
      · conv_rhs => rw [← List.map_id answers]
        apply List.map_congr_left
        intro a hamem
        have := ha a hamem
        obtain ⟨qid, hqid⟩ := Option.isSome_iff_exists.1 this
        cases a
        simp only [Function.comp_apply, Answer.toDoc, id_eq, AnswerDoc.mk.injEq, and_true] at hqid ⊢
        rw [hqid]
        rfl
      · cases submittedAt <;> simp at hd ⊢

/-! ### C25: the two computations on well-formed input -/

/-- C25: for every well-formed input, that is a form document with a question list and
response documents each having a submission timestamp and answers each having a question
reference, the summary computation and the export computation throw no error and return a
whole result: the summary of the form and the responses that the documents hold, with the
number of responses as its total and one entry per question, and the export text, which
reads back as the header and one record per response. -/
theorem engine_completes_on_well_formed (form : FormDoc) (responses : List ResponseDoc)
    (h : wellFormedInput form responses = true) :
    ∃ (typed : Form) (typedResponses : List Response),
      form = typed.toDoc ∧ responses = typedResponses.map Response.toDoc ∧
      summaryDoc form responses = .ok (computeSummary typed typedResponses) ∧
      (computeSummary typed typedResponses).totalResponses = responses.length ∧
      (computeSummary typed typedResponses).questionSummaries.length =
        typed.questions.length ∧
      exportDoc form responses = .ok (exportCsv typed typedResponses) ∧
      parseCsv (exportCsv typed typedResponses) =
        some (headers typed :: rows typed typedResponses) ∧
      (rows typed typedResponses).length = responses.length := by
  obtain ⟨typed, typedResponses, hf, hr⟩ := wellFormedInput_toDoc form responses h
  refine ⟨typed, typedResponses, hf, hr, ?_, ?_, ?_, ?_, parseCsv_exportCsv _ _, ?_⟩
  · rw [hf, hr]; exact summaryDoc_toDoc typed typedResponses
  · rw [hr, List.length_map]; rfl
  · simp [computeSummary]
  · rw [hf, hr]; exact exportDoc_toDoc typed typedResponses
  · rw [hr, rows_eq_map, List.length_map, List.length_map]

/-- A use of `engine_completes_on_well_formed` at the documents of `ratingForm` and of
the two responses of `twoResponsesDb`. -/
theorem engine_completes_on_well_formed_witness :
    ∃ (typed : Form) (typedResponses : List Response),
      ratingForm.toDoc = typed.toDoc ∧
      twoResponsesDb.responses.map Response.toDoc = typedResponses.map Response.toDoc ∧
      summaryDoc ratingForm.toDoc (twoResponsesDb.responses.map Response.toDoc) =
        .ok (computeSummary typed typedResponses) ∧
      (computeSummary typed typedResponses).totalResponses =
        (twoResponsesDb.responses.map Response.toDoc).length ∧
      (computeSummary typed typedResponses).questionSummaries.length =
        typed.questions.length ∧
      exportDoc ratingForm.toDoc (twoResponsesDb.responses.map Response.toDoc) =
        .ok (exportCsv typed typedResponses) ∧
      parseCsv (exportCsv typed typedResponses) =
        some (headers typed :: rows typed typedResponses) ∧
      (rows typed typedResponses).length =
        (twoResponsesDb.responses.map Response.toDoc).length :=
  engine_completes_on_well_formed ratingForm.toDoc
    (twoResponsesDb.responses.map Response.toDoc) (by decide)

/-- On documents that are not well-formed the two computations do throw: on an answer
without a question reference, on a response without a timestamp or with an invalid one,
and on a form without a question list. -/
theorem engine_throws_on_broken_documents :
    wellFormedInput ratingForm.toDoc brokenResponseDocs = false ∧
    summaryDoc ratingForm.toDoc brokenResponseDocs = .error .typeError ∧
    exportDoc ratingForm.toDoc brokenResponseDocs = .error .typeError ∧
    exportDoc ratingForm.toDoc [{ _id := "r3", answers := [], submittedAt := .invalid }] =
      .error .rangeError ∧
    (∃ s, summaryDoc ratingForm.toDoc [{ _id := "r3", answers := [], submittedAt := .invalid }] =
      .ok s) ∧
    summaryDoc { _id := "f1", title := "Rating", description := none, questions := none } [] =
      .error .typeError ∧
    exportDoc { _id := "f1", title := "Rating", description := none, questions := none } [] =
      .error .typeError :=
  ⟨rfl, rfl, rfl, rfl, ⟨_, rfl⟩, rfl, rfl⟩

/-! ### C26: at most one answer per response -/

theorem find?_eq_head?_filter {α : Type} (p : α → Bool) (l : List α) :
    l.find? p = (l.filter p).head? := by
  induction l with
  | nil => rfl
  | cons a l ih =>
    rw [List.find?_cons, List.filter_cons]
    cases h : p a with
    | true => rfl
    | false => exact ih

/-- C26: each response contributes to a question's summary at most one answer, the first
of its answers that refer to the question, so `totalResponses` of the question never
exceeds the number of responses, and the number written in `responseRate` lies between 0
and 100 (it is `t / 10` for a whole number `t ≤ 1000`, or `0` when there are no
responses). -/
theorem one_answer_per_response (responses : List Response) (q : Question)
    (hlen : responses.length < 2 ^ 32) :
    questionResponses responses q = responses.filterMap
        (fun r => (r.answers.filter fun a => a.questionId == q._id).head?) ∧
    (summarizeQuestion responses q).totalResponses ≤ responses.length ∧
    ((responses = [] ∧ (summarizeQuestion responses q).responseRate = "0") ∨
      ∃ t, t ≤ 1000 ∧ (summarizeQuestion responses q).responseRate = decimalString t) := by
  refine ⟨?_, ?_, ?_⟩
  · rw [questionResponses_eq_filterMap]
    congr 1
    funext r
    exact find?_eq_head?_filter _ _
  · rw [summarizeQuestion_totalResponses, questionResponses_length]
    exact List.countP_le_length _
  · rw [summarizeQuestion_responseRate]
    cases hr : responses with
    | nil => exact Or.inl ⟨rfl, rfl⟩
    | cons r rs =>
      right
      rw [← hr]
      have hn : 0 < responses.length := by rw [hr]; simp
      have hk : (questionResponses responses q).length ≤ responses.length := by
        rw [questionResponses_length]; exact List.countP_le_length _
      obtain ⟨t, ht, h1, -, -⟩ := responseRate_spec _ _ hn hlen hk
      refine ⟨t, ?_, ht⟩
      generalize (questionResponses responses q).length = k at *
      generalize responses.length = n at *
      by_contra hcon
      have h1001 : 1001 ≤ t := by omega
      have := Nat.mul_le_mul_left (2 * n) h1001
      omega

/-- A use of `one_answer_per_response`: a response holding two answers to one question
counts once, with the first of them. -/
theorem one_answer_per_response_witness :
    questionResponses
        [{ _id := "r1", formId := "f1"
           answers := [{ questionId := "q1", answer := "first" },
                       { questionId := "q1", answer := "second" }]
           submittedAt := 1, ipAddress := "", userAgent := "" }]
        { _id := "q1", type := "text", question := "Comments", options := []
          required := false } =
      [{ questionId := "q1", answer := "first" }] ∧
    (summarizeQuestion
        [{ _id := "r1", formId := "f1"
           answers := [{ questionId := "q1", answer := "first" },
                       { questionId := "q1", answer := "second" }]
           submittedAt := 1, ipAddress := "", userAgent := "" }]
        { _id := "q1", type := "text", question := "Comments", options := []
          required := false }).totalResponses ≤ 1 :=
  ⟨by decide,
    (one_answer_per_response
      [{ _id := "r1", formId := "f1"
         answers := [{ questionId := "q1", answer := "first" },
                     { questionId := "q1", answer := "second" }]
         submittedAt := 1, ipAddress := "", userAgent := "" }]
      { _id := "q1", type := "text", question := "Comments", options := [], required := false }
      (by decide)).2.1⟩

/-! ### C30: the file name of the export -/

theorem sum_utf16_replicate (n : Nat) :
    ((List.replicate n '-').map fun c => c.utf16Size.toNat).sum = n := by
  induction n with
  | zero => rfl
  | succ n ih =>
    rw [List.replicate_succ, List.map_cons, List.sum_cons, ih]
    have : ('-' : Char).utf16Size.toNat = 1 := by decide
    omega

theorem sanitize_length (cs : List Char) :
    ((cs.flatMap fun c =>
        if isAsciiAlnum c then [c] else List.replicate c.utf16Size.toNat '-').map
        fun c => c.utf16Size.toNat).sum =
      (cs.map fun c => c.utf16Size.toNat).sum := by
  induction cs with
  | nil => rfl
  | cons c cs ih =>
    rw [List.flatMap_cons, List.map_append, List.sum_append, ih, List.map_cons, List.sum_cons]
    congr 1
    by_cases h : isAsciiAlnum c = true
    · rw [if_pos h]; simp
    · rw [if_neg h, sum_utf16_replicate]

theorem sanitize_mem (cs : List Char) (c : Char)
    (h : c ∈ cs.flatMap fun c =>
      if isAsciiAlnum c then [c] else List.replicate c.utf16Size.toNat '-') :
    isAsciiAlnum c = true ∨ c = '-' := by
  rw [List.mem_flatMap] at h
  obtain ⟨d, -, hd⟩ := h
  by_cases hd' : isAsciiAlnum d = true
  · rw [if_pos hd', List.mem_singleton] at hd
    left; rw [hd]; exact hd'
  · rw [if_neg hd'] at hd
    right; exact (List.mem_replicate.1 hd).2

/-- C30: the file name in the `Content-Disposition` header is `form-responses-`, the
title with every character outside `a-z`, `A-Z`, `0-9` replaced by `-`, and `.csv`; the
sanitised part has the length of the title and holds only ASCII letters, digits and `-`,
hence no double quote and no line break. -/
theorem export_file_name (title : String) :
    contentDisposition title =
      "attachment; filename=\"" ++ ("form-responses-" ++ sanitizeTitle title ++ ".csv") ++
        "\"" ∧
    jsLength (sanitizeTitle title) = jsLength title ∧
    (∀ c ∈ (sanitizeTitle title).data, isAsciiAlnum c = true ∨ c = '-') ∧
    (∀ c ∈ (sanitizeTitle title).data, c ≠ '"' ∧ c ≠ '\n' ∧ c ≠ '\r') ∧
    ((∀ c ∈ title.data, c.utf16Size = 1) →
      (sanitizeTitle title).data = title.data.map fun c => if isAsciiAlnum c then c else '-') := by
  refine ⟨rfl, sanitize_length title.data, fun c hc => sanitize_mem title.data c hc, ?_, ?_⟩
  · intro c hc
    rcases sanitize_mem title.data c hc with h | h
    · refine ⟨?_, ?_, ?_⟩ <;> (intro h0; rw [h0] at h; revert h; decide)
    · rw [h]; decide
  · intro hbmp
    unfold sanitizeTitle
    simp only
    generalize title.data = cs at *
    induction cs with
    | nil => rfl
    | cons c cs ih =>
      rw [List.flatMap_cons, List.map_cons, ih (fun d hd => hbmp d (List.mem_cons_of_mem _ hd))]
      have h1 : c.utf16Size.toNat = 1 := by
        rw [hbmp c (List.mem_cons_self _ _)]; rfl
      by_cases h : isAsciiAlnum c = true
      · rw [if_pos h, if_pos h]; rfl
      · rw [if_neg h, if_neg h, h1]; rfl

/-- A use of `export_file_name`: a title with a space, a colon and a double quote. -/
theorem export_file_name_witness :
    contentDisposition "Q3: \"plans\"" =
      "attachment; filename=\"form-responses-Q3---plans-.csv\"" ∧
    (sanitizeTitle "Q3: \"plans\"").data =
      "Q3: \"plans\"".data.map fun c => if isAsciiAlnum c then c else '-' :=
  ⟨by decide, (export_file_name "Q3: \"plans\"").2.2.2.2 (by decide)⟩

/-! ### C23: deleting a form -/

theorem eraseP_eq_filter_of_nodup (forms : List Form) (id : String)
    (hnd : (forms.map fun f => f._id).Nodup) :
    forms.eraseP (fun f => f._id == id) = forms.filter fun f => !(f._id == id) := by
  induction forms with
  | nil => rfl
  | cons f fs ih =>
    rw [List.map_cons, List.nodup_cons] at hnd
    by_cases h : f._id = id
    · have hp : (f._id == id) = true := by simpa using h
      rw [List.eraseP_cons, List.filter_cons]
      simp only [hp, cond_true, Bool.not_true, Bool.false_eq_true, if_false]
      symm
      rw [List.filter_eq_self]
      intro g hg
      have : g._id ≠ id := by
        intro hgid
        exact hnd.1 (List.mem_map.2 ⟨g, hg, by rw [hgid, h]⟩)
      simpa using this
    · have hp : (f._id == id) = false := by simpa using h
      rw [List.eraseP_cons, List.filter_cons]
      simp only [hp, cond_false, Bool.not_false, if_true]
      rw [ih hnd.2]

/-- C23: after a successful delete of a form by its owner, in a store whose form
identifiers are distinct, no form of that identifier and no response referring to it
remain, and the other forms and the responses of other forms are kept as they were, in
their order. -/
theorem delete_removes_form_and_responses (db : Db) (userId id : String) (form : Form)
    (hnd : (db.forms.map fun f => f._id).Nodup)
    (hform : findOwnedForm db id userId = some form) :
    (deleteForm db userId id).2 = .ok "Form and associated responses deleted successfully" ∧
    form ∈ db.forms ∧ form._id = id ∧ form.createdBy = userId ∧
    form ∉ (deleteForm db userId id).1.forms ∧
    (∀ f ∈ (deleteForm db userId id).1.forms, f._id ≠ id) ∧
    (∀ r ∈ (deleteForm db userId id).1.responses, r.formId ≠ id) ∧
    (deleteForm db userId id).1.forms = db.forms.filter (fun f => !(f._id == id)) ∧
    (deleteForm db userId id).1.responses = db.responses.filter (fun r => !(r.formId == id)) ∧
    (∀ f, f._id ≠ id → (f ∈ (deleteForm db userId id).1.forms ↔ f ∈ db.forms)) ∧
    (∀ r, r.formId ≠ id → (r ∈ (deleteForm db userId id).1.responses ↔ r ∈ db.responses)) := by
  have hmem : form ∈ db.forms := List.mem_of_find?_eq_some hform
  have hp := List.find?_some (p := fun (f : Form) => f._id == id && f.createdBy == userId) hform
  simp only [Bool.and_eq_true, beq_iff_eq] at hp
  have hforms : (deleteForm db userId id).1.forms = db.forms.filter (fun f => !(f._id == id)) := by
    rw [deleteForm_found db userId id form hform]
    simp only
    rw [hp.1]
    exact eraseP_eq_filter_of_nodup db.forms id hnd
  have hresp : (deleteForm db userId id).1.responses =
      db.responses.filter (fun r => !(r.formId == id)) := by
    rw [deleteForm_found db userId id form hform]
    simp only
    rw [hp.1]
  refine ⟨by rw [deleteForm_found db userId id form hform], hmem, hp.1, hp.2, ?_, ?_, ?_, hforms,
    hresp, ?_, ?_⟩
  · rw [hforms, List.mem_filter]
    simp [hp.1]
  · intro f hf
    rw [hforms, List.mem_filter] at hf
    simpa using hf.2
  · intro r hr
    rw [hresp, List.mem_filter] at hr
    simpa using hr.2
  · intro f hf
    rw [hforms, List.mem_filter]
    simp [hf]
  · intro r hr
    rw [hresp, List.mem_filter]
    simp [hr]

/-- A use of `delete_removes_form_and_responses` at `twoResponsesDb`. -/
theorem delete_removes_form_and_responses_witness :
    (deleteForm twoResponsesDb "u1" "f1").1 = { forms := [], responses := [] } ∧
    (deleteForm twoResponsesDb "u1" "f1").2 =
      .ok "Form and associated responses deleted successfully" :=
  ⟨by decide,
    (delete_removes_form_and_responses twoResponsesDb "u1" "f1" ratingForm (by decide)
      (by decide)).1⟩

/-! ### C21: one answer for an absent form and for a form of another owner -/

theorem findOwnedForm_none (db : Db) (userId id : String)
    (h : ∀ f ∈ db.forms, f._id = id → f.createdBy ≠ userId) :
    findOwnedForm db id userId = none := by
  unfold findOwnedForm
  rw [List.find?_eq_none]
  intro f hf hp
  simp only [Bool.and_eq_true, beq_iff_eq] at hp
  exact h f hf hp.1 hp.2

theorem updateForm_not_found (db : Db) (userId id : String) (body : FormBody)
    (env : FormMeta) (hcast : castsToObjectId db id = true)
    (h : findOwnedForm db id userId = none) :
    updateForm db userId id body env =
      (db, if updateBodyValid body then .error 404 "Form not found" else .fieldErrors) := by
  unfold updateForm
  change (if (!updateBodyValid body) = true then _ else _) = _
  cases updateBodyValid body
  · rfl
  · simp only [Bool.not_true, Bool.false_eq_true, if_false, if_true, h, hcast]

theorem updateForm_cast_error (db : Db) (userId id : String) (body : FormBody)
    (env : FormMeta) (hcast : castsToObjectId db id = false) :
    updateForm db userId id body env =
      (db, if updateBodyValid body then .error 500 "Server error" else .fieldErrors) := by
  unfold updateForm
  change (if (!updateBodyValid body) = true then _ else _) = _
  cases updateBodyValid body
  · rfl
  · simp only [Bool.not_true, Bool.false_eq_true, if_false, if_true, hcast, Bool.not_false]

theorem castsToObjectId_absent (db : Db) (id : String) (hid : isObjectId id = false)
    (habsent : ∀ f ∈ db.forms, f._id ≠ id) : castsToObjectId db id = false := by
  unfold castsToObjectId
  rw [hid, Bool.false_or, List.any_eq_false]
  intro f hf
  simpa using habsent f hf

/-- C21, as the code has it: when the identifier is the hexadecimal form of an `ObjectId`
that no form of the store bears (store `db1`), and equally when the form bearing the
identifier belongs to another user (store `db2`), get form, delete, list responses,
summary and export answer 404 with the error `Form not found`, and so does an update whose
body passes the field validators, while an update whose body fails them is answered with
the validation errors in both cases; the stores are unchanged. When the identifier is not
the form of an `ObjectId` and no form bears it (store `db3`), the lookup throws: the five
reads and the delete answer 500 with the error `Server error`, and so does an update whose
body passes the field validators; the store is unchanged. -/
theorem not_found_is_uniform (db1 db2 db3 : Db) (userId id malformed : String)
    (hid : isObjectId id = true)
    (habsent : ∀ f ∈ db1.forms, f._id ≠ id)
    (hforeign : ∀ f ∈ db2.forms, f._id = id → f.createdBy ≠ userId)
    (hmalformed : isObjectId malformed = false)
    (habsent3 : ∀ f ∈ db3.forms, f._id ≠ malformed) :
    ((getForm db1 userId id = .error 404 "Form not found" ∧
        getForm db2 userId id = .error 404 "Form not found") ∧
      (deleteForm db1 userId id = (db1, .error 404 "Form not found") ∧
        deleteForm db2 userId id = (db2, .error 404 "Form not found")) ∧
      (∀ page limit, getResponses db1 userId id page limit = .error 404 "Form not found" ∧
        getResponses db2 userId id page limit = .error 404 "Form not found") ∧
      (getSummary db1 userId id = .error 404 "Form not found" ∧
        getSummary db2 userId id = .error 404 "Form not found") ∧
      (getExport db1 userId id = .error 404 "Form not found" ∧
        getExport db2 userId id = .error 404 "Form not found") ∧
      (∀ body env,
        updateForm db1 userId id body env =
          (db1, if updateBodyValid body then .error 404 "Form not found" else .fieldErrors) ∧
        updateForm db2 userId id body env =
          (db2, if updateBodyValid body then .error 404 "Form not found" else .fieldErrors))) ∧
    (getForm db3 userId malformed = .error 500 "Server error" ∧
      deleteForm db3 userId malformed = (db3, .error 500 "Server error") ∧
      (∀ page limit, getResponses db3 userId malformed page limit = .error 500 "Server error") ∧
      getSummary db3 userId malformed = .error 500 "Server error" ∧
      getExport db3 userId malformed = .error 500 "Server error" ∧
      (∀ body env,
        updateForm db3 userId malformed body env =
          (db3, if updateBodyValid body then .error 500 "Server error" else .fieldErrors))) := by
  have h1 : findOwnedForm db1 id userId = none :=
    findOwnedForm_none db1 userId id (fun f hf hid => absurd hid (habsent f hf))
  have h2 : findOwnedForm db2 id userId = none := findOwnedForm_none db2 userId id hforeign
  have c1 : castsToObjectId db1 id = true := castsToObjectId_of_isObjectId db1 id hid
  have c2 : castsToObjectId db2 id = true := castsToObjectId_of_isObjectId db2 id hid
  have c3 : castsToObjectId db3 malformed = false :=
    castsToObjectId_absent db3 malformed hmalformed habsent3
  refine ⟨⟨⟨?_, ?_⟩, ⟨?_, ?_⟩, ?_, ⟨?_, ?_⟩, ⟨?_, ?_⟩, ?_⟩, ?_, ?_, ?_, ?_, ?_, ?_⟩
  · simp only [getForm, h1, c1, Bool.not_true, Bool.false_eq_true, if_false]
  · simp only [getForm, h2, c2, Bool.not_true, Bool.false_eq_true, if_false]
  · simp only [deleteForm, h1, c1, Bool.not_true, Bool.false_eq_true, if_false]
  · simp only [deleteForm, h2, c2, Bool.not_true, Bool.false_eq_true, if_false]
  · intro page limit
    exact ⟨by simp only [getResponses, h1, c1, Bool.not_true, Bool.false_eq_true, if_false],
      by simp only [getResponses, h2, c2, Bool.not_true, Bool.false_eq_true, if_false]⟩
  · simp only [getSummary, h1, c1, Bool.not_true, Bool.false_eq_true, if_false]
  · simp only [getSummary, h2, c2, Bool.not_true, Bool.false_eq_true, if_false]
  · simp only [getExport, h1, c1, Bool.not_true, Bool.false_eq_true, if_false]
  · simp only [getExport, h2, c2, Bool.not_true, Bool.false_eq_true, if_false]
  · intro body env
    exact ⟨updateForm_not_found db1 userId id body env c1 h1,
      updateForm_not_found db2 userId id body env c2 h2⟩
  · simp only [getForm, c3, Bool.not_false, if_true]
  · simp only [deleteForm, c3, Bool.not_false, if_true]
  · intro page limit
    simp only [getResponses, c3, Bool.not_false, if_true]
  · simp only [getSummary, c3, Bool.not_false, if_true]
  · simp only [getExport, c3, Bool.not_false, if_true]
  · intro body env
    exact updateForm_cast_error db3 userId malformed body env c3

/-- A use of `not_found_is_uniform`: the user `u2` asks for the form of `u1` in the store
`pollDb`, for the same identifier in an empty store, and for the identifier `abc`. -/
theorem not_found_is_uniform_witness :
    (getSummary { forms := [], responses := [] } "u2" "64b7f0a1c2d3e4f5a6b7c8d0" =
        .error 404 "Form not found" ∧
      getSummary pollDb "u2" "64b7f0a1c2d3e4f5a6b7c8d0" = .error 404 "Form not found") ∧
    getSummary pollDb "u2" "abc" = .error 500 "Server error" :=
  have h := not_found_is_uniform { forms := [], responses := [] } pollDb pollDb "u2"
    "64b7f0a1c2d3e4f5a6b7c8d0" "abc" (by decide) (by decide) (by decide) (by decide) (by decide)
  ⟨h.1.2.2.2.1, h.2.2.2.2.1⟩

/-- C21, at two requests. The identifier `abc` is borne by no form, and the summary, like
every owner-only read, answers it with 500 `Server error`, while the identifier of a form
of another user is answered with 404 `Form not found`: the two results differ. And an
update with an empty title is answered, for an identifier that no form bears and for the
form of another user alike, with the validation error of status 400, not with 404. -/
theorem absent_malformed_id_not_404 :
    (∀ f ∈ pollDb.forms, f._id ≠ "abc") ∧
    getSummary pollDb "u2" "abc" = .error 500 "Server error" ∧
    getSummary pollDb "u2" "64b7f0a1c2d3e4f5a6b7c8d0" = .error 404 "Form not found" ∧
    deleteForm pollDb "u2" "abc" = (pollDb, .error 500 "Server error") ∧
    deleteForm pollDb "u2" "64b7f0a1c2d3e4f5a6b7c8d0" = (pollDb, .error 404 "Form not found") ∧
    updateForm { forms := [], responses := [] } "u2" "64b7f0a1c2d3e4f5a6b7c8d0"
        emptyTitleUpdate sampleFormMeta =
      ({ forms := [], responses := [] }, .fieldErrors) ∧
    updateForm pollDb "u2" "64b7f0a1c2d3e4f5a6b7c8d0" emptyTitleUpdate sampleFormMeta =
      (pollDb, .fieldErrors) ∧
    FormReply.fieldErrors ≠ FormReply.error 404 "Form not found" := by
  refine ⟨by decide, by decide, by decide, by decide, by decide, by decide, by decide,
    by decide⟩

/-! ### C22: the active flag -/

theorem find?_eq_some_of_unique {α : Type} (p : α → Bool) (l : List α) (a : α)
    (ha : a ∈ l) (hp : p a = true) (huniq : ∀ b ∈ l, p b = true → b = a) :
    l.find? p = some a := by
  cases h : l.find? p with
  | none =>
    rw [List.find?_eq_none] at h
    exact absurd hp (h a ha)
  | some b =>
    rw [huniq b (List.mem_of_find?_eq_some h) (List.find?_some h)]

/-- C22, as the code has it: in a store whose identifiers are distinct, for a form whose
active flag is false the public read answers 404, and a submission to it by public
identifier or by form identifier is refused and persists nothing, with 404 when its body
passes the field validators and with the validation errors otherwise; for an active form
the public read returns the form without its owner reference. -/
theorem active_flag_gates_public_access (db : Db) (form : Form) (hmem : form ∈ db.forms)
    (hpub : ∀ g ∈ db.forms, g.publicId = form.publicId → g = form)
    (hid : ∀ g ∈ db.forms, g._id = form._id → g = form) :
    (form.isActive = false →
      getPublicForm db form.publicId = .error 404 "Form not found or inactive" ∧
      (∀ answers env, postPublic db form.publicId answers env =
        (db, if bodyValid answers then .error 404 "Form not found or inactive"
          else .fieldErrors)) ∧
      (∀ answers env, postResponse db form._id answers env =
        (db, if form._id != "" && bodyValid answers then
          .error 404 "Form not found or inactive" else .fieldErrors))) ∧
    (form.isActive = true → getPublicForm db form.publicId = .ok (publicView form)) := by
  constructor
  · intro hinactive
    have h1 : (db.forms.find? fun f => f.publicId == form.publicId && f.isActive) = none := by
      rw [List.find?_eq_none]
      intro g hg hp
      simp only [Bool.and_eq_true, beq_iff_eq] at hp
      have := hpub g hg hp.1
      rw [this, hinactive] at hp
      exact absurd hp.2 (by simp)
    have h2 : (db.forms.find? fun f => f._id == form._id && f.isActive) = none := by
      rw [List.find?_eq_none]
      intro g hg hp
      simp only [Bool.and_eq_true, beq_iff_eq] at hp
      have := hid g hg hp.1
      rw [this, hinactive] at hp
      exact absurd hp.2 (by simp)
    refine ⟨by simp only [getPublicForm, h1], ?_, ?_⟩
    · intro answers env
      unfold postPublic
      cases bodyValid answers
      · rfl
      · simp only [Bool.not_true, Bool.false_eq_true, if_false, if_true, h1]
    · intro answers env
      unfold postResponse
      cases (form._id != "" && bodyValid answers)
      · rfl
      · simp only [Bool.not_true, Bool.false_eq_true, if_false, if_true, h2,
          castsToObjectId_of_mem db form._id form hmem rfl]
  · intro hactive
    have h1 : (db.forms.find? fun f => f.publicId == form.publicId && f.isActive) = some form :=
      find?_eq_some_of_unique _ _ form hmem (by simp [hactive]) (by
        intro g hg hp
        simp only [Bool.and_eq_true, beq_iff_eq] at hp
        exact hpub g hg hp.1)
    simp only [getPublicForm, h1]

/-- A use of `active_flag_gates_public_access` at the inactive form `closedForm`. -/
theorem active_flag_gates_public_access_witness :
    getPublicForm { forms := [closedForm], responses := [] } "p1" =
      .error 404 "Form not found or inactive" ∧
    postPublic { forms := [closedForm], responses := [] } "p1" undeclaredRating sampleMeta =
      ({ forms := [closedForm], responses := [] }, .error 404 "Form not found or inactive") :=
  have h := (active_flag_gates_public_access { forms := [closedForm], responses := [] }
    closedForm (by decide) (by decide) (by decide)).1 rfl
  ⟨h.1, by decide⟩

/-- C22, at a submission with an empty answers list to the inactive form `closedForm`:
both handlers refuse it with the validation errors of status 400, not with 404. -/
theorem empty_submission_to_inactive_form :
    closedForm.isActive = false ∧
    postPublic { forms := [closedForm], responses := [] } "p1" [] sampleMeta =
      ({ forms := [closedForm], responses := [] }, .fieldErrors) ∧
    postResponse { forms := [closedForm], responses := [] } "f1" [] sampleMeta =
      ({ forms := [closedForm], responses := [] }, .fieldErrors) ∧
    SubmitReply.fieldErrors ≠ SubmitReply.error 404 "Form not found or inactive" := by
  refine ⟨by decide, by decide, by decide, by decide⟩

/-! ### C29: what an update leaves alone -/

/-- C29: an update by the owner that succeeds keeps the stored value of every field the
request does not supply (title, description, questions, active flag), and never changes
the identifier, the owner or the public identifier; an update refused because a
multiple-choice question has fewer than 2 options, like every refused update, leaves the
store and so every field of the stored form as it was. -/
theorem update_keeps_unsupplied_fields (db : Db) (userId id : String) (body : FormBody)
    (env : FormMeta) (form : Form) (hform : findOwnedForm db id userId = some form) :
    (∀ form', (updateForm db userId id body env).2 = .ok form' →
      (body.title = none → form'.title = form.title) ∧
      (body.description = none → form'.description = form.description) ∧
      (body.questions = none → form'.questions = form.questions) ∧
      (body.isActive = none → form'.isActive = form.isActive) ∧
      form'._id = form._id ∧ form'.createdBy = form.createdBy ∧
      form'.publicId = form.publicId ∧
      (updateForm db userId id body env).1 =
        { db with forms := db.forms.map fun f => if f._id == form._id then form' else f }) ∧
    ((updateForm db userId id body env).2 =
        .error 400 "Multiple-choice questions must have at least 2 options" →
      (updateForm db userId id body env).1 = db) ∧
    ((∀ form', (updateForm db userId id body env).2 ≠ .ok form') →
      (updateForm db userId id body env).1 = db) := by
  unfold updateForm
  simp only [hform, castsToObjectId_of_owned db id userId form hform, Bool.not_true,
    Bool.false_eq_true, if_false]
  split
  · exact ⟨fun form' h => by simp at h, fun _ => rfl, fun _ => rfl⟩
  · cases hq : body.questions with
    | none =>
      simp only
      refine ⟨?_, fun h => by simp at h, fun h => absurd rfl (h _)⟩
      intro form' hf'
      simp only [FormReply.ok.injEq] at hf'
      subst hf'
      refine ⟨?_, ?_, ?_, ?_, ?_, ?_, ?_, rfl⟩ <;>
        (cases body.title <;> cases body.description <;> cases body.isActive <;>
          simp only [] <;> (try split) <;> simp)
    | some qs =>
      simp only
      split
      · exact ⟨fun form' h => by simp at h, fun _ => rfl, fun _ => rfl⟩
      · split
        · exact ⟨fun form' h => by simp at h, fun _ => rfl, fun _ => rfl⟩
        · refine ⟨?_, fun h => by simp at h, fun h => absurd rfl (h _)⟩
          intro form' hf'
          simp only [FormReply.ok.injEq] at hf'
          subst hf'
          refine ⟨?_, ?_, ?_, ?_, ?_, ?_, ?_, rfl⟩ <;>
            (cases body.title <;> cases body.description <;> cases body.isActive <;>
              simp only [] <;> (try split) <;> simp)

/-- A use of `update_keeps_unsupplied_fields`: an update that only clears the active
flag of `ratingForm`. -/
theorem update_keeps_unsupplied_fields_witness :
    closedForm.title = ratingForm.title ∧ closedForm.questions = ratingForm.questions ∧
    (updateForm twoResponsesDb "u1" "f1"
        { title := none, description := none, questions := none, isActive := some false }
        sampleFormMeta).2 = .ok closedForm :=
  have h := (update_keeps_unsupplied_fields twoResponsesDb "u1" "f1"
    { title := none, description := none, questions := none, isActive := some false }
    sampleFormMeta ratingForm (by decide)).1 closedForm (by decide)
  ⟨h.1 rfl, h.2.2.1 rfl, by decide⟩

/-! ### C28: the client's form validation -/

theorem errorsSet_ne_nil (errors : List (String × String)) (key message : String)
    (hk : key ≠ "__proto__") : errorsSet errors key message ≠ [] := by
  unfold errorsSet
  rw [if_neg hk]
  split
  · rename_i h
    intro h0
    rw [List.map_eq_nil_iff] at h0
    rw [h0] at h
    simp at h
  · simp

theorem errorsSet_ne_nil_of_ne_nil (errors : List (String × String)) (key message : String)
    (he : errors ≠ []) : errorsSet errors key message ≠ [] := by
  unfold errorsSet
  split
  · exact he
  · split
    · intro h0
      rw [List.map_eq_nil_iff] at h0
      exact he h0
    · simp

theorem question_key_ne_proto (suffix : String) : "question_" ++ suffix ≠ "__proto__" := by
  intro h
  have := congrArg String.data h
  rw [String.data_append] at this
  simp at this

theorem questionErrors_eq_nil_iff (index : Nat) (qs : List QuestionInput)
    (errors : List (String × String)) :
    questionErrors index qs errors = [] ↔
      errors = [] ∧ ∀ q ∈ qs, jsTrim q.question ≠ "" ∧
        (q.type = "multiple-choice" → ∃ o, q.options = some o ∧ 2 ≤ o.length) := by
  induction qs generalizing index errors with
  | nil => simp [questionErrors]
  | cons q qs ih =>
    rw [questionErrors, ih]
    have hmc : (q.type == "multiple-choice" &&
          (match q.options with
            | none => true
            | some options => decide (options.length < 2))) = true ↔
        ¬ (q.type = "multiple-choice" → ∃ o, q.options = some o ∧ 2 ≤ o.length) := by
      cases q.options with
      | none => simp
      | some o => simp
    constructor
    · rintro ⟨h0, hrest⟩
      by_cases h1 : (jsTrim q.question == "") = true
      · exfalso
        rw [if_pos h1] at h0
        split at h0
        · exact errorsSet_ne_nil_of_ne_nil _ _ _
            (errorsSet_ne_nil _ _ _ (question_key_ne_proto _)) h0
        · exact errorsSet_ne_nil _ _ _ (question_key_ne_proto _) h0
      · rw [if_neg h1] at h0
        by_cases h2 : (q.type == "multiple-choice" &&
            (match q.options with
              | none => true
              | some options => decide (options.length < 2))) = true
        · exfalso
          rw [if_pos h2] at h0
          have hkey : "question_" ++ toString index ++ "_options" ≠ "__proto__" := by
            rw [String.append_assoc]; exact question_key_ne_proto _
          exact errorsSet_ne_nil _ _ _ hkey h0
        · rw [if_neg h2] at h0
          refine ⟨h0, ?_⟩
          intro q' hq'
          rcases List.mem_cons.1 hq' with h | h
          · rw [h]
            refine ⟨by simpa using h1, ?_⟩
            by_contra hcon
            exact h2 (hmc.2 hcon)
          · exact hrest q' h
    · rintro ⟨h0, hall⟩
      have hq := hall q (List.mem_cons_self _ _)
      have h1 : ¬ (jsTrim q.question == "") = true := by simpa using hq.1
      have h2 : ¬ (q.type == "multiple-choice" &&
            (match q.options with
              | none => true
              | some options => decide (options.length < 2))) = true := by
        intro h
        exact hmc.1 h hq.2
      rw [if_neg h1, if_neg h2]
      exact ⟨h0, fun q' hq' => hall q' (List.mem_cons_of_mem _ hq')⟩

/-- C28: `validateForm` reports `isValid` exactly when the title is non-blank once
trimmed, the question list exists and has 3 to 5 entries, every question's text is
non-blank once trimmed and every multiple-choice question has an options list of at least
2 entries; and `isValid` is true exactly when the errors object has no keys. -/
theorem validateForm_isValid_iff (formData : FormInput) :
    ((validateForm formData).isValid = true ↔
      (∃ title, formData.title = some title ∧ jsTrim title ≠ "") ∧
      ∃ qs, formData.questions = some qs ∧ 3 ≤ qs.length ∧ qs.length ≤ 5 ∧
        ∀ q ∈ qs, jsTrim q.question ≠ "" ∧
          (q.type = "multiple-choice" → ∃ o, q.options = some o ∧ 2 ≤ o.length)) ∧
    ((validateForm formData).isValid = true ↔
      (validateForm formData).errors.map Prod.fst = []) := by
  have hvalid : (validateForm formData).isValid = true ↔ (validateForm formData).errors = [] := by
    simp [validateForm, List.length_eq_zero]
  refine ⟨?_, by rw [hvalid, List.map_eq_nil_iff]⟩
  rw [hvalid]
  unfold validateForm
  simp only
  cases ht : formData.title with
  | none =>
    simp only [if_true]
    constructor
    · intro h
      exfalso
      have h1 : errorsSet [] "title" "Form title is required" ≠ [] :=
        errorsSet_ne_nil _ _ _ (by decide)
      cases hq : formData.questions with
      | none =>
        rw [hq] at h
        simp only [if_true] at h
        exact errorsSet_ne_nil_of_ne_nil _ _ _ h1 h
      | some qs =>
        rw [hq] at h
        simp only at h
        rw [questionErrors_eq_nil_iff] at h
        split at h
        · exact errorsSet_ne_nil_of_ne_nil _ _ _ h1 h.1
        · exact h1 h.1
    · rintro ⟨⟨t, h, -⟩, -⟩
      simp at h
  | some title =>
    simp only
    cases hq : formData.questions with
    | none =>
      simp only [if_true]
      constructor
      · intro h
        exfalso
        split at h
        · exact errorsSet_ne_nil_of_ne_nil _ _ _ (errorsSet_ne_nil _ _ _ (by decide)) h
        · exact errorsSet_ne_nil _ _ _ (by decide) h
      · rintro ⟨-, qs, h, -⟩
        simp at h
    | some qs =>
      simp only
      rw [questionErrors_eq_nil_iff]
      constructor
      · rintro ⟨h0, hall⟩
        by_cases h1 : (jsTrim title == "") = true
        · exfalso
          rw [if_pos h1] at h0
          split at h0
          · exact errorsSet_ne_nil_of_ne_nil _ _ _ (errorsSet_ne_nil _ _ _ (by decide)) h0
          · exact errorsSet_ne_nil _ _ _ (by decide) h0
        · rw [if_neg h1] at h0
          by_cases h2 : (decide (qs.length < 3) || decide (qs.length > 5)) = true
          · exfalso
            rw [if_pos h2] at h0
            exact errorsSet_ne_nil _ _ _ (by decide) h0
          · simp only [Bool.or_eq_true, decide_eq_true_eq, not_or, not_lt] at h2
            exact ⟨⟨title, rfl, by simpa using h1⟩, qs, rfl, h2.1, by omega, hall⟩
      · rintro ⟨⟨t, ht', hne⟩, qs', hqs', h3, h5, hall⟩
        simp only [Option.some.injEq] at ht' hqs'
        subst ht' hqs'
        have h1 : ¬ (jsTrim title == "") = true := by simpa using hne
        have h2 : ¬ (decide (qs.length < 3) || decide (qs.length > 5)) = true := by
          simp only [Bool.or_eq_true, decide_eq_true_eq, not_or, not_lt]
          omega
        rw [if_neg h1, if_neg h2]
        exact ⟨rfl, hall⟩

/-- A use of `validateForm_isValid_iff` at the sample create request. -/
theorem validateForm_isValid_iff_witness :
    (validateForm sampleFormInput).isValid = true ∧
    (validateForm sampleFormInput).errors.map Prod.fst = [] :=
  ⟨by decide, ((validateForm_isValid_iff sampleFormInput).2).1 (by decide)⟩

/-! ### C27: from the client's validation to the server's checks -/

theorem ne_proto_of_isObjectId (s : String) (h : isObjectId s = true) : s ≠ "__proto__" := by
  intro h0
  rw [h0] at h
  revert h
  decide

/-- The step of `requiredQuestions.forEach` adds an error for a question exactly when no
entry of the answers refers to it or the first such entry is blank. -/
theorem requiredErrors_eq_nil_iff (answers : List Answer) (qs : List Question)
    (errors : List (String × String)) (hids : ∀ q ∈ qs, q._id ≠ "__proto__") :
    qs.foldl
        (fun errors question =>
          match answers.find? fun a => a.questionId == question._id with
          | none => errorsSet errors question._id "This field is required"
          | some answer =>
            if answer.answer == "" || jsTrim answer.answer == "" then
              errorsSet errors question._id "This field is required"
            else errors)
        errors = [] ↔
      errors = [] ∧ ∀ q ∈ qs, ∃ a, (answers.find? fun a => a.questionId == q._id) = some a ∧
        a.answer ≠ "" ∧ jsTrim a.answer ≠ "" := by
  induction qs generalizing errors with
  | nil => simp
  | cons q qs ih =>
    rw [List.foldl_cons, ih _ (fun q' hq' => hids q' (List.mem_cons_of_mem _ hq'))]
    have hq := hids q (List.mem_cons_self _ _)
    cases hf : answers.find? (fun a => a.questionId == q._id) with
    | none =>
      simp only
      constructor
      · rintro ⟨h0, -⟩
        exact absurd h0 (errorsSet_ne_nil _ _ _ hq)
      · rintro ⟨-, hall⟩
        obtain ⟨a, ha, -⟩ := hall q (List.mem_cons_self _ _)
        rw [hf] at ha
        simp at ha
    | some a =>
      simp only
      by_cases hb : (a.answer == "" || jsTrim a.answer == "") = true
      · rw [if_pos hb]
        constructor
        · rintro ⟨h0, -⟩
          exact absurd h0 (errorsSet_ne_nil _ _ _ hq)
        · rintro ⟨-, hall⟩
          obtain ⟨a', ha', h1, h2⟩ := hall q (List.mem_cons_self _ _)
          rw [hf] at ha'
          simp only [Option.some.injEq] at ha'
          subst ha'
          simp only [Bool.or_eq_true, beq_iff_eq] at hb
          rcases hb with hb | hb
          · exact absurd hb h1
          · exact absurd hb h2
      · rw [if_neg hb]
        simp only [Bool.or_eq_true, beq_iff_eq, not_or] at hb
        constructor
        · rintro ⟨h0, hall⟩
          refine ⟨h0, ?_⟩
          intro q' hq'
          rcases List.mem_cons.1 hq' with h | h
          · rw [h]; exact ⟨a, hf, hb.1, hb.2⟩
          · exact hall q' h
        · rintro ⟨h0, hall⟩
          exact ⟨h0, fun q' hq' => hall q' (List.mem_cons_of_mem _ hq')⟩

/-- C27: when the answer state of the public page has one entry per question of the form
and `validateFormResponse` reports `isValid`, the answers the page sends, the blank
entries dropped and the others trimmed, hold for every required question an entry with a
non-empty answer, every sent entry has a non-empty answer and refers to a question of the
form, and the server's required-question and question-reference checks pass. -/
theorem client_valid_passes_server_checks (form : Form) (answers : List Answer)
    (hids : ∀ q ∈ form.questions, isObjectId q._id = true)
    (hstate : answers.map (fun a => a.questionId) = form.questions.map fun q => q._id)
    (hvalid : (validateFormResponse (some (publicView form)) answers).isValid = true) :
    (∀ q ∈ form.questions, q.required = true →
      ∃ a ∈ filteredAnswers answers, a.questionId = q._id ∧ a.answer ≠ "") ∧
    (∀ a ∈ filteredAnswers answers,
      a.answer ≠ "" ∧ a.questionId ∈ form.questions.map fun q => q._id) ∧
    checkAnswers form (filteredAnswers answers) = none := by
  have herr : (form.questions.filter fun q => q.required).foldl
        (fun errors question =>
          match answers.find? fun a => a.questionId == question._id with
          | none => errorsSet errors question._id "This field is required"
          | some answer =>
            if answer.answer == "" || jsTrim answer.answer == "" then
              errorsSet errors question._id "This field is required"
            else errors)
        [] = [] := by
    simpa [validateFormResponse, publicView, List.length_eq_zero] using hvalid
  rw [requiredErrors_eq_nil_iff _ _ _ (fun q hq =>
    ne_proto_of_isObjectId _ (hids q (List.mem_filter.1 hq).1))] at herr
  have hreq : ∀ q ∈ form.questions, q.required = true →
      ∃ a ∈ filteredAnswers answers, a.questionId = q._id ∧ a.answer ≠ "" := by
    intro q hq hr
    obtain ⟨a, ha, h1, h2⟩ := herr.2 q (List.mem_filter.2 ⟨hq, hr⟩)
    have hqa := List.find?_some (p := fun (a : Answer) => a.questionId == q._id) ha
    refine ⟨{ questionId := a.questionId, answer := jsTrim a.answer }, ?_, by simpa using hqa, h2⟩
    unfold filteredAnswers
    rw [List.mem_map]
    refine ⟨a, List.mem_filter.2 ⟨List.mem_of_find?_eq_some ha, ?_⟩, rfl⟩
    simp [h1, h2]
  have hsent : ∀ a ∈ filteredAnswers answers,
      a.answer ≠ "" ∧ a.questionId ∈ form.questions.map fun q => q._id := by
    intro a ha
    unfold filteredAnswers at ha
    rw [List.mem_map] at ha
    obtain ⟨a0, ha0, rfl⟩ := ha
    rw [List.mem_filter] at ha0
    refine ⟨?_, ?_⟩
    · have := ha0.2
      simp only [Bool.and_eq_true, bne_iff_ne, ne_eq] at this
      exact this.2
    · rw [← hstate]
      exact List.mem_map.2 ⟨a0, ha0.1, rfl⟩
  refine ⟨hreq, hsent, ?_⟩
  apply checkAnswers_none
  · intro q hq hr
    obtain ⟨a, ha, hid, -⟩ := hreq q hq hr
    exact List.mem_map.2 ⟨a, ha, hid⟩
  · intro a ha
    exact (hsent a ha).2

/-- A use of `client_valid_passes_server_checks` at `pollForm`. -/
theorem client_valid_passes_server_checks_witness :
    filteredAnswers pollAnswers =
      [{ questionId := "64b7f0a1c2d3e4f5a6b7c8d1", answer := "Ada" },
       { questionId := "64b7f0a1c2d3e4f5a6b7c8d3", answer := "A" }] ∧
    checkAnswers pollForm (filteredAnswers pollAnswers) = none :=
  ⟨by decide,
    (client_valid_passes_server_checks pollForm pollAnswers (by decide) (by decide)
      (by decide)).2.2⟩

end Feedback
